import Mathlib

/-!
# rio: event loop, selector, time type and tasks

A shallow embedding of the single-threaded reactor of `rio`
(`src/rio/event_loop.cpp`, `src/rio/selector.cpp`, `include/rio/event_loop.hpp`,
`include/rio/selector.hpp`, `include/rio/common/time_type.hpp`) and of its coroutine type
(`include/rio/task.hpp`), and theorems about them.

Conventions of the embedding

* Member functions take the object as their last explicit argument and return the new
  object.  A function that can throw returns an `outcome`: the object as the call left it,
  and the exception if one escaped.
* Everything the operating system or the user's code decides is an explicit argument:
  the value a system call returns, the value the monotonic clock shows, the effect of
  running a scheduled function or resuming a coroutine.
* `int` file descriptors are `Int`; `size_t` counters are `Nat` reduced modulo `2^64` where
  the code increments or decrements them; `std::int64_t` nanosecond counts are `Int`
  wrapped into the signed 64-bit range where the code adds or subtracts them.
-/

namespace rio

/-! ## Exceptions and outcomes -/

/-- The exception classes thrown by the library.  `assertion_failed` stands for a failed
`TSL_ASSERT` (the macro lives in `tsl/macros.hpp`, outside the sources; a failed assertion
is taken to end the call abnormally). -/
inductive exception where
  | out_of_range
  | invalid_argument
  | bad_file_descriptor
  | system_error
  | bad_selector_access
  | multiple_event_loops_exception
  | bad_event_loop_access
  | broken_promise
  | assertion_failed
deriving DecidableEq, Repr

/-- The result of a call that may throw: the object after the call, and, when an exception
escaped, which one. -/
inductive outcome (α : Type) where
  | returned (s : α)
  | thrown (e : exception) (s : α)

/-- The object as the call left it. -/
def outcome.state {α : Type} : outcome α → α
  | .returned s => s
  | .thrown _ s => s

/-- The exception that escaped the call, if any. -/
def outcome.exn {α : Type} : outcome α → Option exception
  | .returned _ => none
  | .thrown e _ => some e

/-! ## time_type (`include/rio/common/time_type.hpp`) -/

/-- Two's-complement reduction into the range of `std::int64_t`. -/
def wrap64 (x : Int) : Int := (x + 2 ^ 63) % 2 ^ 64 - 2 ^ 63

/-- The POSIX `timespec` pair. -/
structure timespec where
  tv_sec : Int
  tv_nsec : Int
deriving DecidableEq, Repr

/-- A signed 64-bit count of nanoseconds. -/
structure time_type where
  time_ : Int
deriving DecidableEq, Repr

/-- The C++ `time_type::fdiv`: `if ((a < 0) != (b < 0)) a -= (b - 1); return a / b;` with
the truncating division of C++. -/
def time_type.fdiv (a b : Int) : Int :=
  let a1 := if (decide (a < 0)) != (decide (b < 0)) then wrap64 (a - (b - 1)) else a
  wrap64 (Int.tdiv a1 b)

/-- The C++ `time_type()`: zero. -/
def time_type.zero : time_type := ⟨0⟩

/-- The C++ `time_type::from_ns`. -/
def time_type.from_ns (i : Int) : time_type := ⟨i⟩

/-- The C++ `time_type::from_sec`. -/
def time_type.from_sec (seconds : Int) : time_type := ⟨wrap64 (seconds * 1000000000)⟩

/-- The C++ `time_type::from_ms`. -/
def time_type.from_ms (ms : Int) : time_type := ⟨wrap64 (ms * 1000000)⟩

/-- The C++ `time_type::from_timespec`. -/
def time_type.from_timespec (ts : timespec) : time_type :=
  ⟨wrap64 (wrap64 (ts.tv_sec * 1000000000) + ts.tv_nsec)⟩

/-- The C++ `time_type::as_ns`. -/
def time_type.as_ns (t : time_type) : Int := t.time_

/-- The C++ `time_type::as_sec`. -/
def time_type.as_sec (t : time_type) : Int := time_type.fdiv t.time_ 1000000000

/-- The C++ `time_type::as_ms`. -/
def time_type.as_ms (t : time_type) : Int := time_type.fdiv t.time_ 1000000

/-- The C++ `time_type::as_timespec`. -/
def time_type.as_timespec (t : time_type) : timespec :=
  let sec := time_type.fdiv t.time_ 1000000000
  let nsec := wrap64 (t.time_ - wrap64 (1000000000 * sec))
  { tv_sec := sec, tv_nsec := nsec }

/-- The C++ `time_type::operator+`. -/
def time_type.add (a b : time_type) : time_type := ⟨wrap64 (a.time_ + b.time_)⟩

/-- The C++ `time_type::operator-` (binary). -/
def time_type.sub (a b : time_type) : time_type := ⟨wrap64 (a.time_ - b.time_)⟩

/-- The comparison `a <= b` obtained from `time_type::operator<=>`. -/
def time_type.le (a b : time_type) : Bool := decide (a.time_ ≤ b.time_)

/-! ## Bit flags (`file_ops.hpp`, `selector.hpp`, `bitwise_base.hpp`) -/

/-- The C++ `rio::file_ops`: a `std::uint8_t` bit set over `readable` and `writable`. -/
structure file_ops where
  n_ : Nat
deriving DecidableEq, Repr

def file_ops.none : file_ops := ⟨0x00⟩
def file_ops.readable : file_ops := ⟨0x01⟩
def file_ops.writable : file_ops := ⟨0x02⟩

/-- The C++ `bitwise_base::operator&` on `file_ops`. -/
def file_ops.and (a b : file_ops) : file_ops := ⟨a.n_ &&& b.n_⟩

/-- The C++ `bitwise_base::operator|` on `file_ops`. -/
def file_ops.or (a b : file_ops) : file_ops := ⟨a.n_ ||| b.n_⟩

/-- The C++ `bitwise_base::operator bool` on `file_ops`. -/
def file_ops.to_bool (a : file_ops) : Bool := a.n_ != 0

/-- The C++ `selector::events`: a `std::uint8_t` bit set over `input` and `output`. -/
structure selector.events where
  n_ : Nat
deriving DecidableEq, Repr

def selector.events.none : selector.events := ⟨0x00⟩
def selector.events.input : selector.events := ⟨0x01⟩
def selector.events.output : selector.events := ⟨0x02⟩

/-- The C++ `bitwise_base::operator&` on `selector::events`. -/
def selector.events.and (a b : selector.events) : selector.events := ⟨a.n_ &&& b.n_⟩

/-- The C++ `bitwise_base::operator|` on `selector::events`. -/
def selector.events.or (a b : selector.events) : selector.events := ⟨a.n_ ||| b.n_⟩

/-- The C++ `bitwise_base::operator bool` on `selector::events`. -/
def selector.events.to_bool (a : selector.events) : Bool := a.n_ != 0

/-- The C++ `selector::event_data`. -/
structure selector.event_data where
  fd : Int
  flags : selector.events
deriving DecidableEq, Repr

/-! ## The selector (`src/rio/selector.cpp`) -/

def EPOLLIN : Nat := 0x001
def EPOLLPRI : Nat := 0x002
def EPOLLOUT : Nat := 0x004
def EPOLLERR : Nat := 0x008
def EPOLLHUP : Nat := 0x010
def EPOLLRDHUP : Nat := 0x2000
def EPOLLET : Nat := 0x80000000
def EPOLL_CTL_ADD : Nat := 1
def EPOLL_CTL_DEL : Nat := 2
def EINTR : Int := 4

/-- The kernel's `struct epoll_event`, with `data.fd` as the only member of `data` used. -/
structure epoll_event where
  events : Nat
  data_fd : Int
deriving DecidableEq, Repr

/-- The system call `epoll_ctl(epfd, op, fd, event)` as the code sees it: a return value. -/
abbrev epoll_ctl_t := Int → Nat → Int → Option epoll_event → Int

/-- What `epoll_pwait2` reports: on success the events it stored (their number is the
return value), on failure `-1` and `errno`. -/
inductive epoll_pwait2_result where
  | ready (evs : List epoll_event)
  | failed (errno : Int)
deriving DecidableEq, Repr

/-- The system call `epoll_pwait2(epfd, events, maxevents, timeout, nullptr)` as the code
sees it; the timeout is `none` for a null pointer. -/
abbrev epoll_pwait2_t := Int → Nat → Option timespec → epoll_pwait2_result

/-- The C++ `rio::selector`. -/
structure selector where
  epfd_ : Int
  num_events_ : Nat
deriving DecidableEq, Repr

def MAX_EVENTS : Nat := 1024

/-- The C++ `selector::selector()`: `epoll_create1` is the value the system call returns. -/
def selector.ctor (epoll_create1 : Int) : Except exception selector :=
  if epoll_create1 = -1 then .error .system_error
  else .ok { epfd_ := epoll_create1, num_events_ := 0 }

/-- The C++ `selector::get_num_events`. -/
def selector.get_num_events (self : selector) : Nat := self.num_events_

/-- The C++ `selector::add_fd`. -/
def selector.add_fd (epoll_ctl : epoll_ctl_t) (fd : Int) (ev : selector.events)
    (self : selector) : outcome selector :=
  if self.epfd_ = -1 then .thrown .bad_selector_access self else
  let events0 := EPOLLET
  let events1 :=
    if (ev.and selector.events.input).to_bool then events0 ||| (EPOLLIN ||| EPOLLPRI ||| EPOLLRDHUP)
    else events0
  let events2 :=
    if (ev.and selector.events.output).to_bool then events1 ||| EPOLLOUT else events1
  let epev : epoll_event := { events := events2, data_fd := fd }
  if epoll_ctl self.epfd_ EPOLL_CTL_ADD fd (some epev) = -1 then .thrown .system_error self
  else .returned { self with num_events_ := (self.num_events_ + 1) % 2 ^ 64 }

/-- The C++ `selector::del_fd`. -/
def selector.del_fd (epoll_ctl : epoll_ctl_t) (fd : Int) (self : selector) : outcome selector :=
  if self.epfd_ = -1 then .thrown .bad_selector_access self else
  if epoll_ctl self.epfd_ EPOLL_CTL_DEL fd Option.none = -1 then .thrown .system_error self
  else if ¬ (self.num_events_ > 0) then .thrown .assertion_failed self
  else .returned { self with num_events_ := (self.num_events_ + 2 ^ 64 - 1) % 2 ^ 64 }

/-- The translation of one raw event mask in the loop of `selector::_wait`. -/
def selector.translate (raw : epoll_event) : selector.event_data :=
  let mask := raw.events
  let ev : selector.event_data := { fd := raw.data_fd, flags := selector.events.none }
  if mask &&& EPOLLERR ≠ 0 then
    { ev with flags := selector.events.input.or selector.events.output }
  else
    let ev1 :=
      if mask &&& (EPOLLIN ||| EPOLLPRI ||| EPOLLRDHUP) ≠ 0 then
        { ev with flags := ev.flags.or selector.events.input }
      else ev
    if mask &&& (EPOLLOUT ||| EPOLLHUP) ≠ 0 then
      { ev1 with flags := ev1.flags.or selector.events.output }
    else ev1

/-- The C++ `selector::_wait`: the vector `data` after the call, or the exception. -/
def selector._wait (epoll_pwait2 : epoll_pwait2_t) (data : List selector.event_data)
    (timeout : Option timespec) (self : selector) : outcome (List selector.event_data) :=
  if self.epfd_ = -1 then .thrown .bad_selector_access data else
  match epoll_pwait2 self.epfd_ MAX_EVENTS timeout with
  | .failed errno =>
      if errno = EINTR then .returned data else .thrown .system_error data
  | .ready evs => .returned (data ++ evs.map selector.translate)

/-- The C++ `selector::wait(data)`. -/
def selector.wait (epoll_pwait2 : epoll_pwait2_t) (data : List selector.event_data)
    (self : selector) : outcome (List selector.event_data) :=
  self._wait epoll_pwait2 data Option.none

/-- The C++ `selector::wait(data, timeout)`. -/
def selector.wait_for (epoll_pwait2 : epoll_pwait2_t) (data : List selector.event_data)
    (timeout : time_type) (self : selector) : outcome (List selector.event_data) :=
  if timeout.as_ns < 0 then self._wait epoll_pwait2 data Option.none
  else self._wait epoll_pwait2 data (some timeout.as_timespec)

/-! ## The event loop: data (`include/rio/event_loop.hpp`) -/

/-- The C++ `std::coroutine_handle<>`: the address of a coroutine frame. -/
abbrev coroutine_handle := Nat

/-- The C++ `event_loop_t::schedulable_func_t`: the address of a plain function. -/
abbrev schedulable_func_t := Nat

/-- The C++ `event_loop_t::file_internal`; the two `std::queue`s are lists, front first. -/
structure file_internal where
  fd_ : Int
  ops_ : file_ops
  constructed_ : Bool
  valid_ : Bool
  reading_ : List coroutine_handle
  writing_ : List coroutine_handle
deriving DecidableEq, Repr

/-- A record in the zero-filled pages that `page_alloc` returns. -/
def file_internal.zeroed : file_internal :=
  { fd_ := 0, ops_ := ⟨0⟩, constructed_ := false, valid_ := false,
    reading_ := [], writing_ := [] }

/-- The C++ `file_internal::file_internal(int fd)`. -/
def file_internal.ctor (fd : Int) : file_internal :=
  { fd_ := fd, ops_ := ⟨0x00⟩, constructed_ := true, valid_ := false,
    reading_ := [], writing_ := [] }

/-- The C++ `file_internal::is_constructed`. -/
def file_internal.is_constructed (f : file_internal) : Bool := f.constructed_

/-- The C++ `file_internal::is_valid`. -/
def file_internal.is_valid (f : file_internal) : Bool := f.valid_

/-- The C++ `event_loop_t::schedule_type`. -/
inductive schedule_type where
  | FUNCTION
  | COROUTINE
deriving DecidableEq, Repr

/-- The C++ `event_loop_t::scheduled_handle`: the tag, the union of `coro_` and `func_`
(`target_`), and the deadline. -/
structure scheduled_handle where
  type_ : schedule_type
  target_ : Nat
  time_ : time_type
deriving DecidableEq, Repr

/-- The C++ `scheduled_handle(std::coroutine_handle<> coro, time_type delay)`. -/
def scheduled_handle.of_coro (coro : coroutine_handle) (time : time_type) : scheduled_handle :=
  { type_ := .COROUTINE, target_ := coro, time_ := time }

/-- The C++ `scheduled_handle(schedulable_func_t func, time_type time)`. -/
def scheduled_handle.of_func (func : schedulable_func_t) (time : time_type) : scheduled_handle :=
  { type_ := .FUNCTION, target_ := func, time_ := time }

/-- The C++ `scheduled_handle::time`. -/
def scheduled_handle.time (sc : scheduled_handle) : time_type := sc.time_

/-! ### The timer heap

`std::priority_queue<scheduled_handle, std::vector<scheduled_handle>, std::greater<>>` is the
standard library's.  It is embedded as the list of the elements it holds: `top` is an element
with the least deadline (the earliest pushed among equal deadlines, a choice the standard
leaves open), `pop` removes that element, `emplace` adds one. -/

/-- The C++ `priority_queue::top` (with `std::greater`): `none` on an empty queue. -/
def pq_top : List scheduled_handle → Option scheduled_handle
  | [] => none
  | x :: xs =>
    match pq_top xs with
    | none => some x
    | some y => if x.time.le y.time then some x else some y

/-- The C++ `priority_queue::pop`. -/
def pq_pop (q : List scheduled_handle) : List scheduled_handle :=
  match pq_top q with
  | none => q
  | some x => q.erase x

/-- The C++ `priority_queue::emplace`. -/
def pq_emplace (q : List scheduled_handle) (x : scheduled_handle) : List scheduled_handle :=
  q ++ [x]

/-- The C++ `rio::event_loop_t`.  `files_` is the flat array of records, indexed by fd; the
functions below index it only after the range check, `run` indexes it with the fd of an
event the kernel reported. -/
structure event_loop_t where
  files_ : Int → file_internal
  constructed_files_ : Nat → Nat
  selector_ : selector
  scheduled_ : List scheduled_handle
  max_fileno_ : Nat

/-- Assignment to one element of `files_`. -/
def event_loop_t.set_file (self : event_loop_t) (fd : Int) (f : file_internal) : event_loop_t :=
  { self with files_ := Function.update self.files_ fd f }

/-! ## The process-wide slot, construction and destruction (`event_loop.cpp` 69-90) -/

/-- The C++ `event_loop_t::event_loop_t(size_t max_fileno)` run on the object at address
`this`, with the static `loop_` as last argument (`none` is `nullptr`).  `epoll_create1` is
what the system call returns when the member `selector_` is default-constructed, before the
body runs; `mmap_files` and `mmap_constructed` tell whether the two `mmap` calls of
`page_alloc` succeed.  The result is `loop_` after the call, and the new object or the
exception. -/
def event_loop_t.ctor (this : Nat) (max_fileno : Nat) (epoll_create1 : Int)
    (mmap_files mmap_constructed : Bool) (loop_ : Option Nat) :
    Option Nat × Except exception event_loop_t :=
  match selector.ctor epoll_create1 with
  | .error e => (loop_, .error e)
  | .ok sel =>
    if max_fileno = 0 then (loop_, .error .invalid_argument)
    else if loop_ ≠ Option.none then (loop_, .error .multiple_event_loops_exception)
    else
      let loop1 := some this
      if ¬ mmap_files then (loop1, .error .system_error)
      else if ¬ mmap_constructed then (loop1, .error .system_error)
      else (loop1, .ok { files_ := fun _ => file_internal.zeroed,
                         constructed_files_ := fun _ => 0,
                         selector_ := sel,
                         scheduled_ := [],
                         max_fileno_ := max_fileno })

/-- The loop `for (size_t i = 0; constructed_files_[i]; ++i)` of the destructor, from index
`i`: the indices `j` of the records whose destructor it runs.  `n` bounds the entries of the
array that are left to read. -/
def event_loop_t.dtor_records (constructed_files_ : Nat → Nat) : Nat → Nat → List Nat
  | 0, _ => []
  | n + 1, i =>
    if constructed_files_ i ≠ 0 then
      (constructed_files_ i - 1) :: event_loop_t.dtor_records constructed_files_ n (i + 1)
    else []

/-- The C++ `event_loop_t::~event_loop_t()` run on the object at address `this`: `loop_` after
the call together with the indices of the records destroyed.  `munmap_constructed` and
`munmap_files` tell whether the two `munmap` calls of `page_free` succeed; an exception
leaving the destructor ends the process. -/
def event_loop_t.dtor (this : Nat) (munmap_constructed munmap_files : Bool)
    (self : event_loop_t) (loop_ : Option Nat) : outcome (Option Nat × List Nat) :=
  if loop_ ≠ some this then .thrown .assertion_failed (loop_, [])
  else
    let destroyed := event_loop_t.dtor_records self.constructed_files_ self.max_fileno_ 0
    if ¬ munmap_constructed then .thrown .system_error (loop_, destroyed)
    else if ¬ munmap_files then .thrown .system_error (loop_, destroyed)
    else .returned (Option.none, destroyed)

/-- The C++ `event_loop_t::get`: the address of the installed loop. -/
def event_loop_t.get (loop_ : Option Nat) : Except exception Nat :=
  match loop_ with
  | Option.none => .error .bad_event_loop_access
  | some p => .ok p

/-- The C++ `event_loop_t::get_or_null`. -/
def event_loop_t.get_or_null (loop_ : Option Nat) : Option Nat := loop_

/-- The C++ `event_loop_t::exists`. -/
def event_loop_t.exists (loop_ : Option Nat) : Bool := loop_ != Option.none

/-! ## Registration and waiter queues (`event_loop.cpp` 40-49, 157-209) -/

/-- The C++ `event_loop_t::ensure_fd_in_range`: the exception it throws, if any. -/
def event_loop_t.ensure_fd_in_range (fd : Int) (self : event_loop_t) : Option exception :=
  if fd < 0 ∨ (self.max_fileno_ : Int) ≤ fd then some .out_of_range else Option.none

/-- The C++ `event_loop_t::ensure_fd_registered`: the exception it throws, if any. -/
def event_loop_t.ensure_fd_registered (fd : Int) (self : event_loop_t) : Option exception :=
  match self.ensure_fd_in_range fd with
  | some e => some e
  | Option.none =>
    if ¬ (self.files_ fd).is_valid then some .bad_file_descriptor else Option.none

/-- The event set `add_fd` builds from `ops` (`event_loop.cpp` 166-170). -/
def event_loop_t.add_fd_events (ops : file_ops) : selector.events :=
  let events0 := selector.events.none
  let events1 :=
    if (ops.and file_ops.readable).to_bool then events0.or selector.events.input else events0
  if (ops.and file_ops.writable).to_bool then events1.or selector.events.output else events1

/-- The C++ `event_loop_t::add_fd`. -/
def event_loop_t.add_fd (epoll_ctl : epoll_ctl_t) (fd : Int) (ops : file_ops)
    (self : event_loop_t) : outcome event_loop_t :=
  match self.ensure_fd_in_range fd with
  | some e => .thrown e self
  | Option.none =>
    if (self.files_ fd).is_valid then .thrown .invalid_argument self
    else
      let self1 :=
        if ¬ (self.files_ fd).is_constructed then self.set_file fd (file_internal.ctor fd)
        else self
      let events := event_loop_t.add_fd_events ops
      match self1.selector_.add_fd epoll_ctl fd events with
      | .thrown e sel => .thrown e { self1 with selector_ := sel }
      | .returned sel =>
        let self2 := { self1 with selector_ := sel }
        .returned (self2.set_file fd
          { self2.files_ fd with ops_ := ops, valid_ := true, reading_ := [], writing_ := [] })

/-- The C++ `event_loop_t::del_fd`. -/
def event_loop_t.del_fd (epoll_ctl : epoll_ctl_t) (fd : Int) (self : event_loop_t) :
    outcome event_loop_t :=
  match self.ensure_fd_registered fd with
  | some e => .thrown e self
  | Option.none =>
    match self.selector_.del_fd epoll_ctl fd with
    | .thrown e sel => .thrown e { self with selector_ := sel }
    | .returned sel =>
      let self1 := { self with selector_ := sel }
      .returned (self1.set_file fd { self1.files_ fd with valid_ := false })

/-- The C++ `event_loop_t::push_read_clb`. -/
def event_loop_t.push_read_clb (fd : Int) (coro : coroutine_handle) (self : event_loop_t) :
    outcome event_loop_t :=
  match self.ensure_fd_registered fd with
  | some e => .thrown e self
  | Option.none =>
    if ¬ ((self.files_ fd).ops_.and file_ops.readable).to_bool then
      .thrown .bad_file_descriptor self
    else
      .returned (self.set_file fd
        { self.files_ fd with reading_ := (self.files_ fd).reading_ ++ [coro] })

/-- The C++ `event_loop_t::push_write_clb`. -/
def event_loop_t.push_write_clb (fd : Int) (coro : coroutine_handle) (self : event_loop_t) :
    outcome event_loop_t :=
  match self.ensure_fd_registered fd with
  | some e => .thrown e self
  | Option.none =>
    if ¬ ((self.files_ fd).ops_.and file_ops.writable).to_bool then
      .thrown .bad_file_descriptor self
    else
      .returned (self.set_file fd
        { self.files_ fd with writing_ := (self.files_ fd).writing_ ++ [coro] })

/-- Suspension on `await_read(fd)`: `event_loop_t::read_awaiter::await_suspend`. -/
def event_loop_t.await_read (fd : Int) (coro : coroutine_handle) (self : event_loop_t) :
    outcome event_loop_t :=
  self.push_read_clb fd coro

/-- Suspension on `await_write(fd)`: `event_loop_t::write_awaiter::await_suspend`. -/
def event_loop_t.await_write (fd : Int) (coro : coroutine_handle) (self : event_loop_t) :
    outcome event_loop_t :=
  self.push_write_clb fd coro

/-- The C++ `event_loop_t::schedule_i`; `now` is what `time_type::monotonic_clock()` returns in
the call. -/
def event_loop_t.schedule_i (s : schedulable_func_t) (delay : time_type) (now : time_type)
    (self : event_loop_t) : event_loop_t :=
  let time := now.add delay
  { self with scheduled_ := pq_emplace self.scheduled_ (scheduled_handle.of_func s time) }

/-- The C++ `event_loop_t::schedulable_task::schedule`, the second half of `schedule_a`: `coro`
is the frame of the trampoline that `make_schedulable_task` created. -/
def event_loop_t.schedule_a (coro : coroutine_handle) (delay : time_type) (now : time_type)
    (self : event_loop_t) : event_loop_t :=
  let time := now.add delay
  { self with scheduled_ := pq_emplace self.scheduled_ (scheduled_handle.of_coro coro time) }

/-- Suspension on `sleep_for(delay)`: the `await_suspend` of its awaitable. -/
def event_loop_t.sleep_for (coro : coroutine_handle) (delay : time_type) (now : time_type)
    (self : event_loop_t) : event_loop_t :=
  let time := now.add delay
  { self with scheduled_ := pq_emplace self.scheduled_ (scheduled_handle.of_coro coro time) }

/-! ## User code

Scheduled functions and coroutines are the user's.  What one of them does to the loop while
it runs is a sequence of calls of the loop's public interface; which calls it makes may
depend on the loop and on the user's own state `σ`.  A call of the interface that throws
leaves the loop as the throw left it.  A `user_code` tells what user code does to the loop
and to its own state; the exception that leaves user code, if any, is told by a
`throwing_code`, and what `run` does then by the definitions of the section on user code
that lets an exception escape. -/

/-- One call of the loop's interface made by user code. -/
inductive call where
  | add_fd (fd : Int) (ops : file_ops) (epoll_ctl : epoll_ctl_t)
  | del_fd (fd : Int) (epoll_ctl : epoll_ctl_t)
  | schedule_i (s : schedulable_func_t) (delay : time_type) (now : time_type)
  | schedule_a (coro : coroutine_handle) (delay : time_type) (now : time_type)
  | await_read (fd : Int) (coro : coroutine_handle)
  | await_write (fd : Int) (coro : coroutine_handle)
  | sleep_for (coro : coroutine_handle) (delay : time_type) (now : time_type)

/-- The loop after one call. -/
def call.exec (c : call) (l : event_loop_t) : event_loop_t :=
  match c with
  | .add_fd fd ops epoll_ctl => (l.add_fd epoll_ctl fd ops).state
  | .del_fd fd epoll_ctl => (l.del_fd epoll_ctl fd).state
  | .schedule_i s delay now => l.schedule_i s delay now
  | .schedule_a coro delay now => l.schedule_a coro delay now
  | .await_read fd coro => (l.await_read fd coro).state
  | .await_write fd coro => (l.await_write fd coro).state
  | .sleep_for coro delay now => l.sleep_for coro delay now

/-- The loop after a sequence of calls. -/
def call.exec_all (cs : List call) (l : event_loop_t) : event_loop_t :=
  cs.foldl (fun l c => c.exec l) l

/-- Whether a call adds to the timer heap. -/
def call.is_timer : call → Bool
  | .schedule_i _ _ _ => true
  | .schedule_a _ _ _ => true
  | .sleep_for _ _ _ => true
  | _ => false

/-- The user's code: for a plain function and for a coroutine frame, the calls made while it
runs (from the loop and the user's state at that moment) and the user's state afterwards,
whether it returns or throws. -/
structure user_code (σ : Type) where
  func : schedulable_func_t → event_loop_t → σ → List call × σ
  resume : coroutine_handle → event_loop_t → σ → List call × σ

/-! ## The run loop (`event_loop.cpp` 92-155)

The definitions of this section follow `run` as long as user code returns; `run` with user
code that lets an exception escape is `event_loop_t.run_throwing`. -/

/-- What `run` does that can be observed from outside, in order. -/
inductive step where
  | wait (timeout : Option time_type)
  | run (sc : scheduled_handle)
  | resume_read (fd : Int) (coro : coroutine_handle)
  | resume_write (fd : Int) (coro : coroutine_handle)
deriving DecidableEq, Repr

/-- The loop, the user's state and the steps `run` has taken so far. -/
structure run_state (σ : Type) where
  loop : event_loop_t
  user : σ
  trace : List step

/-- How far a piece of `run` got: it completed, an exception escaped, or it is still running
when the steps granted to it are used up. -/
inductive run_result (α : Type) where
  | returned (s : α)
  | thrown (e : exception) (s : α)
  | running (s : α)

/-- The state a `run_result` carries. -/
def run_result.state {α : Type} : run_result α → α
  | .returned s => s
  | .thrown _ s => s
  | .running s => s

/-- What the operating system answers during one iteration of the loop of `run`. -/
structure iteration_env where
  clock_wait : time_type
  epoll_pwait2 : epoll_pwait2_t
  clock_timers : time_type

/-- The C++ `coro.resume()` for a coroutine the loop resumes: the state it leaves; `st` is the
step recorded.  With the exception that may leave it: `run_state.resume_throwing`. -/
def run_state.resume {σ : Type} (u : user_code σ) (st : step) (coro : coroutine_handle)
    (m : run_state σ) : run_state σ :=
  let r := u.resume coro m.loop m.user
  { loop := call.exec_all r.1 m.loop, user := r.2, trace := m.trace ++ [st] }

/-- The C++ `scheduled_handle::run`: the state it leaves.  With the exception that may leave
it: `scheduled_handle.run_throwing`. -/
def scheduled_handle.run {σ : Type} (u : user_code σ) (sc : scheduled_handle)
    (m : run_state σ) : run_state σ :=
  match sc.type_ with
  | .COROUTINE => m.resume u (step.run sc) sc.target_
  | .FUNCTION =>
    let r := u.func sc.target_ m.loop m.user
    { loop := call.exec_all r.1 m.loop, user := r.2, trace := m.trace ++ [step.run sc] }

/-- The lambda `pending_events` of `run`. -/
def event_loop_t.pending_events (self : event_loop_t) : Bool :=
  !self.scheduled_.isEmpty || decide (self.selector_.get_num_events > 0)

/-- Lines 104-114 of `run`: the timeout chosen (`none` for the call without one) and what the
selector leaves in `events`. -/
def event_loop_t.run_wait (env : iteration_env) (self : event_loop_t) :
    Option time_type × outcome (List selector.event_data) :=
  match pq_top self.scheduled_ with
  | Option.none => (Option.none, self.selector_.wait env.epoll_pwait2 [])
  | some top =>
    let timeout := top.time.sub env.clock_wait
    let timeout := if timeout.as_ns < 0 then time_type.zero else timeout
    (some timeout, self.selector_.wait_for env.epoll_pwait2 [] timeout)

/-- Lines 117-122 of `run`: the loop over the due handles.  The flag tells whether the loop
ended within `fuel` passes. -/
def event_loop_t.run_timers {σ : Type} (u : user_code σ) (current_time : time_type) :
    Nat → run_state σ → Bool × run_state σ
  | 0, m =>
    match pq_top m.loop.scheduled_ with
    | Option.none => (true, m)
    | some sc => if sc.time.le current_time then (false, m) else (true, m)
  | fuel + 1, m =>
    match pq_top m.loop.scheduled_ with
    | Option.none => (true, m)
    | some sc =>
      if sc.time.le current_time then
        let m1 := { m with loop := { m.loop with scheduled_ := pq_pop m.loop.scheduled_ } }
        event_loop_t.run_timers u current_time fuel (sc.run u m1)
      else (true, m)

/-- The loop `while (!q.empty()) { awaiting.push_back(q.front()); q.pop(); }`: the queue and
`awaiting` after it. -/
def drain_queue : List coroutine_handle → List coroutine_handle →
    List coroutine_handle × List coroutine_handle
  | [], awaiting => ([], awaiting)
  | front :: rest, awaiting => drain_queue rest (awaiting ++ [front])

/-- The loop `for (auto coro : awaiting) coro.resume();`. -/
def resume_each {σ : Type} (u : user_code σ) (tag : coroutine_handle → step) :
    List coroutine_handle → run_state σ → run_state σ
  | [], m => m
  | coro :: rest, m => resume_each u tag rest (m.resume u (tag coro) coro)

/-- Lines 132-141 of `run`: the block for `selector::events::input`. -/
def event_loop_t.run_input {σ : Type} (u : user_code σ) (fd : Int) (m : run_state σ) :
    run_state σ :=
  let d := drain_queue (m.loop.files_ fd).reading_ []
  let m1 := { m with loop := m.loop.set_file fd { m.loop.files_ fd with reading_ := d.1 } }
  resume_each u (step.resume_read fd) d.2 m1

/-- Lines 143-152 of `run`: the block for `selector::events::output`. -/
def event_loop_t.run_output {σ : Type} (u : user_code σ) (fd : Int) (m : run_state σ) :
    run_state σ :=
  let d := drain_queue (m.loop.files_ fd).writing_ []
  let m1 := { m with loop := m.loop.set_file fd { m.loop.files_ fd with writing_ := d.1 } }
  resume_each u (step.resume_write fd) d.2 m1

/-- Lines 127-152 of `run`: the body of the loop over `events`. -/
def event_loop_t.run_event {σ : Type} (u : user_code σ) (ev : selector.event_data)
    (m : run_state σ) : run_state σ :=
  let m1 :=
    if (ev.flags.and selector.events.input).to_bool then event_loop_t.run_input u ev.fd m else m
  if (ev.flags.and selector.events.output).to_bool then event_loop_t.run_output u ev.fd m1 else m1

/-- Lines 126-153 of `run`: `for (auto& ev : events)`. -/
def event_loop_t.run_events {σ : Type} (u : user_code σ) :
    List selector.event_data → run_state σ → run_state σ
  | [], m => m
  | ev :: rest, m => event_loop_t.run_events u rest (event_loop_t.run_event u ev m)

/-- Lines 104-153 of `run`: one pass through the body of `while (pending_events())`. -/
def event_loop_t.run_iteration {σ : Type} (u : user_code σ) (fuel : Nat) (env : iteration_env)
    (m : run_state σ) : run_result (run_state σ) :=
  match m.loop.run_wait env with
  | (timeout, .thrown e _) => .thrown e { m with trace := m.trace ++ [step.wait timeout] }
  | (timeout, .returned events) =>
    let m1 := { m with trace := m.trace ++ [step.wait timeout] }
    match event_loop_t.run_timers u env.clock_timers fuel m1 with
    | (false, m2) => .running m2
    | (true, m2) => .returned (event_loop_t.run_events u events m2)

/-- The C++ `event_loop_t::run`.  The list holds what the operating system answers in the
successive iterations; `fuel` bounds the passes of the loop over due handles in each of
them. -/
def event_loop_t.run {σ : Type} (u : user_code σ) (fuel : Nat) :
    List iteration_env → run_state σ → run_result (run_state σ)
  | [], m => if m.loop.pending_events then .running m else .returned m
  | env :: rest, m =>
    if m.loop.pending_events then
      match event_loop_t.run_iteration u fuel env m with
      | .returned m1 => event_loop_t.run u fuel rest m1
      | .thrown e m1 => .thrown e m1
      | .running m1 => .running m1
    else .returned m

/-! ## Reading a trace -/

/-- Whether a step is the resumption of a read or write waiter. -/
def step.is_wake : step → Bool
  | .resume_read _ _ => true
  | .resume_write _ _ => true
  | _ => false

/-- Whether a step resumes the coroutine `h`: as a read or write waiter, or as a coroutine
handle taken from the timer heap. -/
def step.resumes (h : coroutine_handle) : step → Bool
  | .resume_read _ c => c == h
  | .resume_write _ c => c == h
  | .run sc => sc.type_ == schedule_type.COROUTINE && sc.target_ == h
  | .wait _ => false

/-- The scheduled handles a trace ran, in order. -/
def ran_handles : List step → List scheduled_handle
  | [] => []
  | .run sc :: rest => sc :: ran_handles rest
  | _ :: rest => ran_handles rest

/-- Whether the piece of `run` completed. -/
def run_result.is_returned {α : Type} : run_result α → Bool
  | .returned _ => true
  | _ => false

/-- User code that never adds to the timer heap: neither the scheduled functions nor the
coroutines call `schedule_i`, `schedule_a` or `sleep_for`. -/
def user_code.no_timer_calls {σ : Type} (u : user_code σ) : Prop :=
  (∀ f l s, ∀ c ∈ (u.func f l s).1, c.is_timer = false) ∧
  (∀ h l s, ∀ c ∈ (u.resume h l s).1, c.is_timer = false)

/-- A sequence of calls `schedule_i(s, delay)`, each with the value `now` the monotonic clock
shows in that call. -/
def event_loop_t.schedule_i_all :
    List (schedulable_func_t × time_type × time_type) → event_loop_t → event_loop_t
  | [], l => l
  | (s, delay, now) :: rest, l => event_loop_t.schedule_i_all rest (l.schedule_i s delay now)

/-- The order of deadlines. -/
def deadline_le (a b : scheduled_handle) : Prop := a.time_.time_ ≤ b.time_.time_

/-- User code in which the coroutine `h` is suspended on a descriptor only by its own resume,
and only on `fd`: no resume of another coroutine calls `await_read` or `await_write` for
`h`, and the resume of `h` calls them for `fd` only. -/
def user_code.suspends_only_self {σ : Type} (u : user_code σ) (h : coroutine_handle)
    (fd : Int) : Prop :=
  ∀ c l s fd1,
    (call.await_read fd1 h ∈ (u.resume c l s).1 ∨
      call.await_write fd1 h ∈ (u.resume c l s).1) → c = h ∧ fd1 = fd

/-! ## Tasks (`task.hpp`)

`task_promise<T>` is the primary template, for a `T` that is neither `void` nor a reference.
A coroutine frame is its promise and whether the coroutine is suspended at its final suspend
point (`done()`); the frames that are alive are a partial map from handles, and the null
handle is 0.  A task is the handle it owns. -/

/-- What a `std::exception_ptr` refers to: the identity of a thrown exception object. -/
abbrev exception_ptr := Nat

/-- The C++ `task_promise<T>::result_type`. -/
inductive result_type where
  | empty
  | value
  | exception
  deriving DecidableEq, Repr

/-- The anonymous union of `value_` and `exception_` in `task_promise<T>`: the member that was
constructed last, if any. -/
inductive promise_union (T : Type) where
  | unset
  | value_ (v : T)
  | exception_ (e : exception_ptr)

/-- The C++ `task_promise<T>` with its base `task_promise_base`. -/
structure task_promise (T : Type) where
  continuation_ : coroutine_handle
  resultType_ : result_type
  union_ : promise_union T

/-- How a call on a promise or an awaiter ends: it returns, it rethrows a stored exception, it
throws an exception of the library, or it reads a member of the union that was not
constructed (undefined behaviour). -/
inductive task_result (α : Type) where
  | returned (a : α)
  | rethrown (e : exception_ptr)
  | thrown (e : exception)
  | undefined

/-- The C++ `task_promise<T>::task_promise()`. -/
def task_promise.ctor {T : Type} : task_promise T :=
  { continuation_ := 0, resultType_ := result_type.empty, union_ := promise_union.unset }

/-- The C++ `task_promise<T>::unhandled_exception`; `current_exception` is what
`std::current_exception()` returns. -/
def task_promise.unhandled_exception {T : Type} (current_exception : exception_ptr)
    (self : task_promise T) : task_promise T :=
  { self with union_ := promise_union.exception_ current_exception,
              resultType_ := result_type.exception }

/-- The C++ `task_promise<T>::return_value`, the construction of `value_` not throwing. -/
def task_promise.return_value {T : Type} (value : T) (self : task_promise T) :
    task_promise T :=
  { self with union_ := promise_union.value_ value, resultType_ := result_type.value }

/-- The C++ `task_promise<T>::result() &`. -/
def task_promise.result {T : Type} (self : task_promise T) : task_result T :=
  if self.resultType_ = result_type.exception then
    match self.union_ with
    | promise_union.exception_ e => task_result.rethrown e
    | _ => task_result.undefined
  else if self.resultType_ ≠ result_type.value then
    task_result.thrown exception.assertion_failed
  else
    match self.union_ with
    | promise_union.value_ v => task_result.returned v
    | _ => task_result.undefined

/-- The C++ `task_promise<T>::result() &&`: the same value, as an rvalue. -/
def task_promise.result_rvalue {T : Type} (self : task_promise T) : task_result T :=
  self.result

/-- A coroutine frame of a `task<T>` coroutine. -/
structure task_frame (T : Type) where
  promise : task_promise T
  done : Bool

/-- The frame of a coroutine that has just been created: it is suspended at its initial
suspend point. -/
def task_frame.created {T : Type} : task_frame T :=
  { promise := task_promise.ctor, done := false }

/-- The coroutine executes `co_return v`: `return_value(v)`, then it suspends at its final
suspend point. -/
def task_frame.co_return {T : Type} (v : T) (f : task_frame T) : task_frame T :=
  { promise := f.promise.return_value v, done := true }

/-- An exception leaves the body of the coroutine: `unhandled_exception()`, then it suspends
at its final suspend point. -/
def task_frame.throws {T : Type} (e : exception_ptr) (f : task_frame T) : task_frame T :=
  { promise := f.promise.unhandled_exception e, done := true }

/-- The frames that are alive, by handle. -/
abbrev frame_store (T : Type) := coroutine_handle → Option (task_frame T)

/-- The C++ `coroutine_handle::done()`. -/
def frame_store.done {T : Type} (frames : frame_store T) (h : coroutine_handle) : Bool :=
  match frames h with
  | some f => f.done
  | none => false

/-- The C++ `coroutine_handle::destroy()`. -/
def frame_store.destroy {T : Type} (frames : frame_store T) (h : coroutine_handle) :
    frame_store T :=
  Function.update frames h none

/-- The C++ `task<T>`. -/
structure task (T : Type) where
  coroutine_ : coroutine_handle

/-- The C++ `task<T>::task()`. -/
def task.ctor_default {T : Type} : task T := { coroutine_ := 0 }

/-- The C++ `task<T>::task(coroutine_handle<promise_type>)`. -/
def task.ctor {T : Type} (coroutine : coroutine_handle) : task T := { coroutine_ := coroutine }

/-- The C++ `task<T>::task(task&&)`: the new task and `other` after the call. -/
def task.ctor_move {T : Type} (other : task T) : task T × task T :=
  ({ coroutine_ := other.coroutine_ }, { other with coroutine_ := 0 })

/-- The C++ `task<T>::operator=(task&&)`; `this` and `other_addr` are the addresses of the
two objects.  The frames, the task assigned to and `other` after the call. -/
def task.assign_move {T : Type} (this other_addr : Nat) (frames : frame_store T)
    (self other : task T) : frame_store T × task T × task T :=
  if other_addr ≠ this then
    let frames1 := if self.coroutine_ ≠ 0 then frames.destroy self.coroutine_ else frames
    (frames1, { self with coroutine_ := other.coroutine_ }, { other with coroutine_ := 0 })
  else (frames, self, other)

/-- The C++ `task<T>::~task()`. -/
def task.dtor {T : Type} (frames : frame_store T) (self : task T) : frame_store T :=
  if self.coroutine_ ≠ 0 then frames.destroy self.coroutine_ else frames

/-- The C++ `task<T>::is_ready`. -/
def task.is_ready {T : Type} (frames : frame_store T) (self : task T) : Bool :=
  self.coroutine_ == 0 || frames.done self.coroutine_

/-- The C++ `task<T>::awaitable_base`. -/
structure awaitable_base where
  coroutine_ : coroutine_handle
  deriving DecidableEq, Repr

/-- The C++ `awaitable_base::await_ready`. -/
def awaitable_base.await_ready {T : Type} (frames : frame_store T) (self : awaitable_base) :
    Bool :=
  self.coroutine_ == 0 || frames.done self.coroutine_

/-- The C++ `awaitable_base::await_suspend`: the frames and the handle to resume next. -/
def awaitable_base.await_suspend {T : Type} (coro : coroutine_handle) (frames : frame_store T)
    (self : awaitable_base) : frame_store T × coroutine_handle :=
  match frames self.coroutine_ with
  | some f =>
    (Function.update frames self.coroutine_
      (some { f with promise := { f.promise with continuation_ := coro } }), self.coroutine_)
  | none => (frames, self.coroutine_)

/-- The awaiter of `task<T>::operator co_await() &`. -/
def task.co_await {T : Type} (self : task T) : awaitable_base :=
  { coroutine_ := self.coroutine_ }

/-- The awaiter of `task<T>::when_ready()`. -/
def task.when_ready {T : Type} (self : task T) : awaitable_base :=
  { coroutine_ := self.coroutine_ }

/-- The C++ `await_resume` of the awaiter of `operator co_await() &`: the frames after the
call and how it ends. -/
def awaitable_base.await_resume {T : Type} (frames : frame_store T) (self : awaitable_base) :
    frame_store T × task_result T :=
  if self.coroutine_ = 0 then (frames, task_result.thrown exception.broken_promise)
  else
    match frames self.coroutine_ with
    | some f => (frames, f.promise.result)
    | none => (frames, task_result.undefined)

/-- The C++ `await_resume` of the awaiter of `operator co_await() &&`. -/
def awaitable_base.await_resume_rvalue {T : Type} (frames : frame_store T)
    (self : awaitable_base) : frame_store T × task_result T :=
  if self.coroutine_ = 0 then (frames, task_result.thrown exception.broken_promise)
  else
    match frames self.coroutine_ with
    | some f => (frames, f.promise.result_rvalue)
    | none => (frames, task_result.undefined)

/-- The C++ `await_resume` of the awaiter of `when_ready()`: it does nothing. -/
def awaitable_base.await_resume_when_ready {T : Type} (frames : frame_store T)
    (_self : awaitable_base) : frame_store T × task_result Unit :=
  (frames, task_result.returned ())

/-! ## Counting registrations -/

/-- The number of records marked valid among the first `n` elements of `files_`. -/
def count_valid (files_ : Int → file_internal) : Nat → Nat
  | 0 => 0
  | n + 1 => count_valid files_ n + (if (files_ (n : Int)).is_valid then 1 else 0)

/-- The number of records of the loop that are marked valid. -/
def event_loop_t.num_valid (self : event_loop_t) : Nat :=
  count_valid self.files_ self.max_fileno_

/-- The counter of the selector agrees with the records: only records of descriptors in range
are valid, their number is `num_events_`, and the bound fits the `size_t` it is stored in. -/
def event_loop_t.counts_registrations (self : event_loop_t) : Prop :=
  (∀ fd : Int, (self.files_ fd).valid_ = true → 0 ≤ fd ∧ fd < (self.max_fileno_ : Int)) ∧
  self.num_valid = self.selector_.num_events_ ∧
  self.max_fileno_ < 2 ^ 64

/-! ## The translation of raw events in the words of the specification -/

/-- The two-case definition of the specification, bit by bit: with the error bit (bit 3,
`EPOLLERR`) set the flags are `input | output`; otherwise `input` is set iff one of readable
(bit 0, `EPOLLIN`), priority (bit 1, `EPOLLPRI`), peer-closed-read (bit 13, `EPOLLRDHUP`) is
set, `output` iff one of writable (bit 2, `EPOLLOUT`), hang-up (bit 4, `EPOLLHUP`) is set,
and no other flag is set. -/
def selector.translate_spec (raw : epoll_event) : selector.event_data :=
  let error := raw.events.testBit 3
  let readable := raw.events.testBit 0 || raw.events.testBit 1 || raw.events.testBit 13
  let writable := raw.events.testBit 2 || raw.events.testBit 4
  { fd := raw.data_fd,
    flags :=
      if error then selector.events.input.or selector.events.output
      else
        (if readable then selector.events.input else selector.events.none).or
          (if writable then selector.events.output else selector.events.none) }

/-- How a piece of `run` ends: it completed, an exception of the selector left it, an
exception of the user's code left it, or it is still running when the steps granted to it are
used up. -/
inductive run_outcome (α : Type) where
  | returned (s : α)
  | thrown (e : exception) (s : α)
  | escaped (e : exception_ptr) (s : α)
  | running (s : α)

/-- The state a `run_outcome` carries. -/
def run_outcome.state {α : Type} : run_outcome α → α
  | .returned s => s
  | .thrown _ s => s
  | .escaped _ s => s
  | .running s => s

/-- User code that may throw: `code` gives the calls a function or a coroutine makes while it
runs and the user's state afterwards; `func_escapes` and `resume_escapes` give the exception
that leaves it after these calls, `none` when it returns. -/
structure throwing_code (σ : Type) where
  code : user_code σ
  func_escapes : schedulable_func_t → event_loop_t → σ → Option exception_ptr
  resume_escapes : coroutine_handle → event_loop_t → σ → Option exception_ptr

/-- The C++ `coro.resume()` for a coroutine the loop resumes, with the exception that leaves
it. -/
def run_state.resume_throwing {σ : Type} (u : throwing_code σ) (st : step)
    (coro : coroutine_handle) (m : run_state σ) : run_outcome (run_state σ) :=
  let r := u.code.resume coro m.loop m.user
  let m1 : run_state σ :=
    { loop := call.exec_all r.1 m.loop, user := r.2, trace := m.trace ++ [st] }
  match u.resume_escapes coro m.loop m.user with
  | none => .returned m1
  | some e => .escaped e m1

/-- The C++ `scheduled_handle::run`, with the exception that leaves it. -/
def scheduled_handle.run_throwing {σ : Type} (u : throwing_code σ) (sc : scheduled_handle)
    (m : run_state σ) : run_outcome (run_state σ) :=
  match sc.type_ with
  | .COROUTINE => m.resume_throwing u (step.run sc) sc.target_
  | .FUNCTION =>
    let r := u.code.func sc.target_ m.loop m.user
    let m1 : run_state σ :=
      { loop := call.exec_all r.1 m.loop, user := r.2, trace := m.trace ++ [step.run sc] }
    match u.func_escapes sc.target_ m.loop m.user with
    | none => .returned m1
    | some e => .escaped e m1

/-- Lines 117-122 of `run`, the loop over the due handles: an exception that leaves
`sc.run()` ends it, the handle popped and the others still in the heap. -/
def event_loop_t.run_timers_throwing {σ : Type} (u : throwing_code σ)
    (current_time : time_type) : Nat → run_state σ → run_outcome (run_state σ)
  | 0, m =>
    match pq_top m.loop.scheduled_ with
    | Option.none => .returned m
    | some sc => if sc.time.le current_time then .running m else .returned m
  | fuel + 1, m =>
    match pq_top m.loop.scheduled_ with
    | Option.none => .returned m
    | some sc =>
      if sc.time.le current_time then
        let m1 := { m with loop := { m.loop with scheduled_ := pq_pop m.loop.scheduled_ } }
        match sc.run_throwing u m1 with
        | .returned m2 => event_loop_t.run_timers_throwing u current_time fuel m2
        | other => other
      else .returned m

/-- The loop `for (auto coro : awaiting) coro.resume();`: an exception that leaves a
`resume()` ends it, the coroutines behind in `awaiting` not resumed. -/
def resume_each_throwing {σ : Type} (u : throwing_code σ) (tag : coroutine_handle → step) :
    List coroutine_handle → run_state σ → run_outcome (run_state σ)
  | [], m => .returned m
  | coro :: rest, m =>
    match m.resume_throwing u (tag coro) coro with
    | .returned m1 => resume_each_throwing u tag rest m1
    | other => other

/-- Lines 132-141 of `run`: the block for `selector::events::input`. -/
def event_loop_t.run_input_throwing {σ : Type} (u : throwing_code σ) (fd : Int)
    (m : run_state σ) : run_outcome (run_state σ) :=
  let d := drain_queue (m.loop.files_ fd).reading_ []
  let m1 := { m with loop := m.loop.set_file fd { m.loop.files_ fd with reading_ := d.1 } }
  resume_each_throwing u (step.resume_read fd) d.2 m1

/-- Lines 143-152 of `run`: the block for `selector::events::output`. -/
def event_loop_t.run_output_throwing {σ : Type} (u : throwing_code σ) (fd : Int)
    (m : run_state σ) : run_outcome (run_state σ) :=
  let d := drain_queue (m.loop.files_ fd).writing_ []
  let m1 := { m with loop := m.loop.set_file fd { m.loop.files_ fd with writing_ := d.1 } }
  resume_each_throwing u (step.resume_write fd) d.2 m1

/-- Lines 127-152 of `run`: the body of the loop over `events`. -/
def event_loop_t.run_event_throwing {σ : Type} (u : throwing_code σ)
    (ev : selector.event_data) (m : run_state σ) : run_outcome (run_state σ) :=
  let r1 :=
    if (ev.flags.and selector.events.input).to_bool then
      event_loop_t.run_input_throwing u ev.fd m
    else .returned m
  match r1 with
  | .returned m1 =>
    if (ev.flags.and selector.events.output).to_bool then
      event_loop_t.run_output_throwing u ev.fd m1
    else .returned m1
  | other => other

/-- Lines 126-153 of `run`: `for (auto& ev : events)`. -/
def event_loop_t.run_events_throwing {σ : Type} (u : throwing_code σ) :
    List selector.event_data → run_state σ → run_outcome (run_state σ)
  | [], m => .returned m
  | ev :: rest, m =>
    match event_loop_t.run_event_throwing u ev m with
    | .returned m1 => event_loop_t.run_events_throwing u rest m1
    | other => other

/-- Lines 104-153 of `run`: one pass through the body of `while (pending_events())`. -/
def event_loop_t.run_iteration_throwing {σ : Type} (u : throwing_code σ) (fuel : Nat)
    (env : iteration_env) (m : run_state σ) : run_outcome (run_state σ) :=
  match m.loop.run_wait env with
  | (timeout, .thrown e _) => .thrown e { m with trace := m.trace ++ [step.wait timeout] }
  | (timeout, .returned events) =>
    let m1 := { m with trace := m.trace ++ [step.wait timeout] }
    match event_loop_t.run_timers_throwing u env.clock_timers fuel m1 with
    | .returned m2 => event_loop_t.run_events_throwing u events m2
    | other => other

/-- The C++ `event_loop_t::run` with user code that may throw.  The list holds what the
operating system answers in the successive iterations; `fuel` bounds the passes of the loop
over due handles in each of them. -/
def event_loop_t.run_throwing {σ : Type} (u : throwing_code σ) (fuel : Nat) :
    List iteration_env → run_state σ → run_outcome (run_state σ)
  | [], m => if m.loop.pending_events then .running m else .returned m
  | env :: rest, m =>
    if m.loop.pending_events then
      match event_loop_t.run_iteration_throwing u fuel env m with
      | .returned m1 => event_loop_t.run_throwing u fuel rest m1
      | other => other
    else .returned m

/-- No exception leaves the function or coroutine of the handle, whatever the loop and the
user's state are. -/
def scheduled_handle.never_escapes {σ : Type} (u : throwing_code σ) (sc : scheduled_handle) :
    Prop :=
  ∀ (l : event_loop_t) (s : σ),
    (match sc.type_ with
      | .FUNCTION => u.func_escapes sc.target_ l s
      | .COROUTINE => u.resume_escapes sc.target_ l s) = none

/-- No exception leaves any function or coroutine of the user. -/
def throwing_code.never_escapes {σ : Type} (u : throwing_code σ) : Prop :=
  (∀ f l s, u.func_escapes f l s = none) ∧ (∀ c l s, u.resume_escapes c l s = none)

/-- A result of `run` for user code that returns, as a `run_outcome`. -/
def run_result.to_outcome {α : Type} : run_result α → run_outcome α
  | .returned s => .returned s
  | .thrown e s => .thrown e s
  | .running s => .running s

/-! ## Concrete instances -/

/-- A kernel whose `epoll_ctl` always succeeds. -/
def ex_ctl_ok : epoll_ctl_t := fun _ _ _ _ => 0

/-- A loop as the constructor leaves it, for descriptors below 16, its selector on epoll
descriptor 3. -/
def ex_loop : event_loop_t :=
  { files_ := fun _ => file_internal.zeroed, constructed_files_ := fun _ => 0,
    selector_ := { epfd_ := 3, num_events_ := 0 }, scheduled_ := [], max_fileno_ := 16 }

/-- Milliseconds as a `time_type`. -/
def ex_ms (n : Int) : time_type := time_type.from_ms n

/-- User code that makes no call. -/
def ex_quiet : user_code Unit :=
  { func := fun _ _ s => ([], s), resume := fun _ _ s => ([], s) }

/-- User code in which coroutine 7, when resumed, suspends through `await_write(5)`. -/
def ex_rewriter : user_code Unit :=
  { func := fun _ _ s => ([], s),
    resume := fun c _ s => (if c = 7 then [call.await_write 5 7] else [], s) }

/-- User code in which coroutine 7, when resumed, suspends again through `await_read(5)`. -/
def ex_rereader : user_code Unit :=
  { func := fun _ _ s => ([], s),
    resume := fun c _ s => (if c = 7 then [call.await_read 5 7] else [], s) }

/-- The loop after `add_fd(5, readable | writable)`. -/
def ex_loop_registered : event_loop_t :=
  (ex_loop.add_fd ex_ctl_ok 5 (file_ops.readable.or file_ops.writable)).state

/-- The loop after `add_fd(5, readable | writable)` and the suspension of coroutine 7 on
`await_read(5)`. -/
def ex_loop_waiting : event_loop_t := (ex_loop_registered.await_read 5 7).state

/-- An iteration in which the kernel reports descriptor 5 readable and writable. -/
def ex_env_both : iteration_env :=
  { clock_wait := ex_ms 0,
    epoll_pwait2 := fun _ _ _ => epoll_pwait2_result.ready [⟨EPOLLIN ||| EPOLLOUT, 5⟩],
    clock_timers := ex_ms 0 }

/-- An iteration in which the kernel reports nothing and the clock shows 40 ms after it. -/
def ex_env_late : iteration_env :=
  { clock_wait := ex_ms 25,
    epoll_pwait2 := fun _ _ _ => epoll_pwait2_result.ready [],
    clock_timers := ex_ms 40 }

/-- The loop after `add_fd(5, readable | writable)`, the suspension of coroutine 7 on
`await_read(5)` and `del_fd(5)`: the waiter is still queued. -/
def ex_loop_removed : event_loop_t := (ex_loop_waiting.del_fd ex_ctl_ok 5).state

/-- The loop after `schedule_i(f1, 30 ms)` at clock 0 and `schedule_i(f2, 10 ms)` at clock
25 ms. -/
def ex_loop_two_timers : event_loop_t :=
  (ex_loop.schedule_i 1 (ex_ms 30) (ex_ms 0)).schedule_i 2 (ex_ms 10) (ex_ms 25)

/-- Three calls of `schedule_i` with delays 30 ms, 10 ms and 20 ms, all at clock 0. -/
def ex_three_delays : List (schedulable_func_t × time_type × time_type) :=
  [(1, ex_ms 30, ex_ms 0), (2, ex_ms 10, ex_ms 0), (3, ex_ms 20, ex_ms 0)]

/-- The loop with descriptor 5 registered, coroutine 7 waiting on `await_read(5)` and the
function `f1` scheduled for 30 ms. -/
def ex_loop_timer_and_waiter : event_loop_t :=
  ex_loop_waiting.schedule_i 1 (ex_ms 30) (ex_ms 0)

/-- An iteration in which the kernel reports descriptor 5 readable and the clock shows 40 ms
after the wait. -/
def ex_env_readable_late : iteration_env :=
  { clock_wait := ex_ms 25,
    epoll_pwait2 := fun _ _ _ => epoll_pwait2_result.ready [⟨EPOLLIN, 5⟩],
    clock_timers := ex_ms 40 }

/-- An `epoll_ctl` that always fails. -/
def ex_ctl_fail : epoll_ctl_t := fun _ _ _ _ => -1

/-- Calls on descriptors 5, 6 and 7: two registrations the selector accepts, one it refuses,
one removal it refuses and one it accepts. -/
def ex_calls : List call :=
  [call.add_fd 5 file_ops.readable ex_ctl_ok, call.add_fd 6 file_ops.writable ex_ctl_ok,
   call.add_fd 7 file_ops.readable ex_ctl_fail, call.del_fd 6 ex_ctl_fail,
   call.del_fd 5 ex_ctl_ok]

/-- The loop after `schedule_i(f1, INT64_MIN ns)` at clock 1 ms. -/
def ex_loop_past_timer : event_loop_t :=
  ex_loop.schedule_i 1 (time_type.from_ns (-2 ^ 63)) (ex_ms 1)

/-- An iteration in which the kernel reports nothing and the clock shows 2 ms. -/
def ex_env_two_ms : iteration_env :=
  { clock_wait := ex_ms 2,
    epoll_pwait2 := fun _ _ _ => epoll_pwait2_result.ready [],
    clock_timers := ex_ms 2 }

/-! ## Basic facts about the embedding -/

@[simp] theorem set_file_files_same (l : event_loop_t) (fd : Int) (f : file_internal) :
    (l.set_file fd f).files_ fd = f := by
  simp [event_loop_t.set_file]

theorem set_file_files_other (l : event_loop_t) (fd fd1 : Int) (f : file_internal)
    (h : fd1 ≠ fd) : (l.set_file fd f).files_ fd1 = l.files_ fd1 := by
  simp [event_loop_t.set_file, Function.update, h]

@[simp] theorem set_file_scheduled (l : event_loop_t) (fd : Int) (f : file_internal) :
    (l.set_file fd f).scheduled_ = l.scheduled_ := rfl

@[simp] theorem set_file_selector (l : event_loop_t) (fd : Int) (f : file_internal) :
    (l.set_file fd f).selector_ = l.selector_ := rfl

@[simp] theorem set_file_constructed_files (l : event_loop_t) (fd : Int) (f : file_internal) :
    (l.set_file fd f).constructed_files_ = l.constructed_files_ := rfl

theorem set_file_self (l : event_loop_t) (fd : Int) : l.set_file fd (l.files_ fd) = l := by
  cases l
  simp [event_loop_t.set_file]

theorem drain_queue_eq (q awaiting : List coroutine_handle) :
    drain_queue q awaiting = ([], awaiting ++ q) := by
  induction q generalizing awaiting with
  | nil => simp [drain_queue]
  | cons x xs ih => simp [drain_queue, ih]

theorem resume_trace {σ : Type} (u : user_code σ) (st : step) (c : coroutine_handle)
    (m : run_state σ) : (m.resume u st c).trace = m.trace ++ [st] := rfl

theorem resume_each_trace {σ : Type} (u : user_code σ) (tag : coroutine_handle → step)
    (cs : List coroutine_handle) (m : run_state σ) :
    (resume_each u tag cs m).trace = m.trace ++ cs.map tag := by
  induction cs generalizing m with
  | nil => simp [resume_each]
  | cons c cs ih => simp [resume_each, ih, resume_trace]

theorem run_input_eq {σ : Type} (u : user_code σ) (fd : Int) (m : run_state σ) :
    event_loop_t.run_input u fd m =
      resume_each u (step.resume_read fd) (m.loop.files_ fd).reading_
        { m with loop := m.loop.set_file fd { m.loop.files_ fd with reading_ := [] } } := by
  simp [event_loop_t.run_input, drain_queue_eq]

theorem run_output_eq {σ : Type} (u : user_code σ) (fd : Int) (m : run_state σ) :
    event_loop_t.run_output u fd m =
      resume_each u (step.resume_write fd) (m.loop.files_ fd).writing_
        { m with loop := m.loop.set_file fd { m.loop.files_ fd with writing_ := [] } } := by
  simp [event_loop_t.run_output, drain_queue_eq]

theorem run_input_trace {σ : Type} (u : user_code σ) (fd : Int) (m : run_state σ) :
    (event_loop_t.run_input u fd m).trace =
      m.trace ++ (m.loop.files_ fd).reading_.map (step.resume_read fd) := by
  rw [run_input_eq, resume_each_trace]

theorem run_output_trace {σ : Type} (u : user_code σ) (fd : Int) (m : run_state σ) :
    (event_loop_t.run_output u fd m).trace =
      m.trace ++ (m.loop.files_ fd).writing_.map (step.resume_write fd) := by
  rw [run_output_eq, resume_each_trace]

theorem ensure_fd_in_range_eq (l : event_loop_t) (fd : Int) :
    l.ensure_fd_in_range fd =
      if fd < 0 ∨ (l.max_fileno_ : Int) ≤ fd then some exception.out_of_range else none := rfl

theorem await_read_eq (l : event_loop_t) (fd : Int) (h : coroutine_handle) :
    l.await_read fd h =
      if fd < 0 ∨ (l.max_fileno_ : Int) ≤ fd then outcome.thrown exception.out_of_range l
      else if (l.files_ fd).valid_ = false then outcome.thrown exception.bad_file_descriptor l
      else if ((l.files_ fd).ops_.and file_ops.readable).to_bool = false then
        outcome.thrown exception.bad_file_descriptor l
      else outcome.returned (l.set_file fd
        { l.files_ fd with reading_ := (l.files_ fd).reading_ ++ [h] }) := by
  unfold event_loop_t.await_read event_loop_t.push_read_clb event_loop_t.ensure_fd_registered
    event_loop_t.ensure_fd_in_range file_internal.is_valid
  by_cases h1 : fd < 0 ∨ (l.max_fileno_ : Int) ≤ fd
  · simp [h1]
  · by_cases h2 : (l.files_ fd).valid_ = false
    · simp [h1, h2]
    · by_cases h3 : ((l.files_ fd).ops_.and file_ops.readable).to_bool = false
      · simp [h1, h2, h3]
      · simp [h1, h2, h3]

theorem await_write_eq (l : event_loop_t) (fd : Int) (h : coroutine_handle) :
    l.await_write fd h =
      if fd < 0 ∨ (l.max_fileno_ : Int) ≤ fd then outcome.thrown exception.out_of_range l
      else if (l.files_ fd).valid_ = false then outcome.thrown exception.bad_file_descriptor l
      else if ((l.files_ fd).ops_.and file_ops.writable).to_bool = false then
        outcome.thrown exception.bad_file_descriptor l
      else outcome.returned (l.set_file fd
        { l.files_ fd with writing_ := (l.files_ fd).writing_ ++ [h] }) := by
  unfold event_loop_t.await_write event_loop_t.push_write_clb event_loop_t.ensure_fd_registered
    event_loop_t.ensure_fd_in_range file_internal.is_valid
  by_cases h1 : fd < 0 ∨ (l.max_fileno_ : Int) ≤ fd
  · simp [h1]
  · by_cases h2 : (l.files_ fd).valid_ = false
    · simp [h1, h2]
    · by_cases h3 : ((l.files_ fd).ops_.and file_ops.writable).to_bool = false
      · simp [h1, h2, h3]
      · simp [h1, h2, h3]

theorem selector_add_fd_cases (epoll_ctl : epoll_ctl_t) (fd : Int) (ev : selector.events)
    (sel : selector) :
    sel.add_fd epoll_ctl fd ev = outcome.thrown exception.bad_selector_access sel ∨
    sel.add_fd epoll_ctl fd ev = outcome.thrown exception.system_error sel ∨
    sel.add_fd epoll_ctl fd ev =
      outcome.returned { sel with num_events_ := (sel.num_events_ + 1) % 2 ^ 64 } := by
  unfold selector.add_fd
  by_cases h1 : sel.epfd_ = -1
  · simp [h1]
  · simp only [h1, if_false]
    split_ifs <;> simp

theorem selector_del_fd_cases (epoll_ctl : epoll_ctl_t) (fd : Int) (sel : selector) :
    sel.del_fd epoll_ctl fd = outcome.thrown exception.bad_selector_access sel ∨
    sel.del_fd epoll_ctl fd = outcome.thrown exception.system_error sel ∨
    sel.del_fd epoll_ctl fd = outcome.thrown exception.assertion_failed sel ∨
    (0 < sel.num_events_ ∧ sel.del_fd epoll_ctl fd =
      outcome.returned { sel with num_events_ := (sel.num_events_ + 2 ^ 64 - 1) % 2 ^ 64 }) := by
  unfold selector.del_fd
  by_cases h1 : sel.epfd_ = -1
  · simp [h1]
  · by_cases h2 : epoll_ctl sel.epfd_ EPOLL_CTL_DEL fd none = -1
    · simp [h1, h2]
    · by_cases h3 : sel.num_events_ > 0
      · right; right; right
        exact ⟨h3, by simp [h1, h2, h3]⟩
      · simp [h1, h2, h3]

theorem add_fd_out_of_range (epoll_ctl : epoll_ctl_t) (fd : Int) (ops : file_ops)
    (l : event_loop_t) (h : fd < 0 ∨ (l.max_fileno_ : Int) ≤ fd) :
    l.add_fd epoll_ctl fd ops = outcome.thrown exception.out_of_range l := by
  simp [event_loop_t.add_fd, event_loop_t.ensure_fd_in_range, h]

theorem add_fd_registered (epoll_ctl : epoll_ctl_t) (fd : Int) (ops : file_ops)
    (l : event_loop_t) (h : ¬ (fd < 0 ∨ (l.max_fileno_ : Int) ≤ fd))
    (hv : (l.files_ fd).valid_ = true) :
    l.add_fd epoll_ctl fd ops = outcome.thrown exception.invalid_argument l := by
  simp [event_loop_t.add_fd, event_loop_t.ensure_fd_in_range, h, file_internal.is_valid, hv]

theorem add_fd_fresh (epoll_ctl : epoll_ctl_t) (fd : Int) (ops : file_ops)
    (l : event_loop_t) (h : ¬ (fd < 0 ∨ (l.max_fileno_ : Int) ≤ fd))
    (hv : (l.files_ fd).valid_ = false) :
    l.add_fd epoll_ctl fd ops =
      match (l.selector_.add_fd epoll_ctl fd (event_loop_t.add_fd_events ops)) with
      | .thrown e sel =>
        outcome.thrown e { (if (l.files_ fd).constructed_ = false then
          l.set_file fd (file_internal.ctor fd) else l) with selector_ := sel }
      | .returned sel =>
        outcome.returned { l with
          files_ := Function.update l.files_ fd
            { fd_ := if (l.files_ fd).constructed_ = false then fd else (l.files_ fd).fd_,
              ops_ := ops, constructed_ := true, valid_ := true,
              reading_ := [], writing_ := [] },
          selector_ := sel } := by
  unfold event_loop_t.add_fd
  simp only [event_loop_t.ensure_fd_in_range, h, if_false, file_internal.is_valid, hv,
    file_internal.is_constructed]
  by_cases hc : (l.files_ fd).constructed_ = false
  · simp only [hc]
    simp only [Bool.false_eq_true, not_false_eq_true, if_true, set_file_selector]
    rcases selector_add_fd_cases epoll_ctl fd (event_loop_t.add_fd_events ops) l.selector_
      with h1 | h1 | h1 <;> rw [h1] <;> simp [event_loop_t.set_file, file_internal.ctor]
  · have hc1 : (l.files_ fd).constructed_ = true := by simpa using hc
    simp only [hc1]
    simp only [not_true_eq_false, if_false]
    rcases selector_add_fd_cases epoll_ctl fd (event_loop_t.add_fd_events ops) l.selector_
      with h1 | h1 | h1 <;> rw [h1] <;> simp [event_loop_t.set_file, hc1]

theorem add_fd_exn_fresh (epoll_ctl : epoll_ctl_t) (fd : Int) (ops : file_ops)
    (l : event_loop_t) (h : ¬ (fd < 0 ∨ (l.max_fileno_ : Int) ≤ fd))
    (hv : (l.files_ fd).valid_ = false) :
    (l.add_fd epoll_ctl fd ops).exn = none ∨
    (l.add_fd epoll_ctl fd ops).exn = some exception.bad_selector_access ∨
    (l.add_fd epoll_ctl fd ops).exn = some exception.system_error := by
  rw [add_fd_fresh epoll_ctl fd ops l h hv]
  rcases selector_add_fd_cases epoll_ctl fd (event_loop_t.add_fd_events ops) l.selector_
    with h1 | h1 | h1 <;> rw [h1] <;> simp [outcome.exn]

theorem add_fd_events_input (ops : file_ops) :
    ((event_loop_t.add_fd_events ops).and selector.events.input).to_bool =
      (ops.and file_ops.readable).to_bool := by
  unfold event_loop_t.add_fd_events
  by_cases hr : (ops.and file_ops.readable).to_bool = true <;>
    by_cases hw : (ops.and file_ops.writable).to_bool = true <;>
    simp [hr, hw] <;> decide

theorem add_fd_events_output (ops : file_ops) :
    ((event_loop_t.add_fd_events ops).and selector.events.output).to_bool =
      (ops.and file_ops.writable).to_bool := by
  unfold event_loop_t.add_fd_events
  by_cases hr : (ops.and file_ops.readable).to_bool = true <;>
    by_cases hw : (ops.and file_ops.writable).to_bool = true <;>
    simp [hr, hw] <;> decide

theorem add_fd_events_le (ops : file_ops) :
    (event_loop_t.add_fd_events ops).n_ ≤ 3 := by
  unfold event_loop_t.add_fd_events
  by_cases hr : (ops.and file_ops.readable).to_bool = true <;>
    by_cases hw : (ops.and file_ops.writable).to_bool = true <;>
    simp [hr, hw] <;> decide

theorem del_fd_unregistered (epoll_ctl : epoll_ctl_t) (fd : Int) (l : event_loop_t)
    (h : ¬ (fd < 0 ∨ (l.max_fileno_ : Int) ≤ fd)) (hv : (l.files_ fd).valid_ = false) :
    l.del_fd epoll_ctl fd = outcome.thrown exception.bad_file_descriptor l := by
  simp [event_loop_t.del_fd, event_loop_t.ensure_fd_registered,
    event_loop_t.ensure_fd_in_range, h, file_internal.is_valid, hv]

theorem del_fd_out_of_range (epoll_ctl : epoll_ctl_t) (fd : Int) (l : event_loop_t)
    (h : fd < 0 ∨ (l.max_fileno_ : Int) ≤ fd) :
    l.del_fd epoll_ctl fd = outcome.thrown exception.out_of_range l := by
  simp [event_loop_t.del_fd, event_loop_t.ensure_fd_registered,
    event_loop_t.ensure_fd_in_range, h]

theorem del_fd_registered (epoll_ctl : epoll_ctl_t) (fd : Int) (l : event_loop_t)
    (h : ¬ (fd < 0 ∨ (l.max_fileno_ : Int) ≤ fd)) (hv : (l.files_ fd).valid_ = true) :
    l.del_fd epoll_ctl fd =
      match l.selector_.del_fd epoll_ctl fd with
      | .thrown e sel => outcome.thrown e { l with selector_ := sel }
      | .returned sel =>
        outcome.returned { l with
          files_ := Function.update l.files_ fd { l.files_ fd with valid_ := false },
          selector_ := sel } := by
  unfold event_loop_t.del_fd
  simp only [event_loop_t.ensure_fd_registered, event_loop_t.ensure_fd_in_range, h, if_false,
    file_internal.is_valid, hv]
  rcases selector_del_fd_cases epoll_ctl fd l.selector_ with h1 | h1 | h1 | ⟨_, h1⟩ <;>
    rw [h1] <;> simp [event_loop_t.set_file]

/-! ### The timer heap -/

theorem pq_top_eq_none (q : List scheduled_handle) : pq_top q = none ↔ q = [] := by
  cases q with
  | nil => simp [pq_top]
  | cons x xs =>
    simp only [pq_top, reduceCtorEq, iff_false]
    cases pq_top xs with
    | none => simp
    | some y => by_cases h : x.time.le y.time = true <;> simp [h]

theorem pq_top_mem (q : List scheduled_handle) (x : scheduled_handle)
    (h : pq_top q = some x) : x ∈ q := by
  induction q generalizing x with
  | nil => simp [pq_top] at h
  | cons a as ih =>
    simp only [pq_top] at h
    cases hq : pq_top as with
    | none =>
      rw [hq] at h
      simp only [Option.some.injEq] at h
      simp [h]
    | some y =>
      rw [hq] at h
      by_cases hle : a.time.le y.time = true
      · simp only [hle, if_true, Option.some.injEq] at h
        simp [h]
      · simp only [hle, Bool.false_eq_true, if_false, Option.some.injEq] at h
        rw [← h]
        exact List.mem_cons_of_mem _ (ih _ hq)

theorem pq_top_min (q : List scheduled_handle) (x : scheduled_handle)
    (h : pq_top q = some x) : ∀ y ∈ q, x.time_.time_ ≤ y.time_.time_ := by
  induction q generalizing x with
  | nil => simp [pq_top] at h
  | cons a as ih =>
    simp only [pq_top] at h
    cases hq : pq_top as with
    | none =>
      rw [hq] at h
      simp only [Option.some.injEq] at h
      have has : as = [] := (pq_top_eq_none as).1 hq
      subst has
      subst h
      intro y hy
      simp only [List.mem_singleton] at hy
      subst hy
      exact le_refl _
    | some z =>
      rw [hq] at h
      have hz := ih z hq
      by_cases hle : a.time.le z.time = true
      · simp only [hle, if_true, Option.some.injEq] at h
        subst h
        have haz : a.time_.time_ ≤ z.time_.time_ := by
          simpa [time_type.le, scheduled_handle.time] using hle
        intro y hy
        rcases List.mem_cons.1 hy with hy | hy
        · subst hy; exact le_refl _
        · exact le_trans haz (hz y hy)
      · simp only [hle, Bool.false_eq_true, if_false, Option.some.injEq] at h
        rw [← h]
        have haz : z.time_.time_ < a.time_.time_ := by
          simpa [time_type.le, scheduled_handle.time] using hle
        intro y hy
        rcases List.mem_cons.1 hy with hy | hy
        · subst hy; exact le_of_lt haz
        · exact hz y hy

/-! ### What the calls of user code leave alone -/

theorem add_fd_state_scheduled (epoll_ctl : epoll_ctl_t) (fd : Int) (ops : file_ops)
    (l : event_loop_t) : (l.add_fd epoll_ctl fd ops).state.scheduled_ = l.scheduled_ := by
  by_cases hr : fd < 0 ∨ (l.max_fileno_ : Int) ≤ fd
  · rw [add_fd_out_of_range epoll_ctl fd ops l hr]; rfl
  · by_cases hv : (l.files_ fd).valid_ = true
    · rw [add_fd_registered epoll_ctl fd ops l hr hv]; rfl
    · have hv0 : (l.files_ fd).valid_ = false := by simpa using hv
      rw [add_fd_fresh epoll_ctl fd ops l hr hv0]
      rcases selector_add_fd_cases epoll_ctl fd (event_loop_t.add_fd_events ops) l.selector_
        with h1 | h1 | h1 <;> rw [h1] <;> simp only [outcome.state] <;> split_ifs <;> rfl

theorem del_fd_state_scheduled (epoll_ctl : epoll_ctl_t) (fd : Int)
    (l : event_loop_t) : (l.del_fd epoll_ctl fd).state.scheduled_ = l.scheduled_ := by
  by_cases hr : fd < 0 ∨ (l.max_fileno_ : Int) ≤ fd
  · rw [del_fd_out_of_range epoll_ctl fd l hr]; rfl
  · by_cases hv : (l.files_ fd).valid_ = true
    · rw [del_fd_registered epoll_ctl fd l hr hv]
      rcases selector_del_fd_cases epoll_ctl fd l.selector_ with h1 | h1 | h1 | ⟨_, h1⟩ <;>
        rw [h1] <;> rfl
    · have hv0 : (l.files_ fd).valid_ = false := by simpa using hv
      rw [del_fd_unregistered epoll_ctl fd l hr hv0]; rfl

theorem await_read_state_scheduled (fd : Int) (h : coroutine_handle) (l : event_loop_t) :
    (l.await_read fd h).state.scheduled_ = l.scheduled_ := by
  rw [await_read_eq]; split_ifs <;> rfl

theorem await_write_state_scheduled (fd : Int) (h : coroutine_handle) (l : event_loop_t) :
    (l.await_write fd h).state.scheduled_ = l.scheduled_ := by
  rw [await_write_eq]; split_ifs <;> rfl

theorem exec_scheduled_of_not_timer (c : call) (l : event_loop_t) (h : c.is_timer = false) :
    (c.exec l).scheduled_ = l.scheduled_ := by
  cases c <;> simp [call.is_timer] at h <;>
    simp [call.exec, add_fd_state_scheduled, del_fd_state_scheduled,
      await_read_state_scheduled, await_write_state_scheduled]

theorem exec_scheduled_append (c : call) (l : event_loop_t) :
    ∃ extra, (c.exec l).scheduled_ = l.scheduled_ ++ extra := by
  cases c with
  | add_fd fd ops ctl => exact ⟨[], by simp [call.exec, add_fd_state_scheduled]⟩
  | del_fd fd ctl => exact ⟨[], by simp [call.exec, del_fd_state_scheduled]⟩
  | schedule_i s d n => exact ⟨_, rfl⟩
  | schedule_a s d n => exact ⟨_, rfl⟩
  | await_read fd h => exact ⟨[], by simp [call.exec, await_read_state_scheduled]⟩
  | await_write fd h => exact ⟨[], by simp [call.exec, await_write_state_scheduled]⟩
  | sleep_for s d n => exact ⟨_, rfl⟩

theorem exec_all_scheduled_of_not_timer (cs : List call) (l : event_loop_t)
    (h : ∀ c ∈ cs, c.is_timer = false) :
    (call.exec_all cs l).scheduled_ = l.scheduled_ := by
  induction cs generalizing l with
  | nil => rfl
  | cons c cs ih =>
    simp only [call.exec_all, List.foldl_cons]
    have := ih (c.exec l) (fun c1 hc1 => h c1 (List.mem_cons_of_mem _ hc1))
    simp only [call.exec_all] at this
    rw [this, exec_scheduled_of_not_timer c l (h c (List.mem_cons_self _ _))]

theorem exec_all_scheduled_append (cs : List call) (l : event_loop_t) :
    ∃ extra, (call.exec_all cs l).scheduled_ = l.scheduled_ ++ extra := by
  induction cs generalizing l with
  | nil => exact ⟨[], by simp [call.exec_all]⟩
  | cons c cs ih =>
    obtain ⟨e1, h1⟩ := exec_scheduled_append c l
    obtain ⟨e2, h2⟩ := ih (c.exec l)
    refine ⟨e1 ++ e2, ?_⟩
    simp only [call.exec_all, List.foldl_cons] at h2 ⊢
    rw [h2, h1, List.append_assoc]

/-! ### The timer phase -/

theorem handle_run_trace {σ : Type} (u : user_code σ) (sc : scheduled_handle)
    (m : run_state σ) : (sc.run u m).trace = m.trace ++ [step.run sc] := by
  unfold scheduled_handle.run
  cases sc.type_ <;> rfl

theorem handle_run_scheduled {σ : Type} (u : user_code σ) (sc : scheduled_handle)
    (m : run_state σ) :
    ∃ extra, (sc.run u m).loop.scheduled_ = m.loop.scheduled_ ++ extra := by
  unfold scheduled_handle.run
  cases sc.type_
  · exact exec_all_scheduled_append _ _
  · exact exec_all_scheduled_append _ _

theorem pq_not_due_of_top (q : List scheduled_handle) (t : scheduled_handle)
    (ct : time_type) (h : pq_top q = some t) (hdue : t.time.le ct = false) :
    ∀ sc ∈ q, sc.time.le ct = false := by
  intro sc hsc
  have h1 := pq_top_min q t h sc hsc
  simp only [time_type.le, scheduled_handle.time, decide_eq_false_iff_not, not_le] at hdue ⊢
  omega

theorem count_le_count_pop_add (q : List scheduled_handle) (t sc : scheduled_handle) :
    List.count sc q ≤ List.count sc (q.erase t) + List.count sc [t] := by
  by_cases h : sc = t
  · subst h
    rw [List.count_erase_self]
    simp only [List.count_cons_self, List.count_nil]
    omega
  · rw [List.count_erase_of_ne h]
    omega

theorem run_timers_spec {σ : Type} (u : user_code σ) (ct : time_type) (fuel : Nat)
    (m : run_state σ) :
    ∃ ran : List scheduled_handle,
      (event_loop_t.run_timers u ct fuel m).2.trace = m.trace ++ ran.map step.run ∧
      (∀ sc ∈ ran, sc.time.le ct = true) ∧
      ((event_loop_t.run_timers u ct fuel m).1 = true →
        (∀ sc ∈ (event_loop_t.run_timers u ct fuel m).2.loop.scheduled_,
          sc.time.le ct = false) ∧
        (∀ sc, sc.time.le ct = true →
          List.count sc m.loop.scheduled_ ≤ List.count sc ran)) := by
  induction fuel generalizing m with
  | zero =>
    refine ⟨[], ?_, by simp, ?_⟩
    · unfold event_loop_t.run_timers
      cases pq_top m.loop.scheduled_ with
      | none => simp
      | some t => by_cases hd : t.time.le ct = true <;> simp [hd]
    · unfold event_loop_t.run_timers
      cases hq : pq_top m.loop.scheduled_ with
      | none =>
        have he := (pq_top_eq_none _).1 hq
        simp [he]
      | some t =>
        by_cases hd : t.time.le ct = true
        · simp [hd]
        · have hd0 : t.time.le ct = false := by simpa using hd
          simp only [hd0, Bool.false_eq_true, if_false, forall_true_left]
          have hall := pq_not_due_of_top _ t ct hq hd0
          refine ⟨hall, fun sc hsc => ?_⟩
          have : sc ∉ m.loop.scheduled_ := fun hmem => by
            have := hall sc hmem
            rw [hsc] at this
            cases this
          rw [List.count_eq_zero_of_not_mem this]
          exact Nat.zero_le _
  | succ n ih =>
    unfold event_loop_t.run_timers
    cases hq : pq_top m.loop.scheduled_ with
    | none =>
      have he := (pq_top_eq_none _).1 hq
      exact ⟨[], by simp, by simp, by simp [he]⟩
    | some t =>
      by_cases hd : t.time.le ct = true
      · simp only [hd, if_true]
        obtain ⟨ran, h1, h2, h3⟩ := ih (t.run u
          { m with loop := { m.loop with scheduled_ := pq_pop m.loop.scheduled_ } })
        refine ⟨t :: ran, ?_, ?_, ?_⟩
        · rw [h1, handle_run_trace]
          simp
        · intro sc hsc
          rcases List.mem_cons.1 hsc with h | h
          · rw [h]; exact hd
          · exact h2 sc h
        · intro hb
          obtain ⟨h4, h5⟩ := h3 hb
          refine ⟨h4, fun sc hsc => ?_⟩
          obtain ⟨extra, hex⟩ := handle_run_scheduled u t
            { m with loop := { m.loop with scheduled_ := pq_pop m.loop.scheduled_ } }
          have h6 := h5 sc hsc
          rw [hex] at h6
          simp only [pq_pop, hq, List.count_append] at h6
          have h7 := count_le_count_pop_add m.loop.scheduled_ t sc
          rw [List.count_cons]
          simp only [List.count_cons, List.count_nil] at h7
          omega
      · have hd0 : t.time.le ct = false := by simpa using hd
        simp only [hd0, Bool.false_eq_true, if_false]
        have hall := pq_not_due_of_top _ t ct hq hd0
        refine ⟨[], by simp, by simp, fun _ => ⟨hall, fun sc hsc => ?_⟩⟩
        have : sc ∉ m.loop.scheduled_ := fun hmem => by
          have := hall sc hmem
          rw [hsc] at this
          cases this
        rw [List.count_eq_zero_of_not_mem this]
        exact Nat.zero_le _

/-! ### The I/O phase and whole iterations -/

theorem run_event_trace {σ : Type} (u : user_code σ) (ev : selector.event_data)
    (m : run_state σ) :
    (event_loop_t.run_event u ev m).trace =
      m.trace ++
        ((if (ev.flags.and selector.events.input).to_bool then
            (m.loop.files_ ev.fd).reading_.map (step.resume_read ev.fd) else []) ++
         (if (ev.flags.and selector.events.output).to_bool then
            ((if (ev.flags.and selector.events.input).to_bool then
                event_loop_t.run_input u ev.fd m else m).loop.files_ ev.fd).writing_.map
              (step.resume_write ev.fd) else [])) := by
  unfold event_loop_t.run_event
  by_cases hi : (ev.flags.and selector.events.input).to_bool = true <;>
    by_cases ho : (ev.flags.and selector.events.output).to_bool = true <;>
    simp [hi, ho, run_input_trace, run_output_trace]

theorem run_event_trace_wakes {σ : Type} (u : user_code σ) (ev : selector.event_data)
    (m : run_state σ) :
    ∃ woken, (event_loop_t.run_event u ev m).trace = m.trace ++ woken ∧
      ∀ st ∈ woken, st.is_wake = true := by
  refine ⟨_, run_event_trace u ev m, ?_⟩
  intro st hst
  rcases List.mem_append.1 hst with h | h
  · split_ifs at h <;>
      first
      | (obtain ⟨c, _, rfl⟩ := List.mem_map.1 h; rfl)
      | cases h
  · split_ifs at h <;>
      first
      | (obtain ⟨c, _, rfl⟩ := List.mem_map.1 h; rfl)
      | cases h

theorem run_events_trace_wakes {σ : Type} (u : user_code σ)
    (evs : List selector.event_data) (m : run_state σ) :
    ∃ woken, (event_loop_t.run_events u evs m).trace = m.trace ++ woken ∧
      ∀ st ∈ woken, st.is_wake = true := by
  induction evs generalizing m with
  | nil => exact ⟨[], by simp [event_loop_t.run_events], by simp⟩
  | cons ev evs ih =>
    obtain ⟨woken1, h1, h2⟩ := run_event_trace_wakes u ev m
    obtain ⟨woken2, h3, h4⟩ := ih (event_loop_t.run_event u ev m)
    refine ⟨woken1 ++ woken2, ?_, ?_⟩
    · simp only [event_loop_t.run_events]
      rw [h3, h1, List.append_assoc]
    · intro st hst
      rcases List.mem_append.1 hst with h | h
      · exact h2 st h
      · exact h4 st h

/-- One pass through the body of the loop of `run`, phase by phase. -/
theorem run_iteration_spec {σ : Type} (u : user_code σ) (fuel : Nat) (env : iteration_env)
    (m : run_state σ) :
    match event_loop_t.run_iteration u fuel env m with
    | .returned m1 =>
      ∃ (timeout : Option time_type) (ran : List scheduled_handle) (m2 : run_state σ)
          (events : List selector.event_data) (woken : List step),
        m2.trace = m.trace ++ step.wait timeout :: ran.map step.run ∧
        m1 = event_loop_t.run_events u events m2 ∧
        m1.trace = m2.trace ++ woken ∧
        (∀ st ∈ woken, st.is_wake = true) ∧
        (∀ sc ∈ ran, sc.time.le env.clock_timers = true) ∧
        (∀ sc, sc.time.le env.clock_timers = true →
          List.count sc m.loop.scheduled_ ≤ List.count sc ran) ∧
        (∀ sc ∈ m2.loop.scheduled_, sc.time.le env.clock_timers = false)
    | .thrown _ m1 => ∃ timeout, m1.trace = m.trace ++ [step.wait timeout]
    | .running m1 =>
      ∃ (timeout : Option time_type) (ran : List scheduled_handle),
        m1.trace = m.trace ++ step.wait timeout :: ran.map step.run := by
  unfold event_loop_t.run_iteration
  rcases hw : m.loop.run_wait env with ⟨timeout, ⟨events⟩ | ⟨e, events⟩⟩
  · simp only
    obtain ⟨ran, h1, h2, h3⟩ := run_timers_spec u env.clock_timers fuel
      { m with trace := m.trace ++ [step.wait timeout] }
    rcases ht : event_loop_t.run_timers u env.clock_timers fuel
      { m with trace := m.trace ++ [step.wait timeout] } with ⟨b, m2⟩
    rw [ht] at h1 h3
    cases b
    · simp only
      exact ⟨timeout, ran, by simpa using h1⟩
    · simp only
      obtain ⟨woken, h4, h5⟩ := run_events_trace_wakes u events m2
      obtain ⟨h6, h7⟩ := h3 rfl
      exact ⟨timeout, ran, m2, events, woken, by simpa using h1, rfl, h4, h5, h2, h7, h6⟩
  · simp only
    exact ⟨timeout, rfl⟩

/-! ### The whole of `run` -/

theorem pending_events_eq_false (l : event_loop_t) :
    l.pending_events = false ↔ l.scheduled_ = [] ∧ l.selector_.get_num_events = 0 := by
  unfold event_loop_t.pending_events
  cases l.scheduled_ <;> simp

theorem pending_events_eq_true (l : event_loop_t) :
    l.pending_events = true ↔ l.scheduled_ ≠ [] ∨ 0 < l.selector_.get_num_events := by
  unfold event_loop_t.pending_events
  cases l.scheduled_ <;> simp

theorem run_iteration_trace {σ : Type} (u : user_code σ) (fuel : Nat) (env : iteration_env)
    (m : run_state σ) :
    ∃ timeout tail,
      (event_loop_t.run_iteration u fuel env m).state.trace =
        m.trace ++ step.wait timeout :: tail := by
  have h := run_iteration_spec u fuel env m
  rcases hr : event_loop_t.run_iteration u fuel env m with m1 | ⟨e, m1⟩ | m1
  · rw [hr] at h
    simp only at h
    obtain ⟨timeout, ran, m2, events, woken, h1, _, h3, _⟩ := h
    refine ⟨timeout, ran.map step.run ++ woken, ?_⟩
    simp [run_result.state, h3, h1]
  · rw [hr] at h
    simp only at h
    obtain ⟨timeout, h1⟩ := h
    exact ⟨timeout, [], by simp [run_result.state, h1]⟩
  · rw [hr] at h
    simp only at h
    obtain ⟨timeout, ran, h1⟩ := h
    exact ⟨timeout, ran.map step.run, by simp [run_result.state, h1]⟩

theorem run_trace_extends {σ : Type} (u : user_code σ) (fuel : Nat)
    (envs : List iteration_env) (m : run_state σ) :
    ∃ tail, (event_loop_t.run u fuel envs m).state.trace = m.trace ++ tail := by
  induction envs generalizing m with
  | nil =>
    refine ⟨[], ?_⟩
    unfold event_loop_t.run
    split_ifs <;> simp [run_result.state]
  | cons env rest ih =>
    unfold event_loop_t.run
    by_cases hp : m.loop.pending_events = true
    · simp only [hp, if_true]
      obtain ⟨timeout, tail, ht⟩ := run_iteration_trace u fuel env m
      rcases hr : event_loop_t.run_iteration u fuel env m with m1 | ⟨e, m1⟩ | m1
      · rw [hr] at ht
        simp only [run_result.state] at ht
        dsimp only
        obtain ⟨tail2, h2⟩ := ih m1
        exact ⟨step.wait timeout :: tail ++ tail2, by rw [h2, ht]; simp⟩
      · rw [hr] at ht
        exact ⟨_, ht⟩
      · rw [hr] at ht
        exact ⟨_, ht⟩
    · simp only [hp, Bool.false_eq_true, if_false]
      exact ⟨[], by simp [run_result.state]⟩

theorem run_returned_not_pending {σ : Type} (u : user_code σ) (fuel : Nat)
    (envs : List iteration_env) (m m1 : run_state σ)
    (h : event_loop_t.run u fuel envs m = run_result.returned m1) :
    m1.loop.pending_events = false := by
  induction envs generalizing m with
  | nil =>
    unfold event_loop_t.run at h
    by_cases hp : m.loop.pending_events = true
    · simp [hp] at h
    · simp only [hp, Bool.false_eq_true, if_false, run_result.returned.injEq] at h
      subst h
      simpa using hp
  | cons env rest ih =>
    unfold event_loop_t.run at h
    by_cases hp : m.loop.pending_events = true
    · simp only [hp, if_true] at h
      rcases hr : event_loop_t.run_iteration u fuel env m with m2 | ⟨e, m2⟩ | m2
      · rw [hr] at h
        exact ih m2 h
      · rw [hr] at h; cases h
      · rw [hr] at h; cases h
    · simp only [hp, Bool.false_eq_true, if_false, run_result.returned.injEq] at h
      subst h
      simpa using hp

/-! ### The order in which handles run -/

theorem ran_handles_append (a b : List step) :
    ran_handles (a ++ b) = ran_handles a ++ ran_handles b := by
  induction a with
  | nil => rfl
  | cons st a ih => cases st <;> simp [ran_handles, ih]

theorem ran_handles_wakes (woken : List step) (h : ∀ st ∈ woken, st.is_wake = true) :
    ran_handles woken = [] := by
  induction woken with
  | nil => rfl
  | cons st woken ih =>
    have h1 := h st (List.mem_cons_self _ _)
    have h2 := ih (fun st1 hst1 => h st1 (List.mem_cons_of_mem _ hst1))
    cases st <;> simp [step.is_wake] at h1 <;> simp [ran_handles, h2]

theorem resume_scheduled {σ : Type} (u : user_code σ) (hu : u.no_timer_calls) (st : step)
    (c : coroutine_handle) (m : run_state σ) :
    (m.resume u st c).loop.scheduled_ = m.loop.scheduled_ :=
  exec_all_scheduled_of_not_timer _ _ (hu.2 c m.loop m.user)

theorem handle_run_scheduled_eq {σ : Type} (u : user_code σ) (hu : u.no_timer_calls)
    (sc : scheduled_handle) (m : run_state σ) :
    (sc.run u m).loop.scheduled_ = m.loop.scheduled_ := by
  unfold scheduled_handle.run
  cases sc.type_
  · exact exec_all_scheduled_of_not_timer _ _ (hu.1 sc.target_ m.loop m.user)
  · exact resume_scheduled u hu _ _ m

theorem resume_each_scheduled {σ : Type} (u : user_code σ) (hu : u.no_timer_calls)
    (tag : coroutine_handle → step) (cs : List coroutine_handle) (m : run_state σ) :
    (resume_each u tag cs m).loop.scheduled_ = m.loop.scheduled_ := by
  induction cs generalizing m with
  | nil => rfl
  | cons c cs ih =>
    simp only [resume_each]
    rw [ih, resume_scheduled u hu]

theorem run_event_scheduled {σ : Type} (u : user_code σ) (hu : u.no_timer_calls)
    (ev : selector.event_data) (m : run_state σ) :
    (event_loop_t.run_event u ev m).loop.scheduled_ = m.loop.scheduled_ := by
  unfold event_loop_t.run_event
  split_ifs <;>
    simp [run_input_eq, run_output_eq, resume_each_scheduled u hu]

theorem run_events_scheduled {σ : Type} (u : user_code σ) (hu : u.no_timer_calls)
    (evs : List selector.event_data) (m : run_state σ) :
    (event_loop_t.run_events u evs m).loop.scheduled_ = m.loop.scheduled_ := by
  induction evs generalizing m with
  | nil => rfl
  | cons ev evs ih =>
    simp only [event_loop_t.run_events]
    rw [ih, run_event_scheduled u hu]

/-- The handles run so far are in deadline order, none of them is later than a handle still
in the heap, and together with the heap they are the handles of `H0`. -/
theorem run_timers_order {σ : Type} (u : user_code σ) (hu : u.no_timer_calls)
    (ct : time_type) (fuel : Nat) (H0 : List scheduled_handle) (m : run_state σ)
    (h1 : List.Pairwise deadline_le (ran_handles m.trace))
    (h2 : ∀ r ∈ ran_handles m.trace, ∀ h ∈ m.loop.scheduled_, deadline_le r h)
    (h3 : List.Perm (ran_handles m.trace ++ m.loop.scheduled_) H0) :
    List.Pairwise deadline_le
        (ran_handles (event_loop_t.run_timers u ct fuel m).2.trace) ∧
    (∀ r ∈ ran_handles (event_loop_t.run_timers u ct fuel m).2.trace,
      ∀ h ∈ (event_loop_t.run_timers u ct fuel m).2.loop.scheduled_, deadline_le r h) ∧
    List.Perm (ran_handles (event_loop_t.run_timers u ct fuel m).2.trace ++
      (event_loop_t.run_timers u ct fuel m).2.loop.scheduled_) H0 := by
  induction fuel generalizing m with
  | zero =>
    unfold event_loop_t.run_timers
    cases pq_top m.loop.scheduled_ with
    | none => exact ⟨h1, h2, h3⟩
    | some t => by_cases hd : t.time.le ct = true <;> simp only [hd] <;> exact ⟨h1, h2, h3⟩
  | succ n ih =>
    unfold event_loop_t.run_timers
    cases hq : pq_top m.loop.scheduled_ with
    | none => exact ⟨h1, h2, h3⟩
    | some t =>
      by_cases hd : t.time.le ct = true
      · simp only [hd, if_true]
        have hmem := pq_top_mem _ _ hq
        have hmin := pq_top_min _ _ hq
        apply ih
        · rw [handle_run_trace, ran_handles_append]
          simp only [ran_handles]
          rw [List.pairwise_append]
          refine ⟨h1, by simp, ?_⟩
          intro a ha b hb
          simp only [List.mem_singleton] at hb
          subst hb
          exact h2 a ha b hmem
        · rw [handle_run_trace, ran_handles_append, handle_run_scheduled_eq u hu]
          simp only [ran_handles, pq_pop, hq]
          intro r hr h hh
          have hh1 : h ∈ m.loop.scheduled_ := List.mem_of_mem_erase hh
          rcases List.mem_append.1 hr with hr | hr
          · exact h2 r hr h hh1
          · simp only [List.mem_singleton] at hr
            subst hr
            exact hmin h hh1
        · rw [handle_run_trace, ran_handles_append, handle_run_scheduled_eq u hu]
          simp only [ran_handles, pq_pop, hq]
          refine List.Perm.trans ?_ h3
          rw [List.append_assoc]
          apply List.Perm.append_left
          simp only [List.singleton_append]
          exact (List.perm_cons_erase hmem).symm
      · simp only [hd, Bool.false_eq_true, if_false]
        exact ⟨h1, h2, h3⟩

theorem run_events_ran_handles {σ : Type} (u : user_code σ)
    (evs : List selector.event_data) (m : run_state σ) :
    ran_handles (event_loop_t.run_events u evs m).trace = ran_handles m.trace := by
  obtain ⟨woken, h1, h2⟩ := run_events_trace_wakes u evs m
  rw [h1, ran_handles_append, ran_handles_wakes woken h2, List.append_nil]

theorem run_iteration_order {σ : Type} (u : user_code σ) (hu : u.no_timer_calls)
    (fuel : Nat) (env : iteration_env) (H0 : List scheduled_handle) (m : run_state σ)
    (h1 : List.Pairwise deadline_le (ran_handles m.trace))
    (h2 : ∀ r ∈ ran_handles m.trace, ∀ h ∈ m.loop.scheduled_, deadline_le r h)
    (h3 : List.Perm (ran_handles m.trace ++ m.loop.scheduled_) H0) :
    List.Pairwise deadline_le
        (ran_handles (event_loop_t.run_iteration u fuel env m).state.trace) ∧
    (∀ r ∈ ran_handles (event_loop_t.run_iteration u fuel env m).state.trace,
      ∀ h ∈ (event_loop_t.run_iteration u fuel env m).state.loop.scheduled_,
        deadline_le r h) ∧
    List.Perm (ran_handles (event_loop_t.run_iteration u fuel env m).state.trace ++
      (event_loop_t.run_iteration u fuel env m).state.loop.scheduled_) H0 := by
  unfold event_loop_t.run_iteration
  rcases hw : m.loop.run_wait env with ⟨timeout, ⟨events⟩ | ⟨e, events⟩⟩
  · simp only
    have hw1 : ran_handles (m.trace ++ [step.wait timeout]) = ran_handles m.trace := by
      rw [ran_handles_append]; simp [ran_handles]
    have ht := run_timers_order u hu env.clock_timers fuel H0
      { m with trace := m.trace ++ [step.wait timeout] }
      (by simpa [hw1] using h1) (by simpa [hw1] using h2) (by simpa [hw1] using h3)
    rcases hr : event_loop_t.run_timers u env.clock_timers fuel
      { m with trace := m.trace ++ [step.wait timeout] } with ⟨b, m2⟩
    rw [hr] at ht
    cases b
    · simpa [run_result.state] using ht
    · simp only [run_result.state]
      rw [run_events_ran_handles, run_events_scheduled u hu]
      exact ht
  · simp only [run_result.state]
    have hw1 : ran_handles (m.trace ++ [step.wait timeout]) = ran_handles m.trace := by
      rw [ran_handles_append]; simp [ran_handles]
    rw [hw1]
    exact ⟨h1, h2, h3⟩

theorem run_order {σ : Type} (u : user_code σ) (hu : u.no_timer_calls)
    (fuel : Nat) (envs : List iteration_env) (H0 : List scheduled_handle) (m : run_state σ)
    (h1 : List.Pairwise deadline_le (ran_handles m.trace))
    (h2 : ∀ r ∈ ran_handles m.trace, ∀ h ∈ m.loop.scheduled_, deadline_le r h)
    (h3 : List.Perm (ran_handles m.trace ++ m.loop.scheduled_) H0) :
    List.Pairwise deadline_le (ran_handles (event_loop_t.run u fuel envs m).state.trace) ∧
    List.Perm (ran_handles (event_loop_t.run u fuel envs m).state.trace ++
      (event_loop_t.run u fuel envs m).state.loop.scheduled_) H0 := by
  induction envs generalizing m with
  | nil =>
    unfold event_loop_t.run
    split_ifs <;> exact ⟨h1, h3⟩
  | cons env rest ih =>
    unfold event_loop_t.run
    by_cases hp : m.loop.pending_events = true
    · simp only [hp, if_true]
      have hi := run_iteration_order u hu fuel env H0 m h1 h2 h3
      rcases hr : event_loop_t.run_iteration u fuel env m with m1 | ⟨e, m1⟩ | m1
      · rw [hr] at hi
        simp only [run_result.state] at hi
        dsimp only
        exact ih m1 hi.1 hi.2.1 hi.2.2
      · rw [hr] at hi
        exact ⟨hi.1, hi.2.2⟩
      · rw [hr] at hi
        exact ⟨hi.1, hi.2.2⟩
    · simp only [hp, Bool.false_eq_true, if_false]
      exact ⟨h1, h3⟩

theorem schedule_i_all_scheduled (subs : List (schedulable_func_t × time_type × time_type))
    (l : event_loop_t) :
    (event_loop_t.schedule_i_all subs l).scheduled_ =
      l.scheduled_ ++
        subs.map (fun x => scheduled_handle.of_func x.1 (x.2.2.add x.2.1)) := by
  induction subs generalizing l with
  | nil => simp [event_loop_t.schedule_i_all]
  | cons x subs ih =>
    obtain ⟨s, delay, now⟩ := x
    simp only [event_loop_t.schedule_i_all, ih, event_loop_t.schedule_i, pq_emplace]
    simp

/-- When user code adds nothing to the heap, the loop over due handles ends within as many
passes as the heap has handles. -/
theorem run_timers_finishes {σ : Type} (u : user_code σ) (hu : u.no_timer_calls)
    (ct : time_type) (fuel : Nat) (m : run_state σ)
    (hf : m.loop.scheduled_.length ≤ fuel) :
    (event_loop_t.run_timers u ct fuel m).1 = true := by
  induction fuel generalizing m with
  | zero =>
    have he : m.loop.scheduled_ = [] := List.length_eq_zero.1 (Nat.le_zero.1 hf)
    unfold event_loop_t.run_timers
    rw [(pq_top_eq_none _).2 he]
  | succ n ih =>
    unfold event_loop_t.run_timers
    cases hq : pq_top m.loop.scheduled_ with
    | none => rfl
    | some t =>
      by_cases hd : t.time.le ct = true
      · simp only [hd, if_true]
        apply ih
        rw [handle_run_scheduled_eq u hu]
        simp only [pq_pop, hq]
        rw [List.length_erase_of_mem (pq_top_mem _ _ hq)]
        omega
      · simp only [hd, Bool.false_eq_true, if_false]

/-! ### What the calls of user code do to the waiter queues -/

theorem add_fd_state_queues (epoll_ctl : epoll_ctl_t) (fd : Int) (ops : file_ops)
    (l : event_loop_t) (fd1 : Int) :
    (((l.add_fd epoll_ctl fd ops).state.files_ fd1).reading_ = (l.files_ fd1).reading_ ∨
      ((l.add_fd epoll_ctl fd ops).state.files_ fd1).reading_ = []) ∧
    (((l.add_fd epoll_ctl fd ops).state.files_ fd1).writing_ = (l.files_ fd1).writing_ ∨
      ((l.add_fd epoll_ctl fd ops).state.files_ fd1).writing_ = []) := by
  by_cases hr : fd < 0 ∨ (l.max_fileno_ : Int) ≤ fd
  · rw [add_fd_out_of_range epoll_ctl fd ops l hr]; exact ⟨Or.inl rfl, Or.inl rfl⟩
  · by_cases hv : (l.files_ fd).valid_ = true
    · rw [add_fd_registered epoll_ctl fd ops l hr hv]; exact ⟨Or.inl rfl, Or.inl rfl⟩
    · have hv0 : (l.files_ fd).valid_ = false := by simpa using hv
      rw [add_fd_fresh epoll_ctl fd ops l hr hv0]
      by_cases hfd : fd1 = fd
      · subst hfd
        rcases selector_add_fd_cases epoll_ctl fd1 (event_loop_t.add_fd_events ops) l.selector_
          with h1 | h1 | h1 <;> rw [h1] <;> simp only [outcome.state] <;>
          split_ifs <;> simp [event_loop_t.set_file, file_internal.ctor]
      · rcases selector_add_fd_cases epoll_ctl fd (event_loop_t.add_fd_events ops) l.selector_
          with h1 | h1 | h1 <;> rw [h1] <;> simp only [outcome.state] <;>
          split_ifs <;> simp [event_loop_t.set_file, Function.update, hfd]

theorem del_fd_state_queues (epoll_ctl : epoll_ctl_t) (fd : Int) (l : event_loop_t)
    (fd1 : Int) :
    ((l.del_fd epoll_ctl fd).state.files_ fd1).reading_ = (l.files_ fd1).reading_ ∧
    ((l.del_fd epoll_ctl fd).state.files_ fd1).writing_ = (l.files_ fd1).writing_ := by
  by_cases hr : fd < 0 ∨ (l.max_fileno_ : Int) ≤ fd
  · rw [del_fd_out_of_range epoll_ctl fd l hr]; exact ⟨rfl, rfl⟩
  · by_cases hv : (l.files_ fd).valid_ = true
    · rw [del_fd_registered epoll_ctl fd l hr hv]
      by_cases hfd : fd1 = fd
      · subst hfd
        rcases selector_del_fd_cases epoll_ctl fd1 l.selector_ with h1 | h1 | h1 | ⟨_, h1⟩ <;>
          rw [h1] <;> simp [outcome.state]
      · rcases selector_del_fd_cases epoll_ctl fd l.selector_ with h1 | h1 | h1 | ⟨_, h1⟩ <;>
          rw [h1] <;> simp [outcome.state, Function.update, hfd]
    · have hv0 : (l.files_ fd).valid_ = false := by simpa using hv
      rw [del_fd_unregistered epoll_ctl fd l hr hv0]; exact ⟨rfl, rfl⟩

theorem await_read_state_writing (fd : Int) (h : coroutine_handle) (l : event_loop_t)
    (fd1 : Int) :
    ((l.await_read fd h).state.files_ fd1).writing_ = (l.files_ fd1).writing_ := by
  rw [await_read_eq]
  by_cases hfd : fd1 = fd
  · subst hfd; split_ifs <;> simp [outcome.state]
  · split_ifs <;> simp [outcome.state, set_file_files_other _ _ _ _ hfd]

theorem await_write_state_reading (fd : Int) (h : coroutine_handle) (l : event_loop_t)
    (fd1 : Int) :
    ((l.await_write fd h).state.files_ fd1).reading_ = (l.files_ fd1).reading_ := by
  rw [await_write_eq]
  by_cases hfd : fd1 = fd
  · subst hfd; split_ifs <;> simp [outcome.state]
  · split_ifs <;> simp [outcome.state, set_file_files_other _ _ _ _ hfd]

theorem await_write_state_writing (fd : Int) (h : coroutine_handle) (l : event_loop_t)
    (fd1 : Int) :
    ((l.await_write fd h).state.files_ fd1).writing_ = (l.files_ fd1).writing_ ∨
    (fd1 = fd ∧
      ((l.await_write fd h).state.files_ fd1).writing_ = (l.files_ fd1).writing_ ++ [h]) := by
  rw [await_write_eq]
  by_cases hfd : fd1 = fd
  · subst hfd; split_ifs <;> simp [outcome.state]
  · split_ifs <;> simp [outcome.state, set_file_files_other _ _ _ _ hfd]

theorem await_read_state_reading (fd : Int) (h : coroutine_handle) (l : event_loop_t)
    (fd1 : Int) :
    ((l.await_read fd h).state.files_ fd1).reading_ = (l.files_ fd1).reading_ ∨
    (fd1 = fd ∧
      ((l.await_read fd h).state.files_ fd1).reading_ = (l.files_ fd1).reading_ ++ [h]) := by
  rw [await_read_eq]
  by_cases hfd : fd1 = fd
  · subst hfd; split_ifs <;> simp [outcome.state]
  · split_ifs <;> simp [outcome.state, set_file_files_other _ _ _ _ hfd]

/-- A call other than `await_write(fd)` made by `h` does not add `h` to the writing FIFO of
`fd`. -/
theorem exec_count_writing (c : call) (l : event_loop_t) (fd : Int) (h : coroutine_handle)
    (hc : c ≠ call.await_write fd h) :
    List.count h ((c.exec l).files_ fd).writing_ ≤ List.count h (l.files_ fd).writing_ := by
  cases c with
  | add_fd fd1 ops ctl =>
    simp only [call.exec]
    rcases (add_fd_state_queues ctl fd1 ops l fd).2 with h1 | h1
    · rw [h1]
    · rw [h1]; simp
  | del_fd fd1 ctl =>
    simp only [call.exec]
    rw [(del_fd_state_queues ctl fd1 l fd).2]
  | schedule_i s d n => exact le_refl _
  | schedule_a s d n => exact le_refl _
  | sleep_for s d n => exact le_refl _
  | await_read fd1 c1 =>
    simp only [call.exec]
    rw [await_read_state_writing]
  | await_write fd1 c1 =>
    simp only [call.exec]
    rcases await_write_state_writing fd1 c1 l fd with h1 | ⟨h1, h2⟩
    · rw [h1]
    · rw [h2]
      subst h1
      have hne : c1 ≠ h := fun he => hc (by rw [he])
      simp [List.count_append, List.count_cons, hne]

theorem exec_all_count_writing (cs : List call) (l : event_loop_t) (fd : Int)
    (h : coroutine_handle) (hc : call.await_write fd h ∉ cs) :
    List.count h ((call.exec_all cs l).files_ fd).writing_ ≤
      List.count h (l.files_ fd).writing_ := by
  induction cs generalizing l with
  | nil => exact le_refl _
  | cons c cs ih =>
    simp only [call.exec_all, List.foldl_cons]
    have h1 := ih (c.exec l) (fun hm => hc (List.mem_cons_of_mem _ hm))
    simp only [call.exec_all] at h1
    have h2 := exec_count_writing c l fd h (fun he => hc (by rw [he]; exact List.mem_cons_self _ _))
    omega

theorem resume_each_count_writing {σ : Type} (u : user_code σ)
    (tag : coroutine_handle → step) (cs : List coroutine_handle) (m : run_state σ) (fd : Int)
    (h : coroutine_handle)
    (hw : ∀ c ∈ cs, ∀ l s, call.await_write fd h ∉ (u.resume c l s).1) :
    List.count h ((resume_each u tag cs m).loop.files_ fd).writing_ ≤
      List.count h (m.loop.files_ fd).writing_ := by
  induction cs generalizing m with
  | nil => exact le_refl _
  | cons c cs ih =>
    simp only [resume_each]
    have h1 := ih (m.resume u (tag c) c) (fun c1 hc1 => hw c1 (List.mem_cons_of_mem _ hc1))
    have h2 : List.count h ((m.resume u (tag c) c).loop.files_ fd).writing_ ≤
        List.count h (m.loop.files_ fd).writing_ :=
      exec_all_count_writing _ _ fd h (hw c (List.mem_cons_self _ _) m.loop m.user)
    omega

theorem countP_resumes_read (h : coroutine_handle) (fd : Int) (cs : List coroutine_handle) :
    List.countP (step.resumes h) (cs.map (step.resume_read fd)) = List.count h cs := by
  induction cs with
  | nil => rfl
  | cons c cs ih =>
    simp only [List.map_cons, List.countP_cons, ih, List.count_cons, step.resumes]

theorem countP_resumes_write (h : coroutine_handle) (fd : Int) (cs : List coroutine_handle) :
    List.countP (step.resumes h) (cs.map (step.resume_write fd)) = List.count h cs := by
  induction cs with
  | nil => rfl
  | cons c cs ih =>
    simp only [List.map_cons, List.countP_cons, ih, List.count_cons, step.resumes]

/-- A call other than `await_read(fd)` made by `h` does not add `h` to the reading FIFO of
`fd`. -/
theorem exec_count_reading (c : call) (l : event_loop_t) (fd : Int) (h : coroutine_handle)
    (hc : c ≠ call.await_read fd h) :
    List.count h ((c.exec l).files_ fd).reading_ ≤ List.count h (l.files_ fd).reading_ := by
  cases c with
  | add_fd fd1 ops ctl =>
    simp only [call.exec]
    rcases (add_fd_state_queues ctl fd1 ops l fd).1 with h1 | h1
    · rw [h1]
    · rw [h1]; simp
  | del_fd fd1 ctl =>
    simp only [call.exec]
    rw [(del_fd_state_queues ctl fd1 l fd).1]
  | schedule_i s d n => exact le_refl _
  | schedule_a s d n => exact le_refl _
  | sleep_for s d n => exact le_refl _
  | await_write fd1 c1 =>
    simp only [call.exec]
    rw [await_write_state_reading]
  | await_read fd1 c1 =>
    simp only [call.exec]
    rcases await_read_state_reading fd1 c1 l fd with h1 | ⟨h1, h2⟩
    · rw [h1]
    · rw [h2]
      subst h1
      have hne : c1 ≠ h := fun he => hc (by rw [he])
      simp [List.count_append, List.count_cons, hne]

theorem exec_all_count_reading (cs : List call) (l : event_loop_t) (fd : Int)
    (h : coroutine_handle) (hc : call.await_read fd h ∉ cs) :
    List.count h ((call.exec_all cs l).files_ fd).reading_ ≤
      List.count h (l.files_ fd).reading_ := by
  induction cs generalizing l with
  | nil => exact le_refl _
  | cons c cs ih =>
    simp only [call.exec_all, List.foldl_cons]
    have h1 := ih (c.exec l) (fun hm => hc (List.mem_cons_of_mem _ hm))
    simp only [call.exec_all] at h1
    have h2 := exec_count_reading c l fd h (fun he => hc (by rw [he]; exact List.mem_cons_self _ _))
    omega

theorem resume_each_count_reading {σ : Type} (u : user_code σ)
    (tag : coroutine_handle → step) (cs : List coroutine_handle) (m : run_state σ) (fd : Int)
    (h : coroutine_handle)
    (hw : ∀ c ∈ cs, ∀ l s, call.await_read fd h ∉ (u.resume c l s).1) :
    List.count h ((resume_each u tag cs m).loop.files_ fd).reading_ ≤
      List.count h (m.loop.files_ fd).reading_ := by
  induction cs generalizing m with
  | nil => exact le_refl _
  | cons c cs ih =>
    simp only [resume_each]
    have h1 := ih (m.resume u (tag c) c) (fun c1 hc1 => hw c1 (List.mem_cons_of_mem _ hc1))
    have h2 : List.count h ((m.resume u (tag c) c).loop.files_ fd).reading_ ≤
        List.count h (m.loop.files_ fd).reading_ :=
      exec_all_count_reading _ _ fd h (hw c (List.mem_cons_self _ _) m.loop m.user)
    omega

/-- The block for `input` on `fd0` adds `h` to no FIFO of `fd1` unless one of the coroutines
it resumes suspends `h` there. -/
theorem run_input_counts {σ : Type} (u : user_code σ) (fd0 fd1 : Int) (m : run_state σ)
    (h : coroutine_handle)
    (hc : ∀ c ∈ (m.loop.files_ fd0).reading_, ∀ l s,
      call.await_read fd1 h ∉ (u.resume c l s).1 ∧
      call.await_write fd1 h ∉ (u.resume c l s).1) :
    List.count h ((event_loop_t.run_input u fd0 m).loop.files_ fd1).reading_ ≤
      List.count h (m.loop.files_ fd1).reading_ ∧
    List.count h ((event_loop_t.run_input u fd0 m).loop.files_ fd1).writing_ ≤
      List.count h (m.loop.files_ fd1).writing_ := by
  rw [run_input_eq]
  have h1 := resume_each_count_reading u (step.resume_read fd0) (m.loop.files_ fd0).reading_
    { m with loop := m.loop.set_file fd0 { m.loop.files_ fd0 with reading_ := [] } }
    fd1 h (fun c hc1 l s => (hc c hc1 l s).1)
  have h2 := resume_each_count_writing u (step.resume_read fd0) (m.loop.files_ fd0).reading_
    { m with loop := m.loop.set_file fd0 { m.loop.files_ fd0 with reading_ := [] } }
    fd1 h (fun c hc1 l s => (hc c hc1 l s).2)
  by_cases hfd : fd1 = fd0
  · subst hfd
    refine ⟨Nat.le_trans h1 ?_, Nat.le_trans h2 ?_⟩ <;> simp
  · refine ⟨Nat.le_trans h1 ?_, Nat.le_trans h2 ?_⟩ <;>
      simp [set_file_files_other _ _ _ _ hfd]

/-- The block for `output` on `fd0` adds `h` to no FIFO of `fd1` unless one of the coroutines
it resumes suspends `h` there. -/
theorem run_output_counts {σ : Type} (u : user_code σ) (fd0 fd1 : Int) (m : run_state σ)
    (h : coroutine_handle)
    (hc : ∀ c ∈ (m.loop.files_ fd0).writing_, ∀ l s,
      call.await_read fd1 h ∉ (u.resume c l s).1 ∧
      call.await_write fd1 h ∉ (u.resume c l s).1) :
    List.count h ((event_loop_t.run_output u fd0 m).loop.files_ fd1).reading_ ≤
      List.count h (m.loop.files_ fd1).reading_ ∧
    List.count h ((event_loop_t.run_output u fd0 m).loop.files_ fd1).writing_ ≤
      List.count h (m.loop.files_ fd1).writing_ := by
  rw [run_output_eq]
  have h1 := resume_each_count_reading u (step.resume_write fd0) (m.loop.files_ fd0).writing_
    { m with loop := m.loop.set_file fd0 { m.loop.files_ fd0 with writing_ := [] } }
    fd1 h (fun c hc1 l s => (hc c hc1 l s).1)
  have h2 := resume_each_count_writing u (step.resume_write fd0) (m.loop.files_ fd0).writing_
    { m with loop := m.loop.set_file fd0 { m.loop.files_ fd0 with writing_ := [] } }
    fd1 h (fun c hc1 l s => (hc c hc1 l s).2)
  by_cases hfd : fd1 = fd0
  · subst hfd
    refine ⟨Nat.le_trans h1 ?_, Nat.le_trans h2 ?_⟩ <;> simp
  · refine ⟨Nat.le_trans h1 ?_, Nat.le_trans h2 ?_⟩ <;>
      simp [set_file_files_other _ _ _ _ hfd]

/-! ### One wake per I/O phase -/

theorem run_event_single_wake {σ : Type} (u : user_code σ) (ev : selector.event_data)
    (m : run_state σ) (h : coroutine_handle)
    (hq : List.count h (m.loop.files_ ev.fd).reading_ +
      List.count h (m.loop.files_ ev.fd).writing_ ≤ 1)
    (hw : (ev.flags.and selector.events.input).to_bool = true →
      (ev.flags.and selector.events.output).to_bool = true →
      ∀ c ∈ (m.loop.files_ ev.fd).reading_, ∀ l s,
        call.await_write ev.fd h ∉ (u.resume c l s).1) :
    List.countP (step.resumes h) (event_loop_t.run_event u ev m).trace ≤
      List.countP (step.resumes h) m.trace + 1 := by
  rw [run_event_trace]
  simp only [List.countP_append]
  by_cases hi : (ev.flags.and selector.events.input).to_bool = true
  · by_cases ho : (ev.flags.and selector.events.output).to_bool = true
    · simp only [hi, ho, if_true, countP_resumes_read, countP_resumes_write]
      have h1 := resume_each_count_writing u (step.resume_read ev.fd)
        (m.loop.files_ ev.fd).reading_
        { m with loop := m.loop.set_file ev.fd { m.loop.files_ ev.fd with reading_ := [] } }
        ev.fd h (hw hi ho)
      rw [← run_input_eq] at h1
      simp only [set_file_files_same] at h1
      omega
    · simp only [hi, ho, if_true, Bool.false_eq_true, if_false, countP_resumes_read,
        List.countP_nil]
      omega
  · by_cases ho : (ev.flags.and selector.events.output).to_bool = true
    · simp only [hi, ho, if_true, Bool.false_eq_true, if_false, countP_resumes_write,
        List.countP_nil]
      omega
    · simp only [hi, ho, Bool.false_eq_true, if_false, List.countP_nil]
      omega

/-- Processing one event adds `h` to no FIFO of `fd1` unless one of the coroutines resumed
suspends `h` there. -/
theorem run_event_counts {σ : Type} (u : user_code σ) (ev : selector.event_data) (fd1 : Int)
    (m : run_state σ) (h : coroutine_handle)
    (hR : ∀ c ∈ (m.loop.files_ ev.fd).reading_, ∀ l s,
      call.await_read fd1 h ∉ (u.resume c l s).1 ∧
      call.await_write fd1 h ∉ (u.resume c l s).1)
    (hW : ∀ c ∈ ((if (ev.flags.and selector.events.input).to_bool then
          event_loop_t.run_input u ev.fd m else m).loop.files_ ev.fd).writing_, ∀ l s,
      call.await_read fd1 h ∉ (u.resume c l s).1 ∧
      call.await_write fd1 h ∉ (u.resume c l s).1) :
    List.count h ((event_loop_t.run_event u ev m).loop.files_ fd1).reading_ ≤
      List.count h (m.loop.files_ fd1).reading_ ∧
    List.count h ((event_loop_t.run_event u ev m).loop.files_ fd1).writing_ ≤
      List.count h (m.loop.files_ fd1).writing_ := by
  unfold event_loop_t.run_event
  by_cases hi : (ev.flags.and selector.events.input).to_bool = true
  · simp only [hi, if_true] at hW ⊢
    have h1 := run_input_counts u ev.fd fd1 m h hR
    by_cases ho : (ev.flags.and selector.events.output).to_bool = true
    · simp only [ho, if_true]
      have h2 := run_output_counts u ev.fd fd1 (event_loop_t.run_input u ev.fd m) h hW
      exact ⟨Nat.le_trans h2.1 h1.1, Nat.le_trans h2.2 h1.2⟩
    · simp only [ho, Bool.false_eq_true, if_false]
      exact h1
  · simp only [hi, Bool.false_eq_true, if_false] at hW ⊢
    by_cases ho : (ev.flags.and selector.events.output).to_bool = true
    · simp only [ho, if_true]
      exact run_output_counts u ev.fd fd1 m h hW
    · simp only [ho, Bool.false_eq_true, if_false]
      exact ⟨le_refl _, le_refl _⟩

theorem not_suspended_of_ne {σ : Type} (u : user_code σ) (h : coroutine_handle) (fd : Int)
    (hU : u.suspends_only_self h fd) (c : coroutine_handle) (hc : c ≠ h) (fd1 : Int)
    (l : event_loop_t) (s : σ) :
    call.await_read fd1 h ∉ (u.resume c l s).1 ∧
    call.await_write fd1 h ∉ (u.resume c l s).1 :=
  ⟨fun hm => hc (hU c l s fd1 (Or.inl hm)).1, fun hm => hc (hU c l s fd1 (Or.inr hm)).1⟩

theorem not_suspended_of_fd_ne {σ : Type} (u : user_code σ) (h : coroutine_handle) (fd : Int)
    (hU : u.suspends_only_self h fd) (c : coroutine_handle) (fd1 : Int) (hfd : fd1 ≠ fd)
    (l : event_loop_t) (s : σ) :
    call.await_read fd1 h ∉ (u.resume c l s).1 ∧
    call.await_write fd1 h ∉ (u.resume c l s).1 :=
  ⟨fun hm => hfd (hU c l s fd1 (Or.inl hm)).2, fun hm => hfd (hU c l s fd1 (Or.inr hm)).2⟩

theorem ne_of_count_eq_zero (h c : coroutine_handle) (q : List coroutine_handle)
    (hq : List.count h q = 0) (hc : c ∈ q) : c ≠ h := by
  intro he
  subst he
  have := List.count_pos_iff.2 hc
  omega

/-- An event for another descriptor does not resume `h`, which waits on `fd` only, and adds
`h` to no FIFO. -/
theorem run_event_other {σ : Type} (u : user_code σ) (h : coroutine_handle) (fd : Int)
    (hU : u.suspends_only_self h fd) (ev : selector.event_data) (m : run_state σ)
    (hev : ev.fd ≠ fd)
    (hJ : ∀ fd1, fd1 ≠ fd → List.count h (m.loop.files_ fd1).reading_ = 0 ∧
      List.count h (m.loop.files_ fd1).writing_ = 0) :
    List.countP (step.resumes h) (event_loop_t.run_event u ev m).trace =
      List.countP (step.resumes h) m.trace ∧
    ∀ fd1, List.count h ((event_loop_t.run_event u ev m).loop.files_ fd1).reading_ ≤
        List.count h (m.loop.files_ fd1).reading_ ∧
      List.count h ((event_loop_t.run_event u ev m).loop.files_ fd1).writing_ ≤
        List.count h (m.loop.files_ fd1).writing_ := by
  have hR : ∀ c ∈ (m.loop.files_ ev.fd).reading_, c ≠ h :=
    fun c hc => ne_of_count_eq_zero h c _ (hJ ev.fd hev).1 hc
  have hW0 : List.count h ((if (ev.flags.and selector.events.input).to_bool then
      event_loop_t.run_input u ev.fd m else m).loop.files_ ev.fd).writing_ = 0 := by
    by_cases hi : (ev.flags.and selector.events.input).to_bool = true
    · simp only [hi, if_true]
      have := (run_input_counts u ev.fd ev.fd m h
        (fun c hc l s => not_suspended_of_ne u h fd hU c (hR c hc) ev.fd l s)).2
      have h0 := (hJ ev.fd hev).2
      omega
    · simp only [hi, Bool.false_eq_true, if_false]
      exact (hJ ev.fd hev).2
  have hW : ∀ c ∈ ((if (ev.flags.and selector.events.input).to_bool then
      event_loop_t.run_input u ev.fd m else m).loop.files_ ev.fd).writing_, c ≠ h :=
    fun c hc => ne_of_count_eq_zero h c _ hW0 hc
  constructor
  · rw [run_event_trace]
    simp only [List.countP_append]
    have e1 : List.countP (step.resumes h)
        (if (ev.flags.and selector.events.input).to_bool = true then
          List.map (step.resume_read ev.fd) (m.loop.files_ ev.fd).reading_ else []) = 0 := by
      split_ifs
      · rw [countP_resumes_read]; exact (hJ ev.fd hev).1
      · rfl
    have e2 : List.countP (step.resumes h)
        (if (ev.flags.and selector.events.output).to_bool = true then
          List.map (step.resume_write ev.fd)
            ((if (ev.flags.and selector.events.input).to_bool then
              event_loop_t.run_input u ev.fd m else m).loop.files_ ev.fd).writing_
          else []) = 0 := by
      by_cases ho : (ev.flags.and selector.events.output).to_bool = true
      · simp only [ho, if_true]
        rw [countP_resumes_write]; exact hW0
      · simp only [ho, Bool.false_eq_true, if_false]
        rfl
    rw [e1, e2]
    rfl
  · intro fd1
    exact run_event_counts u ev fd1 m h
      (fun c hc l s => not_suspended_of_ne u h fd hU c (hR c hc) fd1 l s)
      (fun c hc l s => not_suspended_of_ne u h fd hU c (hW c hc) fd1 l s)

theorem run_events_other {σ : Type} (u : user_code σ) (h : coroutine_handle) (fd : Int)
    (hU : u.suspends_only_self h fd) (evs : List selector.event_data) (m : run_state σ)
    (hev : ∀ ev ∈ evs, ev.fd ≠ fd)
    (hJ : ∀ fd1, fd1 ≠ fd → List.count h (m.loop.files_ fd1).reading_ = 0 ∧
      List.count h (m.loop.files_ fd1).writing_ = 0) :
    List.countP (step.resumes h) (event_loop_t.run_events u evs m).trace =
      List.countP (step.resumes h) m.trace := by
  induction evs generalizing m with
  | nil => rfl
  | cons ev evs ih =>
    simp only [event_loop_t.run_events]
    obtain ⟨h1, h2⟩ := run_event_other u h fd hU ev m (hev ev (List.mem_cons_self _ _)) hJ
    rw [ih (event_loop_t.run_event u ev m)
      (fun e he => hev e (List.mem_cons_of_mem _ he))
      (fun fd1 hfd1 => by
        have a := h2 fd1
        have b := hJ fd1 hfd1
        exact ⟨by omega, by omega⟩), h1]

/-! ### Counting valid records -/

theorem count_valid_le (f : Int → file_internal) (n : Nat) : count_valid f n ≤ n := by
  induction n with
  | zero => simp [count_valid]
  | succ n ih => simp only [count_valid]; split_ifs <;> omega

theorem count_valid_congr (f g : Int → file_internal) (n : Nat)
    (h : ∀ i : Nat, i < n → (f (i : Int)).valid_ = (g (i : Int)).valid_) :
    count_valid f n = count_valid g n := by
  induction n with
  | zero => rfl
  | succ n ih =>
    simp only [count_valid, file_internal.is_valid]
    rw [ih (fun i hi => h i (Nat.lt_succ_of_lt hi))]
    simp only [h n (Nat.lt_succ_self n)]

theorem count_valid_update_of_le (f : Int → file_internal) (n k : Nat) (r : file_internal)
    (h : n ≤ k) : count_valid (Function.update f (k : Int) r) n = count_valid f n := by
  apply count_valid_congr
  intro i hi
  have : (i : Int) ≠ (k : Int) := by omega
  rw [Function.update_noteq this]

theorem count_valid_update_true (f : Int → file_internal) (n k : Nat) (r : file_internal)
    (hk : k < n) (hf : (f (k : Int)).valid_ = false) (hr : r.valid_ = true) :
    count_valid (Function.update f (k : Int) r) n = count_valid f n + 1 := by
  induction n with
  | zero => omega
  | succ n ih =>
    simp only [count_valid, file_internal.is_valid]
    by_cases hkn : k = n
    · subst hkn
      rw [count_valid_update_of_le f k k r (Nat.le_refl k)]
      simp [hf, hr]
    · have hlt : k < n := by omega
      have hne : (n : Int) ≠ (k : Int) := by omega
      rw [ih hlt, Function.update_noteq hne]
      omega

theorem count_valid_update_false (f : Int → file_internal) (n k : Nat) (r : file_internal)
    (hk : k < n) (hf : (f (k : Int)).valid_ = true) (hr : r.valid_ = false) :
    count_valid (Function.update f (k : Int) r) n + 1 = count_valid f n := by
  induction n with
  | zero => omega
  | succ n ih =>
    simp only [count_valid, file_internal.is_valid]
    by_cases hkn : k = n
    · subst hkn
      rw [count_valid_update_of_le f k k r (Nat.le_refl k)]
      simp [hf, hr]
    · have hlt : k < n := by omega
      have hne : (n : Int) ≠ (k : Int) := by omega
      have := ih hlt
      rw [Function.update_noteq hne]
      omega

theorem count_valid_update_same (f : Int → file_internal) (n : Nat) (fd : Int)
    (r : file_internal) (hr : r.valid_ = (f fd).valid_) :
    count_valid (Function.update f fd r) n = count_valid f n := by
  apply count_valid_congr
  intro i _
  by_cases hi : (i : Int) = fd
  · subst hi; rw [Function.update_same, hr]
  · rw [Function.update_noteq hi]

theorem count_valid_lt (f : Int → file_internal) (n k : Nat) (hk : k < n)
    (hf : (f (k : Int)).valid_ = false) : count_valid f n < n := by
  induction n with
  | zero => omega
  | succ n ih =>
    simp only [count_valid, file_internal.is_valid]
    by_cases hkn : k = n
    · subst hkn
      have := count_valid_le f k
      simp [hf]; omega
    · have := ih (by omega)
      split_ifs <;> omega

theorem count_valid_pos_iff (f : Int → file_internal) (n : Nat) :
    0 < count_valid f n ↔ ∃ i : Nat, i < n ∧ (f (i : Int)).valid_ = true := by
  induction n with
  | zero => simp [count_valid]
  | succ n ih =>
    simp only [count_valid, file_internal.is_valid]
    constructor
    · intro h
      by_cases hv : (f (n : Int)).valid_ = true
      · exact ⟨n, Nat.lt_succ_self n, hv⟩
      · simp only [hv, Bool.false_eq_true, if_false, Nat.add_zero] at h
        obtain ⟨i, hi, hiv⟩ := ih.1 h
        exact ⟨i, Nat.lt_succ_of_lt hi, hiv⟩
    · rintro ⟨i, hi, hiv⟩
      by_cases hin : i = n
      · subst hin; simp [hiv]
      · have := ih.2 ⟨i, by omega, hiv⟩
        omega

/-! ### The counter of the selector and the valid records -/

theorem add_fd_thrown_counts (fd : Int) (l : event_loop_t) (h : l.counts_registrations)
    (hv0 : (l.files_ fd).valid_ = false) :
    event_loop_t.counts_registrations
      { (if (l.files_ fd).constructed_ = false then l.set_file fd (file_internal.ctor fd)
          else l) with selector_ := l.selector_ } := by
  by_cases hc : (l.files_ fd).constructed_ = false
  · simp only [hc, if_true]
    obtain ⟨hin, hcount, hmax⟩ := h
    refine ⟨?_, ?_, hmax⟩
    · intro fd2 hfd2
      by_cases e : fd2 = fd
      · subst e; simp [event_loop_t.set_file, file_internal.ctor] at hfd2
      · apply hin fd2
        simpa [event_loop_t.set_file, Function.update_noteq e] using hfd2
    · show count_valid (Function.update l.files_ fd (file_internal.ctor fd)) l.max_fileno_
        = l.selector_.num_events_
      rw [count_valid_update_same _ _ _ _ (by simp [file_internal.ctor, hv0])]
      exact hcount
  · simp only [hc, if_false]
    exact h

theorem add_fd_counts (epoll_ctl : epoll_ctl_t) (fd : Int) (ops : file_ops) (l : event_loop_t)
    (h : l.counts_registrations) : (l.add_fd epoll_ctl fd ops).state.counts_registrations := by
  by_cases hr : fd < 0 ∨ (l.max_fileno_ : Int) ≤ fd
  · rw [add_fd_out_of_range epoll_ctl fd ops l hr]; exact h
  · by_cases hv : (l.files_ fd).valid_ = true
    · rw [add_fd_registered epoll_ctl fd ops l hr hv]; exact h
    · have hv0 : (l.files_ fd).valid_ = false := by simpa using hv
      obtain ⟨hin, hcount, hmax⟩ := h
      have h0 : 0 ≤ fd := by omega
      obtain ⟨k, rfl⟩ := Int.eq_ofNat_of_zero_le h0
      have hk : k < l.max_fileno_ := by omega
      rw [add_fd_fresh epoll_ctl (k : Int) ops l hr hv0]
      rcases selector_add_fd_cases epoll_ctl (k : Int) (event_loop_t.add_fd_events ops)
        l.selector_ with h1 | h1 | h1 <;> rw [h1] <;> simp only [outcome.state]
      · exact add_fd_thrown_counts (k : Int) l ⟨hin, hcount, hmax⟩ hv0
      · exact add_fd_thrown_counts (k : Int) l ⟨hin, hcount, hmax⟩ hv0
      · refine ⟨?_, ?_, hmax⟩
        · intro fd2 hfd2
          by_cases e : fd2 = (k : Int)
          · subst e; exact ⟨h0, by exact_mod_cast hk⟩
          · apply hin fd2
            simpa [Function.update_noteq e] using hfd2
        · simp only [event_loop_t.num_valid]
          rw [count_valid_update_true l.files_ l.max_fileno_ k _ hk hv0 rfl]
          have hlt := count_valid_lt l.files_ l.max_fileno_ k hk hv0
          simp only [event_loop_t.num_valid] at hcount
          rw [← hcount]
          have : count_valid l.files_ l.max_fileno_ + 1 < 2 ^ 64 := by omega
          exact (Nat.mod_eq_of_lt this).symm

theorem del_fd_counts (epoll_ctl : epoll_ctl_t) (fd : Int) (l : event_loop_t)
    (h : l.counts_registrations) : (l.del_fd epoll_ctl fd).state.counts_registrations := by
  by_cases hr : fd < 0 ∨ (l.max_fileno_ : Int) ≤ fd
  · rw [del_fd_out_of_range epoll_ctl fd l hr]; exact h
  · by_cases hv : (l.files_ fd).valid_ = true
    · obtain ⟨hin, hcount, hmax⟩ := h
      have h0 : 0 ≤ fd := by omega
      obtain ⟨k, rfl⟩ := Int.eq_ofNat_of_zero_le h0
      have hk : k < l.max_fileno_ := by omega
      rw [del_fd_registered epoll_ctl (k : Int) l hr hv]
      rcases selector_del_fd_cases epoll_ctl (k : Int) l.selector_ with h1 | h1 | h1 | ⟨hpos, h1⟩ <;>
        rw [h1] <;> simp only [outcome.state]
      · exact ⟨hin, hcount, hmax⟩
      · exact ⟨hin, hcount, hmax⟩
      · exact ⟨hin, hcount, hmax⟩
      · refine ⟨?_, ?_, hmax⟩
        · intro fd2 hfd2
          by_cases e : fd2 = (k : Int)
          · subst e; exact ⟨h0, by exact_mod_cast hk⟩
          · apply hin fd2
            simpa [Function.update_noteq e] using hfd2
        · simp only [event_loop_t.num_valid]
          have hu := count_valid_update_false l.files_ l.max_fileno_ k
            { l.files_ (k : Int) with valid_ := false } hk hv rfl
          have hle := count_valid_le l.files_ l.max_fileno_
          simp only [event_loop_t.num_valid] at hcount
          rw [← hcount, ← hu]
          have hx := count_valid_le (Function.update l.files_ (k : Int)
            { l.files_ (k : Int) with valid_ := false }) l.max_fileno_
          generalize count_valid (Function.update l.files_ (k : Int)
            { l.files_ (k : Int) with valid_ := false }) l.max_fileno_ = x at hx ⊢
          omega
    · have hv0 : (l.files_ fd).valid_ = false := by simpa using hv
      rw [del_fd_unregistered epoll_ctl fd l hr hv0]; exact h

theorem set_file_counts (l : event_loop_t) (fd : Int) (r : file_internal)
    (hr : r.valid_ = (l.files_ fd).valid_) (h : l.counts_registrations) :
    (l.set_file fd r).counts_registrations := by
  obtain ⟨hin, hcount, hmax⟩ := h
  refine ⟨?_, ?_, hmax⟩
  · intro fd2 hfd2
    apply hin fd2
    by_cases e : fd2 = fd
    · subst e; simpa [event_loop_t.set_file, hr] using hfd2
    · simpa [event_loop_t.set_file, Function.update_noteq e] using hfd2
  · show count_valid (Function.update l.files_ fd r) l.max_fileno_ = l.selector_.num_events_
    rw [count_valid_update_same _ _ _ _ hr]
    exact hcount

theorem exec_counts (c : call) (l : event_loop_t) (h : l.counts_registrations) :
    (c.exec l).counts_registrations := by
  cases c with
  | add_fd fd ops ctl => exact add_fd_counts ctl fd ops l h
  | del_fd fd ctl => exact del_fd_counts ctl fd l h
  | schedule_i s d n => exact h
  | schedule_a s d n => exact h
  | sleep_for s d n => exact h
  | await_read fd c =>
    simp only [call.exec]
    rw [await_read_eq]
    split_ifs
    · exact h
    · exact h
    · exact h
    · exact set_file_counts l fd _ rfl h
  | await_write fd c =>
    simp only [call.exec]
    rw [await_write_eq]
    split_ifs
    · exact h
    · exact h
    · exact h
    · exact set_file_counts l fd _ rfl h

theorem exec_all_counts (cs : List call) (l : event_loop_t) (h : l.counts_registrations) :
    (call.exec_all cs l).counts_registrations := by
  induction cs generalizing l with
  | nil => exact h
  | cons c cs ih =>
    simp only [call.exec_all, List.foldl_cons]
    have := ih (c.exec l) (exec_counts c l h)
    simpa only [call.exec_all] using this

theorem count_valid_zeroed (n : Nat) : count_valid (fun _ => file_internal.zeroed) n = 0 := by
  induction n with
  | zero => rfl
  | succ n ih =>
    simp only [count_valid, ih, file_internal.is_valid]
    rfl

theorem ctor_counts (this max_fileno : Nat) (epoll_create1 : Int) (m1 m2 : Bool)
    (slot slot1 : Option Nat) (l : event_loop_t) (hmax : max_fileno < 2 ^ 64)
    (h : event_loop_t.ctor this max_fileno epoll_create1 m1 m2 slot = (slot1, Except.ok l)) :
    l.counts_registrations ∧ l.max_fileno_ = max_fileno ∧ l.selector_.num_events_ = 0 := by
  unfold event_loop_t.ctor at h
  cases hs : selector.ctor epoll_create1 with
  | error e => rw [hs] at h; simp at h
  | ok sel =>
    have hsel : sel.num_events_ = 0 := by
      unfold selector.ctor at hs
      split_ifs at hs
      cases hs; rfl
    rw [hs] at h
    simp only at h
    split_ifs at h <;> simp only [Prod.mk.injEq, Except.ok.injEq, reduceCtorEq, and_false] at h
    obtain ⟨_, rfl⟩ := h
    refine ⟨⟨?_, ?_, hmax⟩, rfl, hsel⟩
    · intro fd hfd
      simp [file_internal.zeroed] at hfd
    · show count_valid (fun _ => file_internal.zeroed) max_fileno = sel.num_events_
      rw [count_valid_zeroed, hsel]

/-! ### The list of constructed records -/

theorem add_fd_state_constructed_files (epoll_ctl : epoll_ctl_t) (fd : Int) (ops : file_ops)
    (l : event_loop_t) :
    (l.add_fd epoll_ctl fd ops).state.constructed_files_ = l.constructed_files_ := by
  by_cases hr : fd < 0 ∨ (l.max_fileno_ : Int) ≤ fd
  · rw [add_fd_out_of_range epoll_ctl fd ops l hr]; rfl
  · by_cases hv : (l.files_ fd).valid_ = true
    · rw [add_fd_registered epoll_ctl fd ops l hr hv]; rfl
    · have hv0 : (l.files_ fd).valid_ = false := by simpa using hv
      rw [add_fd_fresh epoll_ctl fd ops l hr hv0]
      rcases selector_add_fd_cases epoll_ctl fd (event_loop_t.add_fd_events ops) l.selector_
        with h1 | h1 | h1 <;> rw [h1] <;> simp only [outcome.state] <;> split_ifs <;> rfl

theorem del_fd_state_constructed_files (epoll_ctl : epoll_ctl_t) (fd : Int)
    (l : event_loop_t) :
    (l.del_fd epoll_ctl fd).state.constructed_files_ = l.constructed_files_ := by
  by_cases hr : fd < 0 ∨ (l.max_fileno_ : Int) ≤ fd
  · rw [del_fd_out_of_range epoll_ctl fd l hr]; rfl
  · by_cases hv : (l.files_ fd).valid_ = true
    · rw [del_fd_registered epoll_ctl fd l hr hv]
      rcases selector_del_fd_cases epoll_ctl fd l.selector_ with h1 | h1 | h1 | ⟨_, h1⟩ <;>
        rw [h1] <;> rfl
    · have hv0 : (l.files_ fd).valid_ = false := by simpa using hv
      rw [del_fd_unregistered epoll_ctl fd l hr hv0]; rfl

theorem exec_constructed_files (c : call) (l : event_loop_t) :
    (c.exec l).constructed_files_ = l.constructed_files_ := by
  cases c with
  | add_fd fd ops ctl => exact add_fd_state_constructed_files ctl fd ops l
  | del_fd fd ctl => exact del_fd_state_constructed_files ctl fd l
  | schedule_i s d n => rfl
  | schedule_a s d n => rfl
  | sleep_for s d n => rfl
  | await_read fd h =>
    simp only [call.exec]
    rw [await_read_eq]; split_ifs <;> rfl
  | await_write fd h =>
    simp only [call.exec]
    rw [await_write_eq]; split_ifs <;> rfl

theorem exec_all_constructed_files (cs : List call) (l : event_loop_t) :
    (call.exec_all cs l).constructed_files_ = l.constructed_files_ := by
  induction cs generalizing l with
  | nil => rfl
  | cons c cs ih =>
    simp only [call.exec_all, List.foldl_cons]
    have := ih (c.exec l)
    simp only [call.exec_all] at this
    rw [this, exec_constructed_files]

theorem exec_max_fileno (c : call) (l : event_loop_t) :
    (c.exec l).max_fileno_ = l.max_fileno_ := by
  cases c with
  | add_fd fd ops ctl =>
    simp only [call.exec]
    by_cases hr : fd < 0 ∨ (l.max_fileno_ : Int) ≤ fd
    · rw [add_fd_out_of_range ctl fd ops l hr]; rfl
    · by_cases hv : (l.files_ fd).valid_ = true
      · rw [add_fd_registered ctl fd ops l hr hv]; rfl
      · have hv0 : (l.files_ fd).valid_ = false := by simpa using hv
        rw [add_fd_fresh ctl fd ops l hr hv0]
        rcases selector_add_fd_cases ctl fd (event_loop_t.add_fd_events ops) l.selector_
          with h1 | h1 | h1 <;> rw [h1] <;> simp only [outcome.state] <;> split_ifs <;> rfl
  | del_fd fd ctl =>
    simp only [call.exec]
    by_cases hr : fd < 0 ∨ (l.max_fileno_ : Int) ≤ fd
    · rw [del_fd_out_of_range ctl fd l hr]; rfl
    · by_cases hv : (l.files_ fd).valid_ = true
      · rw [del_fd_registered ctl fd l hr hv]
        rcases selector_del_fd_cases ctl fd l.selector_ with h1 | h1 | h1 | ⟨_, h1⟩ <;>
          rw [h1] <;> rfl
      · have hv0 : (l.files_ fd).valid_ = false := by simpa using hv
        rw [del_fd_unregistered ctl fd l hr hv0]; rfl
  | schedule_i s d n => rfl
  | schedule_a s d n => rfl
  | sleep_for s d n => rfl
  | await_read fd h =>
    simp only [call.exec]
    rw [await_read_eq]; split_ifs <;> rfl
  | await_write fd h =>
    simp only [call.exec]
    rw [await_write_eq]; split_ifs <;> rfl

theorem exec_all_max_fileno (cs : List call) (l : event_loop_t) :
    (call.exec_all cs l).max_fileno_ = l.max_fileno_ := by
  induction cs generalizing l with
  | nil => rfl
  | cons c cs ih =>
    simp only [call.exec_all, List.foldl_cons]
    have := ih (c.exec l)
    simp only [call.exec_all] at this
    rw [this, exec_max_fileno]

theorem dtor_records_zero (cf : Nat → Nat) (n i : Nat) (h : cf i = 0) :
    event_loop_t.dtor_records cf n i = [] := by
  cases n with
  | zero => rfl
  | succ n => simp [event_loop_t.dtor_records, h]

/-! ### Bit masks -/

theorem and_two_pow_ne_zero (m k : Nat) : m &&& 2 ^ k ≠ 0 ↔ m.testBit k = true := by
  constructor
  · intro h
    obtain ⟨i, hi⟩ := Nat.ne_zero_implies_bit_true h
    rw [Nat.testBit_and, Nat.testBit_two_pow] at hi
    simp only [Bool.and_eq_true, decide_eq_true_eq] at hi
    obtain ⟨h1, h2⟩ := hi
    rw [h2]; exact h1
  · intro h h0
    have : (m &&& 2 ^ k).testBit k = true := by
      rw [Nat.testBit_and, Nat.testBit_two_pow]; simp [h]
    rw [h0, Nat.zero_testBit] at this
    exact Bool.false_ne_true this

theorem or_ne_zero (a b : Nat) : a ||| b ≠ 0 ↔ a ≠ 0 ∨ b ≠ 0 := by
  constructor
  · intro h
    obtain ⟨i, hi⟩ := Nat.ne_zero_implies_bit_true h
    rw [Nat.testBit_or, Bool.or_eq_true] at hi
    rcases hi with hi | hi
    · left; intro h0; rw [h0, Nat.zero_testBit] at hi; exact Bool.false_ne_true hi
    · right; intro h0; rw [h0, Nat.zero_testBit] at hi; exact Bool.false_ne_true hi
  · intro h h0
    rcases h with h | h
    · obtain ⟨i, hi⟩ := Nat.ne_zero_implies_bit_true h
      have : (a ||| b).testBit i = true := by rw [Nat.testBit_or, hi]; rfl
      rw [h0, Nat.zero_testBit] at this
      exact Bool.false_ne_true this
    · obtain ⟨i, hi⟩ := Nat.ne_zero_implies_bit_true h
      have : (a ||| b).testBit i = true := by rw [Nat.testBit_or, hi, Bool.or_true]
      rw [h0, Nat.zero_testBit] at this
      exact Bool.false_ne_true this

theorem mask_error (m : Nat) : m &&& EPOLLERR ≠ 0 ↔ m.testBit 3 = true :=
  and_two_pow_ne_zero m 3

theorem mask_input (m : Nat) :
    m &&& (EPOLLIN ||| EPOLLPRI ||| EPOLLRDHUP) ≠ 0 ↔
      (m.testBit 0 || m.testBit 1 || m.testBit 13) = true := by
  rw [Nat.and_or_distrib_left, Nat.and_or_distrib_left, or_ne_zero, or_ne_zero]
  have h0 := and_two_pow_ne_zero m 0
  have h1 := and_two_pow_ne_zero m 1
  have h13 := and_two_pow_ne_zero m 13
  simp only [Bool.or_eq_true]
  exact or_congr (or_congr h0 h1) h13

theorem mask_output (m : Nat) :
    m &&& (EPOLLOUT ||| EPOLLHUP) ≠ 0 ↔ (m.testBit 2 || m.testBit 4) = true := by
  rw [Nat.and_or_distrib_left, or_ne_zero]
  have h2 := and_two_pow_ne_zero m 2
  have h4 := and_two_pow_ne_zero m 4
  simp only [Bool.or_eq_true]
  exact or_congr h2 h4

theorem translate_eq_spec (raw : epoll_event) :
    selector.translate raw = selector.translate_spec raw := by
  unfold selector.translate selector.translate_spec
  simp only [mask_error, mask_input, mask_output]
  by_cases he : raw.events.testBit 3 = true
  · simp only [he, if_true]
  · simp only [he, Bool.false_eq_true, if_false]
    by_cases hr : (raw.events.testBit 0 || raw.events.testBit 1 || raw.events.testBit 13) = true
    · by_cases hw : (raw.events.testBit 2 || raw.events.testBit 4) = true
      · simp only [hr, hw, if_true]; rfl
      · simp only [hr, hw, if_true, Bool.false_eq_true, if_false]; rfl
    · by_cases hw : (raw.events.testBit 2 || raw.events.testBit 4) = true
      · simp only [hr, hw, if_true, Bool.false_eq_true, if_false]
      · simp only [hr, hw, Bool.false_eq_true, if_false]; rfl

/-! ### Floor division and the `timespec` pair -/

theorem wrap64_of_range (x : Int) (h1 : -2 ^ 63 ≤ x) (h2 : x < 2 ^ 63) : wrap64 x = x := by
  unfold wrap64
  omega

theorem tdiv_of_nonneg (a b : Int) (ha : 0 ≤ a) (hb : 0 ≤ b) : Int.tdiv a b = a / b :=
  Int.tdiv_eq_ediv ha hb

theorem tdiv_of_neg (a b : Int) (ha : a ≤ 0) (hb : 0 ≤ b) : Int.tdiv a b = -((-a) / b) := by
  have h := Int.neg_tdiv (-a) b
  rw [neg_neg] at h
  rw [h, Int.tdiv_eq_ediv (by omega) hb]

theorem fdiv_sec (a : Int) (h1 : -2 ^ 63 + 1000000000 - 1 ≤ a) (h2 : a < 2 ^ 63) :
    time_type.fdiv a 1000000000 = a / 1000000000 := by
  unfold time_type.fdiv
  by_cases ha : a < 0
  · have e1 : wrap64 (a - (1000000000 - 1)) = a - (1000000000 - 1) :=
      wrap64_of_range _ (by omega) (by omega)
    simp only [ha, decide_True, show ¬ ((1000000000 : Int) < 0) by omega, decide_False,
      bne_iff_ne, ne_eq, Bool.true_eq_false, not_false_eq_true, if_true, e1]
    rw [tdiv_of_neg _ _ (by omega) (by omega)]
    rw [wrap64_of_range _ (by omega) (by omega)]
    omega
  · simp only [ha, decide_False, show ¬ ((1000000000 : Int) < 0) by omega,
      bne_self_eq_false, Bool.false_eq_true, if_false]
    rw [tdiv_of_nonneg _ _ (by omega) (by omega)]
    rw [wrap64_of_range _ (by omega) (by omega)]

theorem fdiv_ms (a : Int) (h1 : -2 ^ 63 + 1000000 - 1 ≤ a) (h2 : a < 2 ^ 63) :
    time_type.fdiv a 1000000 = a / 1000000 := by
  unfold time_type.fdiv
  by_cases ha : a < 0
  · have e1 : wrap64 (a - (1000000 - 1)) = a - (1000000 - 1) :=
      wrap64_of_range _ (by omega) (by omega)
    simp only [ha, decide_True, show ¬ ((1000000 : Int) < 0) by omega, decide_False,
      bne_iff_ne, ne_eq, Bool.true_eq_false, not_false_eq_true, if_true, e1]
    rw [tdiv_of_neg _ _ (by omega) (by omega)]
    rw [wrap64_of_range _ (by omega) (by omega)]
    omega
  · simp only [ha, decide_False, show ¬ ((1000000 : Int) < 0) by omega,
      bne_self_eq_false, Bool.false_eq_true, if_false]
    rw [tdiv_of_nonneg _ _ (by omega) (by omega)]
    rw [wrap64_of_range _ (by omega) (by omega)]

theorem timespec_roundtrip (ts : timespec) (h1 : 0 ≤ ts.tv_nsec) (h2 : ts.tv_nsec < 1000000000)
    (h3 : -2 ^ 63 + 1000000000 - 1 ≤ ts.tv_sec * 1000000000 + ts.tv_nsec)
    (h4 : ts.tv_sec * 1000000000 + ts.tv_nsec < 2 ^ 63) :
    (time_type.from_timespec ts).as_timespec = ts := by
  obtain ⟨sec, nsec⟩ := ts
  simp only at h1 h2 h3 h4
  unfold time_type.from_timespec time_type.as_timespec
  simp only
  rw [wrap64_of_range (sec * 1000000000) (by omega) (by omega),
    wrap64_of_range (sec * 1000000000 + nsec) (by omega) (by omega),
    fdiv_sec _ h3 h4]
  have hq : (sec * 1000000000 + nsec) / 1000000000 = sec := by omega
  rw [hq, wrap64_of_range (1000000000 * sec) (by omega) (by omega),
    wrap64_of_range _ (by omega) (by omega)]
  congr 1
  omega

/-! ### The `timespec` of a nanosecond count -/

theorem as_timespec_eq (t : time_type) (hlo : -2 ^ 63 + 1000000000 - 1 ≤ t.time_)
    (hhi : t.time_ < 2 ^ 63) :
    t.as_timespec =
      { tv_sec := t.time_ / 1000000000, tv_nsec := t.time_ % 1000000000 } := by
  unfold time_type.as_timespec
  simp only
  rw [fdiv_sec _ hlo hhi, wrap64_of_range (1000000000 * (t.time_ / 1000000000)) (by omega)
    (by omega), wrap64_of_range _ (by omega) (by omega)]
  congr 1
  omega

theorem from_as_timespec (t : time_type) (hlo : -2 ^ 63 + 1000000000 - 1 ≤ t.time_)
    (hhi : t.time_ < 2 ^ 63) : time_type.from_timespec t.as_timespec = t := by
  rw [as_timespec_eq t hlo hhi]
  unfold time_type.from_timespec
  simp only
  rw [wrap64_of_range (t.time_ / 1000000000 * 1000000000) (by omega) (by omega),
    wrap64_of_range _ (by omega) (by omega)]
  obtain ⟨x⟩ := t
  simp only [time_type.mk.injEq]
  omega

theorem wait_for_eq (epoll_pwait2 : epoll_pwait2_t) (data : List selector.event_data)
    (timeout : time_type) (sel : selector) :
    sel.wait_for epoll_pwait2 data timeout =
      sel._wait epoll_pwait2 data
        (if timeout.as_ns < 0 then none else some timeout.as_timespec) := by
  unfold selector.wait_for
  split_ifs <;> rfl

/-! ### The timer phase, exactly -/

theorem resume_throwing_state {σ : Type} (u : throwing_code σ) (st : step)
    (c : coroutine_handle) (m : run_state σ) :
    (m.resume_throwing u st c).state = m.resume u.code st c := by
  unfold run_state.resume_throwing
  cases u.resume_escapes c m.loop m.user <;> rfl

theorem resume_throwing_of_none {σ : Type} (u : throwing_code σ) (st : step)
    (c : coroutine_handle) (m : run_state σ) (h : u.resume_escapes c m.loop m.user = none) :
    m.resume_throwing u st c = run_outcome.returned (m.resume u.code st c) := by
  unfold run_state.resume_throwing
  rw [h]
  rfl

theorem handle_run_throwing_state {σ : Type} (u : throwing_code σ) (sc : scheduled_handle)
    (m : run_state σ) : (sc.run_throwing u m).state = sc.run u.code m := by
  unfold scheduled_handle.run_throwing scheduled_handle.run
  cases sc.type_
  · simp only
    cases u.func_escapes sc.target_ m.loop m.user <;> rfl
  · exact resume_throwing_state u _ _ m

theorem handle_run_throwing_of_never {σ : Type} (u : throwing_code σ)
    (sc : scheduled_handle) (m : run_state σ) (h : sc.never_escapes u) :
    sc.run_throwing u m = run_outcome.returned (sc.run u.code m) := by
  have h1 := h m.loop m.user
  unfold scheduled_handle.run_throwing scheduled_handle.run
  cases ht : sc.type_
  · rw [ht] at h1
    simp only at h1 ⊢
    rw [h1]
  · rw [ht] at h1
    exact resume_throwing_of_none u _ _ m h1

theorem resume_each_throwing_eq {σ : Type} (u : throwing_code σ)
    (tag : coroutine_handle → step) (cs : List coroutine_handle) (m : run_state σ)
    (h : ∀ c ∈ cs, ∀ l s, u.resume_escapes c l s = none) :
    resume_each_throwing u tag cs m = run_outcome.returned (resume_each u.code tag cs m) := by
  induction cs generalizing m with
  | nil => rfl
  | cons c cs ih =>
    simp only [resume_each_throwing, resume_each]
    rw [resume_throwing_of_none u _ c m (h c (List.mem_cons_self _ _) _ _)]
    exact ih _ (fun c1 hc1 => h c1 (List.mem_cons_of_mem _ hc1))

theorem run_input_throwing_eq {σ : Type} (u : throwing_code σ) (fd : Int) (m : run_state σ) :
    event_loop_t.run_input_throwing u fd m =
      resume_each_throwing u (step.resume_read fd) (m.loop.files_ fd).reading_
        { m with loop := m.loop.set_file fd { m.loop.files_ fd with reading_ := [] } } := by
  simp [event_loop_t.run_input_throwing, drain_queue_eq]

theorem run_output_throwing_eq {σ : Type} (u : throwing_code σ) (fd : Int)
    (m : run_state σ) :
    event_loop_t.run_output_throwing u fd m =
      resume_each_throwing u (step.resume_write fd) (m.loop.files_ fd).writing_
        { m with loop := m.loop.set_file fd { m.loop.files_ fd with writing_ := [] } } := by
  simp [event_loop_t.run_output_throwing, drain_queue_eq]

theorem run_input_throwing_of_none {σ : Type} (u : throwing_code σ) (fd : Int)
    (m : run_state σ)
    (h : ∀ c ∈ (m.loop.files_ fd).reading_, ∀ l s, u.resume_escapes c l s = none) :
    event_loop_t.run_input_throwing u fd m =
      run_outcome.returned (event_loop_t.run_input u.code fd m) := by
  rw [run_input_throwing_eq, run_input_eq, resume_each_throwing_eq u _ _ _ h]

theorem run_output_throwing_of_none {σ : Type} (u : throwing_code σ) (fd : Int)
    (m : run_state σ)
    (h : ∀ c ∈ (m.loop.files_ fd).writing_, ∀ l s, u.resume_escapes c l s = none) :
    event_loop_t.run_output_throwing u fd m =
      run_outcome.returned (event_loop_t.run_output u.code fd m) := by
  rw [run_output_throwing_eq, run_output_eq, resume_each_throwing_eq u _ _ _ h]

theorem run_event_throwing_of_none {σ : Type} (u : throwing_code σ)
    (ev : selector.event_data) (m : run_state σ)
    (h : ∀ c l s, u.resume_escapes c l s = none) :
    event_loop_t.run_event_throwing u ev m =
      run_outcome.returned (event_loop_t.run_event u.code ev m) := by
  unfold event_loop_t.run_event_throwing event_loop_t.run_event
  by_cases hi : (ev.flags.and selector.events.input).to_bool = true <;>
    by_cases ho : (ev.flags.and selector.events.output).to_bool = true <;>
    simp [hi, ho, run_input_throwing_of_none u _ _ (fun c _ => h c),
      run_output_throwing_of_none u _ _ (fun c _ => h c)]

/-! ### The timer phase with user code that may throw -/

theorem never_escapes_handle {σ : Type} (u : throwing_code σ) (h : u.never_escapes)
    (sc : scheduled_handle) : sc.never_escapes u := by
  intro l s
  cases sc.type_
  · exact h.1 sc.target_ l s
  · exact h.2 sc.target_ l s

theorem run_timers_throwing_of_none {σ : Type} (u : throwing_code σ) (h : u.never_escapes)
    (ct : time_type) (fuel : Nat) (m : run_state σ) :
    event_loop_t.run_timers_throwing u ct fuel m =
      if (event_loop_t.run_timers u.code ct fuel m).1 = true then
        run_outcome.returned (event_loop_t.run_timers u.code ct fuel m).2
      else run_outcome.running (event_loop_t.run_timers u.code ct fuel m).2 := by
  induction fuel generalizing m with
  | zero =>
    unfold event_loop_t.run_timers_throwing event_loop_t.run_timers
    cases pq_top m.loop.scheduled_ with
    | none => rfl
    | some t => by_cases hd : t.time.le ct = true <;> simp [hd]
  | succ n ih =>
    unfold event_loop_t.run_timers_throwing event_loop_t.run_timers
    cases hq : pq_top m.loop.scheduled_ with
    | none => rfl
    | some t =>
      by_cases hd : t.time.le ct = true
      · simp only [hd, if_true]
        rw [handle_run_throwing_of_never u t _ (never_escapes_handle u h t)]
        exact ih _
      · simp [hd]

theorem run_events_throwing_of_none {σ : Type} (u : throwing_code σ) (h : u.never_escapes)
    (evs : List selector.event_data) (m : run_state σ) :
    event_loop_t.run_events_throwing u evs m =
      run_outcome.returned (event_loop_t.run_events u.code evs m) := by
  induction evs generalizing m with
  | nil => rfl
  | cons ev rest ih =>
    simp only [event_loop_t.run_events_throwing, event_loop_t.run_events]
    rw [run_event_throwing_of_none u ev m h.2]
    exact ih _

theorem run_iteration_throwing_of_none {σ : Type} (u : throwing_code σ)
    (h : u.never_escapes) (fuel : Nat) (env : iteration_env) (m : run_state σ) :
    event_loop_t.run_iteration_throwing u fuel env m =
      (event_loop_t.run_iteration u.code fuel env m).to_outcome := by
  unfold event_loop_t.run_iteration_throwing event_loop_t.run_iteration
  rcases hw : m.loop.run_wait env with ⟨timeout, events | ⟨e, events⟩⟩
  · simp only
    rw [run_timers_throwing_of_none u h]
    rcases ht : event_loop_t.run_timers u.code env.clock_timers fuel
        { m with trace := m.trace ++ [step.wait timeout] } with ⟨flag, m2⟩
    cases flag
    · simp [run_result.to_outcome]
    · simp [run_result.to_outcome, run_events_throwing_of_none u h]
  · rfl

theorem run_throwing_of_none {σ : Type} (u : throwing_code σ) (h : u.never_escapes)
    (fuel : Nat) (envs : List iteration_env) (m : run_state σ) :
    event_loop_t.run_throwing u fuel envs m =
      (event_loop_t.run u.code fuel envs m).to_outcome := by
  induction envs generalizing m with
  | nil =>
    unfold event_loop_t.run_throwing event_loop_t.run
    split_ifs <;> rfl
  | cons env rest ih =>
    unfold event_loop_t.run_throwing event_loop_t.run
    by_cases hp : m.loop.pending_events = true
    · simp only [hp, if_true]
      rw [run_iteration_throwing_of_none u h]
      rcases event_loop_t.run_iteration u.code fuel env m with m1 | ⟨e, m1⟩ | m1
      · simp only [run_result.to_outcome]
        exact ih m1
      · rfl
      · rfl
    · simp only [hp, Bool.false_eq_true, if_false]
      rfl

/-! ## Helpers for the concrete instances -/
theorem ex_waiting_other (fd1 : Int) (h : fd1 ≠ 5) :
    List.count 7 (ex_loop_waiting.files_ fd1).reading_ = 0 ∧
    List.count 7 (ex_loop_waiting.files_ fd1).writing_ = 0 := by
  have r0 : (ex_loop.files_ fd1).reading_ = [] := rfl
  have w0 : (ex_loop.files_ fd1).writing_ = [] := rfl
  have q := add_fd_state_queues ex_ctl_ok 5 (file_ops.readable.or file_ops.writable) ex_loop fd1
  have r1 : (ex_loop_registered.files_ fd1).reading_ = [] := by
    rcases q.1 with e | e
    · exact e.trans r0
    · exact e
  have w1 : (ex_loop_registered.files_ fd1).writing_ = [] := by
    rcases q.2 with e | e
    · exact e.trans w0
    · exact e
  constructor
  · rcases await_read_state_reading 5 7 ex_loop_registered fd1 with e | ⟨e, _⟩
    · show List.count 7 ((ex_loop_registered.await_read 5 7).state.files_ fd1).reading_ = 0
      rw [e, r1]; rfl
    · exact absurd e h
  · show List.count 7 ((ex_loop_registered.await_read 5 7).state.files_ fd1).writing_ = 0
    rw [await_read_state_writing, w1]; rfl

theorem ex_rereader_suspends : ex_rereader.suspends_only_self 7 5 := by
  intro c l s fd1 hm
  by_cases hc : c = 7
  · subst hc
    simp [ex_rereader] at hm
    exact ⟨rfl, hm⟩
  · simp [ex_rereader, hc] at hm

theorem ex_quiet_no_timer_calls : ex_quiet.no_timer_calls := by
  constructor <;> intro _ _ _ c hc <;> simp [ex_quiet] at hc

/-- The loop `ex_loop` is what the constructor returns for the bound 16 when `epoll_create1`
returns 3 and both page allocations succeed. -/
theorem ex_loop_constructed :
    event_loop_t.ctor 1 16 3 true true none = (some 1, Except.ok ex_loop) := rfl

/-! ## The properties of the specification, one by one -/

/-! ### C1: one wake per iteration -/

/-- Claim C1, counterexample.  Descriptor 5 is registered readable and writable and
coroutine 7 waits on `await_read(5)`, queued once.  Its resume suspends again on the same
descriptor, through `await_write(5)`.  In one iteration of `run` in which the kernel reports
5 readable and writable, coroutine 7 is resumed twice: once by the block for input and once
more by the block for output of the same event. -/
theorem C1_counterexample :
    (ex_loop_waiting.files_ 5).reading_ = [7] ∧
    (ex_loop_waiting.files_ 5).writing_ = [] ∧
    (event_loop_t.run_iteration ex_rewriter 4 ex_env_both
        { loop := ex_loop_waiting, user := (), trace := [] }).state.trace =
      [step.wait none, step.resume_read 5 7, step.resume_write 5 7] ∧
    List.countP (step.resumes 7)
      (event_loop_t.run_iteration ex_rewriter 4 ex_env_both
        { loop := ex_loop_waiting, user := (), trace := [] }).state.trace = 2 := by
  decide

/-- Claim C1, amended.  Let the coroutine `h` wait on `fd` and nowhere else, queued at most
once in the two FIFOs of `fd` together, when the loop over the events of an iteration
starts; let the events name `fd` at most once (the kernel reports a registered descriptor
once per wait); let `h` be suspended on a descriptor only by its own resume and only on `fd`
(through `await_read` or `await_write`).  If, in the case that the event for `fd` carries
both input and output and `h` waits in the reading FIFO, the resume of `h` does not suspend
through `await_write(fd)`, then `h` is resumed at most once in that loop over the events,
whatever flags the events carry. -/
theorem C1_single_wake {σ : Type} (u : user_code σ) (h : coroutine_handle) (fd : Int)
    (evs : List selector.event_data) (m : run_state σ)
    (hU : u.suspends_only_self h fd)
    (hd : List.count fd (evs.map selector.event_data.fd) ≤ 1)
    (hJ : ∀ fd1, fd1 ≠ fd → List.count h (m.loop.files_ fd1).reading_ = 0 ∧
      List.count h (m.loop.files_ fd1).writing_ = 0)
    (hq : List.count h (m.loop.files_ fd).reading_ +
      List.count h (m.loop.files_ fd).writing_ ≤ 1)
    (h3 : ∀ ev ∈ evs, ev.fd = fd →
      (ev.flags.and selector.events.input).to_bool = true →
      (ev.flags.and selector.events.output).to_bool = true →
      0 < List.count h (m.loop.files_ fd).reading_ →
      ∀ l s, call.await_write fd h ∉ (u.resume h l s).1) :
    List.countP (step.resumes h) (event_loop_t.run_events u evs m).trace ≤
      List.countP (step.resumes h) m.trace + 1 := by
  induction evs generalizing m with
  | nil => exact Nat.le_succ _
  | cons ev rest ih =>
    simp only [event_loop_t.run_events]
    by_cases hev : ev.fd = fd
    · have hrest : ∀ e ∈ rest, e.fd ≠ fd := by
        intro e he hfd
        have h1 : fd ∈ rest.map selector.event_data.fd := List.mem_map.2 ⟨e, he, hfd⟩
        have h2 := List.count_pos_iff.2 h1
        simp only [List.map_cons, hev, List.count_cons_self] at hd
        omega
      have hone := run_event_single_wake u ev m h (by rw [hev]; exact hq) (by
        intro hi ho c hc l s
        rw [hev] at hc ⊢
        by_cases hch : c = h
        · subst hch
          exact h3 ev (List.mem_cons_self _ _) hev hi ho (List.count_pos_iff.2 hc) l s
        · exact (not_suspended_of_ne u h fd hU c hch fd l s).2)
      have hJ1 : ∀ fd1, fd1 ≠ fd →
          List.count h ((event_loop_t.run_event u ev m).loop.files_ fd1).reading_ = 0 ∧
          List.count h ((event_loop_t.run_event u ev m).loop.files_ fd1).writing_ = 0 := by
        intro fd1 hfd1
        have a := run_event_counts u ev fd1 m h
          (fun c _ l s => not_suspended_of_fd_ne u h fd hU c fd1 hfd1 l s)
          (fun c _ l s => not_suspended_of_fd_ne u h fd hU c fd1 hfd1 l s)
        have b := hJ fd1 hfd1
        exact ⟨by omega, by omega⟩
      rw [run_events_other u h fd hU rest _ hrest hJ1]
      exact hone
    · obtain ⟨h1, h2⟩ := run_event_other u h fd hU ev m hev hJ
      have hd1 : List.count fd (rest.map selector.event_data.fd) ≤ 1 := by
        simp only [List.map_cons] at hd
        rw [List.count_cons_of_ne (fun he => hev he.symm)] at hd
        exact hd
      have := ih (event_loop_t.run_event u ev m) hd1
        (fun fd1 hfd1 => by
          have a := h2 fd1
          have b := hJ fd1 hfd1
          exact ⟨by omega, by omega⟩)
        (by have a := h2 fd; omega)
        (fun e he hfd hi ho hpos l s =>
          h3 e (List.mem_cons_of_mem _ he) hfd hi ho (by have a := h2 fd; omega) l s)
      rw [h1] at this
      exact this

/-- Claim C1, instance of the amended statement: coroutine 7 waits on `await_read(5)` and
its resume suspends again through `await_read(5)`; the event for 5 carries input and output;
7 is resumed once. -/
theorem C1_single_wake_witness :
    List.countP (step.resumes 7)
        (event_loop_t.run_events ex_rereader
          [{ fd := 5, flags := selector.events.input.or selector.events.output }]
          { loop := ex_loop_waiting, user := (), trace := [] }).trace ≤
      List.countP (step.resumes 7) ([] : List step) + 1 ∧
    (event_loop_t.run_events ex_rereader
        [{ fd := 5, flags := selector.events.input.or selector.events.output }]
        { loop := ex_loop_waiting, user := (), trace := [] }).trace =
      [step.resume_read 5 7] :=
  ⟨C1_single_wake ex_rereader 7 5
    [{ fd := 5, flags := selector.events.input.or selector.events.output }]
    { loop := ex_loop_waiting, user := (), trace := [] }
    ex_rereader_suspends (by decide) ex_waiting_other (by decide)
    (fun ev _ _ _ _ _ l s => by simp [ex_rereader]), by decide⟩

/-! ### C2: FIFO order of the waiters -/

/-- Claim C3, counterexample.  `schedule_i(f1, 30 ms)` is called when the clock shows 0 and
`schedule_i(f2, 10 ms)` when it shows 25 ms: two distinct positive delays.  `run` completes
and runs `f1`, the function with the larger delay, first: its deadline 30 ms is earlier than
the deadline 35 ms of `f2`. -/
theorem C3_counterexample :
    (event_loop_t.run ex_quiet 4 [ex_env_late]
        { loop := ex_loop_two_timers, user := (), trace := [] }).is_returned = true ∧
    ran_handles (event_loop_t.run ex_quiet 4 [ex_env_late]
        { loop := ex_loop_two_timers, user := (), trace := [] }).state.trace =
      [scheduled_handle.of_func 1 (ex_ms 30), scheduled_handle.of_func 2 (ex_ms 35)] ∧
    (ex_ms 10).time_ < (ex_ms 30).time_ := by
  decide

/-- Claim C3, amended.  After a sequence of calls `schedule_i(f_i, d_i)` on a loop with an
empty timer heap, each reading the clock at its own time, the heap holds one handle per
call with the deadline clock reading plus `d_i`; when the user code adds nothing to the
heap, `run` runs the handles in order of ascending deadline, whatever the operating system
answers and however far it gets: the handles run so far and the handles still in the heap
are together the handles scheduled, and once `run` has returned every scheduled handle has
run. -/
theorem C3_deadline_order {σ : Type} (u : user_code σ) (fuel : Nat)
    (envs : List iteration_env) (l0 : event_loop_t) (user : σ)
    (subs : List (schedulable_func_t × time_type × time_type))
    (hu : u.no_timer_calls) (h0 : l0.scheduled_ = []) :
    (event_loop_t.schedule_i_all subs l0).scheduled_ =
      subs.map (fun x => scheduled_handle.of_func x.1 (x.2.2.add x.2.1)) ∧
    List.Pairwise deadline_le (ran_handles (event_loop_t.run u fuel envs
      { loop := event_loop_t.schedule_i_all subs l0, user := user, trace := [] }).state.trace) ∧
    List.Perm
      (ran_handles (event_loop_t.run u fuel envs
          { loop := event_loop_t.schedule_i_all subs l0, user := user,
            trace := [] }).state.trace ++
        (event_loop_t.run u fuel envs
          { loop := event_loop_t.schedule_i_all subs l0, user := user,
            trace := [] }).state.loop.scheduled_)
      (subs.map (fun x => scheduled_handle.of_func x.1 (x.2.2.add x.2.1))) ∧
    (∀ m1, event_loop_t.run u fuel envs
        { loop := event_loop_t.schedule_i_all subs l0, user := user, trace := [] } =
          run_result.returned m1 →
      List.Perm (ran_handles m1.trace)
        (subs.map (fun x => scheduled_handle.of_func x.1 (x.2.2.add x.2.1)))) := by
  have hs : (event_loop_t.schedule_i_all subs l0).scheduled_ =
      subs.map (fun x => scheduled_handle.of_func x.1 (x.2.2.add x.2.1)) := by
    rw [schedule_i_all_scheduled, h0, List.nil_append]
  have ho := run_order u hu fuel envs
    (subs.map (fun x => scheduled_handle.of_func x.1 (x.2.2.add x.2.1)))
    { loop := event_loop_t.schedule_i_all subs l0, user := user, trace := [] }
    (by simp [ran_handles]) (by simp [ran_handles]) (by simp [ran_handles, hs])
  refine ⟨hs, ho.1, ho.2, ?_⟩
  intro m1 hm1
  have hp := run_returned_not_pending u fuel envs _ m1 hm1
  have he := ((pending_events_eq_false _).1 hp).1
  have h2 := ho.2
  rw [hm1] at h2
  simpa [run_result.state, he] using h2

/-- Claim C3, instance: delays 30 ms, 10 ms and 20 ms scheduled at one clock reading run in
the order 10 ms, 20 ms, 30 ms. -/
theorem C3_deadline_order_witness :
    List.Pairwise deadline_le (ran_handles (event_loop_t.run ex_quiet 4 [ex_env_late]
      { loop := event_loop_t.schedule_i_all ex_three_delays ex_loop, user := (),
        trace := [] }).state.trace) ∧
    ran_handles (event_loop_t.run ex_quiet 4 [ex_env_late]
        { loop := event_loop_t.schedule_i_all ex_three_delays ex_loop, user := (),
          trace := [] }).state.trace =
      [scheduled_handle.of_func 2 (ex_ms 10), scheduled_handle.of_func 3 (ex_ms 20),
        scheduled_handle.of_func 1 (ex_ms 30)] :=
  ⟨(C3_deadline_order ex_quiet 4 [ex_env_late] ex_loop () ex_three_delays
      ex_quiet_no_timer_calls rfl).2.1, by decide⟩

/-! ### C4: due timers before I/O wakes -/

/-- Claim C4.  In an iteration of `run` that gets to its loop over the events, the steps
taken are the wait on the selector, then the handles run by the loop over due handles, then
resumptions of read and write waiters only; every handle that was in the heap with a
deadline not after the time sampled after the wait has been run, as often as it was in the
heap, before the first waiter is resumed; and when the loop over the events starts no
handle in the heap is due.  An iteration that does not get that far (the wait throws, or
the loop over due handles does not end) resumes no waiter at all. -/
theorem C4_timers_before_io {σ : Type} (u : user_code σ) (fuel : Nat) (env : iteration_env)
    (m : run_state σ) :
    match event_loop_t.run_iteration u fuel env m with
    | .returned m1 =>
      ∃ (timeout : Option time_type) (ran : List scheduled_handle) (m2 : run_state σ)
          (events : List selector.event_data) (woken : List step),
        m2.trace = m.trace ++ step.wait timeout :: ran.map step.run ∧
        m1 = event_loop_t.run_events u events m2 ∧
        m1.trace = m2.trace ++ woken ∧
        (∀ st ∈ woken, st.is_wake = true) ∧
        (∀ sc, sc.time.le env.clock_timers = true →
          List.count sc m.loop.scheduled_ ≤ List.count sc ran) ∧
        (∀ sc ∈ m2.loop.scheduled_, sc.time.le env.clock_timers = false)
    | .thrown _ m1 => ∀ st ∈ m1.trace, st.is_wake = true → st ∈ m.trace
    | .running m1 => ∀ st ∈ m1.trace, st.is_wake = true → st ∈ m.trace := by
  have h := run_iteration_spec u fuel env m
  rcases hr : event_loop_t.run_iteration u fuel env m with m1 | ⟨e, m1⟩ | m1
  · rw [hr] at h
    simp only at h ⊢
    obtain ⟨timeout, ran, m2, events, woken, h1, h2, h3, h4, _, h6, h7⟩ := h
    exact ⟨timeout, ran, m2, events, woken, h1, h2, h3, h4, h6, h7⟩
  · rw [hr] at h
    simp only at h ⊢
    obtain ⟨timeout, h1⟩ := h
    intro st hst hio
    rw [h1] at hst
    rcases List.mem_append.1 hst with h | h
    · exact h
    · simp only [List.mem_singleton] at h
      subst h
      cases hio
  · rw [hr] at h
    simp only at h ⊢
    obtain ⟨timeout, ran, h1⟩ := h
    intro st hst hio
    rw [h1] at hst
    rcases List.mem_append.1 hst with h | h
    · exact h
    · rcases List.mem_cons.1 h with h | h
      · subst h; cases hio
      · obtain ⟨sc, _, rfl⟩ := List.mem_map.1 h
        cases hio

set_option maxRecDepth 8000 in
/-- Claim C4, instance: descriptor 5 is reported readable while coroutine 7 waits on it and
the function scheduled for 30 ms is due at the clock reading 40 ms; the function runs
before the waiter is resumed. -/
theorem C4_timers_before_io_witness :
    (∃ (timeout : Option time_type) (ran : List scheduled_handle) (m2 : run_state Unit)
        (events : List selector.event_data) (woken : List step),
      m2.trace = [] ++ step.wait timeout :: ran.map step.run ∧
      (event_loop_t.run_iteration ex_quiet 4 ex_env_readable_late
          { loop := ex_loop_timer_and_waiter, user := (), trace := [] }).state =
        event_loop_t.run_events ex_quiet events m2 ∧
      (event_loop_t.run_iteration ex_quiet 4 ex_env_readable_late
          { loop := ex_loop_timer_and_waiter, user := (), trace := [] }).state.trace =
        m2.trace ++ woken ∧
      (∀ st ∈ woken, st.is_wake = true) ∧
      (∀ sc, sc.time.le ex_env_readable_late.clock_timers = true →
        List.count sc ex_loop_timer_and_waiter.scheduled_ ≤ List.count sc ran) ∧
      (∀ sc ∈ m2.loop.scheduled_, sc.time.le ex_env_readable_late.clock_timers = false)) ∧
    (event_loop_t.run_iteration ex_quiet 4 ex_env_readable_late
        { loop := ex_loop_timer_and_waiter, user := (), trace := [] }).state.trace =
      [step.wait (some (ex_ms 5)), step.run (scheduled_handle.of_func 1 (ex_ms 30)),
        step.resume_read 5 7] := by
  have e : event_loop_t.run_iteration ex_quiet 4 ex_env_readable_late
      { loop := ex_loop_timer_and_waiter, user := (), trace := [] } =
      run_result.returned (event_loop_t.run_iteration ex_quiet 4 ex_env_readable_late
        { loop := ex_loop_timer_and_waiter, user := (), trace := [] }).state := rfl
  have h := C4_timers_before_io ex_quiet 4 ex_env_readable_late
    { loop := ex_loop_timer_and_waiter, user := (), trace := [] }
  rw [e] at h
  exact ⟨h, by decide⟩

/-! ### C5: when `run` returns -/

/-- Claim C5.  With an empty heap and a registration count of zero `run` returns at once,
leaving the loop, the user state and the trace as they were (no wait, nothing run or
resumed); whenever `run` returns, the heap is empty and the registration count is zero;
with a non-empty heap or a positive count `run` goes through the body of its loop once more,
starting with a wait on the selector, and does not return before the operating system has
answered. -/
theorem C5_run_returns_iff_idle {σ : Type} (u : user_code σ) (fuel : Nat) :
    (∀ (envs : List iteration_env) (m : run_state σ),
      m.loop.scheduled_ = [] → m.loop.selector_.get_num_events = 0 →
        event_loop_t.run u fuel envs m = run_result.returned m) ∧
    (∀ (envs : List iteration_env) (m m1 : run_state σ),
      event_loop_t.run u fuel envs m = run_result.returned m1 →
        m1.loop.scheduled_ = [] ∧ m1.loop.selector_.get_num_events = 0) ∧
    (∀ (env : iteration_env) (rest : List iteration_env) (m : run_state σ),
      m.loop.scheduled_ ≠ [] ∨ 0 < m.loop.selector_.get_num_events →
        (event_loop_t.run u fuel (env :: rest) m =
          match event_loop_t.run_iteration u fuel env m with
          | .returned m1 => event_loop_t.run u fuel rest m1
          | .thrown e m1 => run_result.thrown e m1
          | .running m1 => run_result.running m1) ∧
        ∃ timeout tail, (event_loop_t.run u fuel (env :: rest) m).state.trace =
          m.trace ++ step.wait timeout :: tail) ∧
    (∀ (m : run_state σ),
      m.loop.scheduled_ ≠ [] ∨ 0 < m.loop.selector_.get_num_events →
        event_loop_t.run u fuel [] m = run_result.running m) := by
  refine ⟨?_, ?_, ?_, ?_⟩
  · intro envs m h1 h2
    have hp : m.loop.pending_events = false := (pending_events_eq_false _).2 ⟨h1, h2⟩
    cases envs <;> simp [event_loop_t.run, hp]
  · intro envs m m1 h
    exact (pending_events_eq_false _).1 (run_returned_not_pending u fuel envs m m1 h)
  · intro env rest m h
    have hp : m.loop.pending_events = true := (pending_events_eq_true _).2 h
    have heq : event_loop_t.run u fuel (env :: rest) m =
        match event_loop_t.run_iteration u fuel env m with
        | .returned m1 => event_loop_t.run u fuel rest m1
        | .thrown e m1 => run_result.thrown e m1
        | .running m1 => run_result.running m1 := by
      simp [event_loop_t.run, hp]
    refine ⟨heq, ?_⟩
    rw [heq]
    obtain ⟨timeout, tail, ht⟩ := run_iteration_trace u fuel env m
    rcases hr : event_loop_t.run_iteration u fuel env m with m1 | ⟨e, m1⟩ | m1
    · rw [hr] at ht
      simp only [run_result.state] at ht
      dsimp only
      obtain ⟨tail2, h2⟩ := run_trace_extends u fuel rest m1
      exact ⟨timeout, tail ++ tail2, by rw [h2, ht]; simp⟩
    · rw [hr] at ht
      exact ⟨timeout, tail, ht⟩
    · rw [hr] at ht
      exact ⟨timeout, tail, ht⟩
  · intro m h
    have hp : m.loop.pending_events = true := (pending_events_eq_true _).2 h
    simp [event_loop_t.run, hp]

/-- Claim C5, instance: on the loop just constructed `run` returns at once; on the loop with
two scheduled functions it starts with a wait on the selector, is still running when the
operating system has not answered, and has an empty heap and no registration once it has
returned. -/
theorem C5_run_returns_iff_idle_witness :
    event_loop_t.run ex_quiet 4 [ex_env_late] { loop := ex_loop, user := (), trace := [] } =
      run_result.returned { loop := ex_loop, user := (), trace := [] } ∧
    ((event_loop_t.run ex_quiet 4 [ex_env_late]
        { loop := ex_loop_two_timers, user := (), trace := [] }).state.loop.scheduled_ = [] ∧
      (event_loop_t.run ex_quiet 4 [ex_env_late]
        { loop := ex_loop_two_timers, user := (),
          trace := [] }).state.loop.selector_.get_num_events = 0) ∧
    (∃ timeout tail, (event_loop_t.run ex_quiet 4 [ex_env_late]
        { loop := ex_loop_two_timers, user := (), trace := [] }).state.trace =
      [] ++ step.wait timeout :: tail) ∧
    event_loop_t.run ex_quiet 4 []
        { loop := ex_loop_two_timers, user := (), trace := [] } =
      run_result.running { loop := ex_loop_two_timers, user := (), trace := [] } :=
  ⟨(C5_run_returns_iff_idle ex_quiet 4).1 [ex_env_late]
      { loop := ex_loop, user := (), trace := [] } rfl rfl,
   (C5_run_returns_iff_idle ex_quiet 4).2.1 [ex_env_late]
      { loop := ex_loop_two_timers, user := (), trace := [] }
      (event_loop_t.run ex_quiet 4 [ex_env_late]
        { loop := ex_loop_two_timers, user := (), trace := [] }).state rfl,
   ((C5_run_returns_iff_idle ex_quiet 4).2.2.1 ex_env_late []
      { loop := ex_loop_two_timers, user := (), trace := [] } (Or.inl (by decide))).2,
   (C5_run_returns_iff_idle ex_quiet 4).2.2.2
      { loop := ex_loop_two_timers, user := (), trace := [] } (Or.inl (by decide))⟩

/-! ### C6: validation in `await_read` and `await_write` -/

/-- Claim C6, counterexample.  On a loop for descriptors below 16 with nothing registered,
`await_read(-1)` and `await_write(16)` fail with `out_of_range`, not with
`bad_file_descriptor`. -/
theorem C6_counterexample :
    ((ex_loop.files_ (-1)).valid_ = false ∧
      (ex_loop.await_read (-1) 7).exn = some exception.out_of_range ∧
      (ex_loop.await_read (-1) 7).exn ≠ some exception.bad_file_descriptor) ∧
    ((ex_loop.files_ 16).valid_ = false ∧
      (ex_loop.await_write 16 7).exn = some exception.out_of_range ∧
      (ex_loop.await_write 16 7).exn ≠ some exception.bad_file_descriptor) := by
  decide

/-- Claim C6, amended.  Suspending on `await_read(fd)` with continuation `h` fails with
`out_of_range` when `fd < 0` or `fd >= max_fileno`, fails with `bad_file_descriptor` when
`fd` is in range and not registered or registered without `readable`, and otherwise appends
`h` to the reading FIFO of `fd` and changes nothing else; symmetrically for `await_write`,
`writable` and the writing FIFO.  A failing call leaves the loop as it was. -/
theorem C6_await_validates (l : event_loop_t) (fd : Int) (h : coroutine_handle) :
    (l.await_read fd h =
      if fd < 0 ∨ (l.max_fileno_ : Int) ≤ fd then outcome.thrown exception.out_of_range l
      else if (l.files_ fd).valid_ = false then outcome.thrown exception.bad_file_descriptor l
      else if ((l.files_ fd).ops_.and file_ops.readable).to_bool = false then
        outcome.thrown exception.bad_file_descriptor l
      else outcome.returned (l.set_file fd
        { l.files_ fd with reading_ := (l.files_ fd).reading_ ++ [h] })) ∧
    (l.await_write fd h =
      if fd < 0 ∨ (l.max_fileno_ : Int) ≤ fd then outcome.thrown exception.out_of_range l
      else if (l.files_ fd).valid_ = false then outcome.thrown exception.bad_file_descriptor l
      else if ((l.files_ fd).ops_.and file_ops.writable).to_bool = false then
        outcome.thrown exception.bad_file_descriptor l
      else outcome.returned (l.set_file fd
        { l.files_ fd with writing_ := (l.files_ fd).writing_ ++ [h] })) ∧
    ((l.await_read fd h).exn ≠ none → (l.await_read fd h).state = l) ∧
    ((l.await_write fd h).exn ≠ none → (l.await_write fd h).state = l) :=
  ⟨await_read_eq l fd h, await_write_eq l fd h, by
    rw [await_read_eq]; split_ifs <;> simp [outcome.exn, outcome.state], by
    rw [await_write_eq]; split_ifs <;> simp [outcome.exn, outcome.state]⟩

/-- Claim C6, instance: `await_read(-1)` and `await_write(5)` on a loop with nothing
registered fail and leave the loop unchanged. -/
theorem C6_await_validates_witness :
    (ex_loop.await_read (-1) 7).state = ex_loop ∧
    (ex_loop.await_write 5 7).state = ex_loop :=
  ⟨(C6_await_validates ex_loop (-1) 7).2.2.1 (by decide),
   (C6_await_validates ex_loop 5 7).2.2.2 (by decide)⟩

/-! ### C7: what `add_fd` rejects -/

/-- Claim C7.  `add_fd(fd, ops)` fails with `out_of_range` exactly when `fd < 0` or
`fd >= max_fileno`; for `fd` in range it fails with `invalid_argument` exactly when `fd` is
registered; in both cases the loop is left as it was; and after an `add_fd` that returned, a
second `add_fd` of the same `fd` fails with `invalid_argument` and leaves the first
registration as it is. -/
theorem C7_add_fd_rejects (epoll_ctl : epoll_ctl_t) (fd : Int) (ops : file_ops)
    (l : event_loop_t) :
    ((l.add_fd epoll_ctl fd ops).exn = some exception.out_of_range ↔
      (fd < 0 ∨ (l.max_fileno_ : Int) ≤ fd)) ∧
    (¬ (fd < 0 ∨ (l.max_fileno_ : Int) ≤ fd) →
      ((l.add_fd epoll_ctl fd ops).exn = some exception.invalid_argument ↔
        (l.files_ fd).valid_ = true)) ∧
    ((l.add_fd epoll_ctl fd ops).exn = some exception.out_of_range ∨
      (l.add_fd epoll_ctl fd ops).exn = some exception.invalid_argument →
        (l.add_fd epoll_ctl fd ops).state = l) ∧
    (∀ (l1 : event_loop_t) (epoll_ctl2 : epoll_ctl_t) (ops2 : file_ops),
      l.add_fd epoll_ctl fd ops = outcome.returned l1 →
        l1.add_fd epoll_ctl2 fd ops2 = outcome.thrown exception.invalid_argument l1) := by
  by_cases hr : fd < 0 ∨ (l.max_fileno_ : Int) ≤ fd
  · have h := add_fd_out_of_range epoll_ctl fd ops l hr
    refine ⟨?_, fun hn => absurd hr hn, ?_, ?_⟩
    · simp [h, outcome.exn, hr]
    · intro _; simp [h, outcome.state]
    · intro l1 c2 o2 h1; rw [h] at h1; cases h1
  · by_cases hv : (l.files_ fd).valid_ = true
    · have h := add_fd_registered epoll_ctl fd ops l hr hv
      refine ⟨?_, fun _ => ?_, ?_, ?_⟩
      · simp [h, outcome.exn, hr]
      · simp [h, outcome.exn, hv]
      · intro _; simp [h, outcome.state]
      · intro l1 c2 o2 h1; rw [h] at h1; cases h1
    · have hv0 : (l.files_ fd).valid_ = false := by simpa using hv
      have hx := add_fd_exn_fresh epoll_ctl fd ops l hr hv0
      have hne1 : (l.add_fd epoll_ctl fd ops).exn ≠ some exception.out_of_range := by
        rcases hx with h | h | h <;> rw [h] <;> simp
      have hne2 : (l.add_fd epoll_ctl fd ops).exn ≠ some exception.invalid_argument := by
        rcases hx with h | h | h <;> rw [h] <;> simp
      refine ⟨?_, fun _ => ?_, ?_, ?_⟩
      · simp [hne1, hr]
      · simp [hne2, hv0]
      · rintro (h | h)
        · exact absurd h hne1
        · exact absurd h hne2
      · intro l1 c2 o2 h1
        rw [add_fd_fresh epoll_ctl fd ops l hr hv0] at h1
        rcases selector_add_fd_cases epoll_ctl fd (event_loop_t.add_fd_events ops) l.selector_
          with h2 | h2 | h2
        · rw [h2] at h1; cases h1
        · rw [h2] at h1; cases h1
        · rw [h2] at h1
          simp only [outcome.returned.injEq] at h1
          subst h1
          apply add_fd_registered
          · simpa using hr
          · simp

/-- Claim C7, instance: descriptor 5 is added twice; the second call fails with
`invalid_argument` and changes nothing. -/
theorem C7_add_fd_rejects_witness :
    ((ex_loop_registered.add_fd ex_ctl_ok 5 file_ops.writable).exn =
        some exception.invalid_argument ↔ (ex_loop_registered.files_ 5).valid_ = true) ∧
    (ex_loop_registered.add_fd ex_ctl_ok 5 file_ops.writable).state = ex_loop_registered ∧
    ex_loop_registered.add_fd ex_ctl_ok 5 file_ops.writable =
      outcome.thrown exception.invalid_argument ex_loop_registered :=
  ⟨(C7_add_fd_rejects ex_ctl_ok 5 file_ops.writable ex_loop_registered).2.1 (by decide),
   (C7_add_fd_rejects ex_ctl_ok 5 file_ops.writable ex_loop_registered).2.2.1
      (Or.inr (by decide)),
   (C7_add_fd_rejects ex_ctl_ok 5 (file_ops.readable.or file_ops.writable) ex_loop).2.2.2
      ex_loop_registered ex_ctl_ok file_ops.writable rfl⟩

/-! ### C8: what `add_fd` registers -/

/-- Claim C8.  For `fd` in range and not registered, when the selector accepts the
registration (and its counter is below the largest `size_t`), `add_fd(fd, ops)` returns; it
has called the selector with an event set that has `input` exactly when `ops` has
`readable` and `output` exactly when `ops` has `writable`; the record of `fd` is
constructed and valid, holds exactly `ops` and two empty FIFOs; the registration count is
one higher; every other record, the timer heap and the bound are unchanged. -/
theorem C8_add_fd_registers (epoll_ctl : epoll_ctl_t) (fd : Int) (ops : file_ops)
    (l : event_loop_t) (hlo : 0 ≤ fd) (hhi : fd < (l.max_fileno_ : Int))
    (hv : (l.files_ fd).valid_ = false)
    (hsel : (l.selector_.add_fd epoll_ctl fd (event_loop_t.add_fd_events ops)).exn = none)
    (hcount : l.selector_.num_events_ + 1 < 2 ^ 64) :
    ∃ l1 : event_loop_t,
      l.add_fd epoll_ctl fd ops = outcome.returned l1 ∧
      l1.selector_ =
        (l.selector_.add_fd epoll_ctl fd (event_loop_t.add_fd_events ops)).state ∧
      (((event_loop_t.add_fd_events ops).and selector.events.input).to_bool = true ↔
        (ops.and file_ops.readable).to_bool = true) ∧
      (((event_loop_t.add_fd_events ops).and selector.events.output).to_bool = true ↔
        (ops.and file_ops.writable).to_bool = true) ∧
      (l1.files_ fd).constructed_ = true ∧
      (l1.files_ fd).valid_ = true ∧
      (l1.files_ fd).ops_ = ops ∧
      (l1.files_ fd).reading_ = [] ∧
      (l1.files_ fd).writing_ = [] ∧
      l1.selector_.num_events_ = l.selector_.num_events_ + 1 ∧
      (∀ fd1 : Int, fd1 ≠ fd → l1.files_ fd1 = l.files_ fd1) ∧
      l1.scheduled_ = l.scheduled_ ∧
      l1.max_fileno_ = l.max_fileno_ := by
  have hr : ¬ (fd < 0 ∨ (l.max_fileno_ : Int) ≤ fd) := by omega
  rw [add_fd_fresh epoll_ctl fd ops l hr hv]
  rcases selector_add_fd_cases epoll_ctl fd (event_loop_t.add_fd_events ops) l.selector_
    with h2 | h2 | h2
  · rw [h2] at hsel; simp [outcome.exn] at hsel
  · rw [h2] at hsel; simp [outcome.exn] at hsel
  · rw [h2]
    refine ⟨_, rfl, ?_, ?_, ?_, ?_⟩
    · simp [outcome.state]
    · rw [add_fd_events_input]
    · rw [add_fd_events_output]
    · refine ⟨by simp, by simp, by simp, by simp, by simp, ?_, ?_, rfl, rfl⟩
      · exact Nat.mod_eq_of_lt hcount
      · intro fd1 h1
        simp [Function.update, h1]

/-- Claim C8, instance: descriptor 5 was registered, coroutine 7 suspended on it, and 5 was
removed with the waiter still queued; adding 5 again empties the FIFOs. -/
theorem C8_add_fd_registers_witness :
    (ex_loop_removed.files_ 5).reading_ = [7] ∧
    ∃ l1 : event_loop_t,
      ex_loop_removed.add_fd ex_ctl_ok 5 file_ops.readable = outcome.returned l1 ∧
      (l1.files_ 5).valid_ = true ∧
      (l1.files_ 5).ops_ = file_ops.readable ∧
      (l1.files_ 5).reading_ = [] ∧
      (l1.files_ 5).writing_ = [] ∧
      l1.selector_.num_events_ = ex_loop_removed.selector_.num_events_ + 1 := by
  refine ⟨by decide, ?_⟩
  obtain ⟨l1, h1, _, _, _, _, h6, h7, h8, h9, h10, _⟩ :=
    C8_add_fd_registers ex_ctl_ok 5 file_ops.readable ex_loop_removed
      (by decide) (by decide) (by decide) (by decide) (by decide)
  exact ⟨l1, h1, h6, h7, h8, h9, h10⟩

/-! ### C9: what `del_fd` leaves alone -/

/-- Claim C9.  For `fd` in range: on a registered `fd`, when the selector accepts the
removal, `del_fd(fd)` returns with `fd` not registered and the registration count one
lower, and with both FIFOs of `fd`, its recorded `ops`, every other record and the timer
heap unchanged; on an `fd` that is not registered it fails with `bad_file_descriptor` and
changes nothing. -/
theorem C9_del_fd_frame (epoll_ctl : epoll_ctl_t) (fd : Int) (l : event_loop_t)
    (hlo : 0 ≤ fd) (hhi : fd < (l.max_fileno_ : Int)) :
    ((l.files_ fd).valid_ = true →
      (l.selector_.del_fd epoll_ctl fd).exn = none →
      l.selector_.num_events_ < 2 ^ 64 →
      ∃ l1 : event_loop_t,
        l.del_fd epoll_ctl fd = outcome.returned l1 ∧
        (l1.files_ fd).valid_ = false ∧
        l1.selector_.num_events_ + 1 = l.selector_.num_events_ ∧
        (l1.files_ fd).reading_ = (l.files_ fd).reading_ ∧
        (l1.files_ fd).writing_ = (l.files_ fd).writing_ ∧
        (l1.files_ fd).ops_ = (l.files_ fd).ops_ ∧
        (l1.files_ fd).constructed_ = (l.files_ fd).constructed_ ∧
        (∀ fd1 : Int, fd1 ≠ fd → l1.files_ fd1 = l.files_ fd1) ∧
        l1.scheduled_ = l.scheduled_ ∧
        l1.max_fileno_ = l.max_fileno_) ∧
    ((l.files_ fd).valid_ = false →
      l.del_fd epoll_ctl fd = outcome.thrown exception.bad_file_descriptor l) := by
  have hr : ¬ (fd < 0 ∨ (l.max_fileno_ : Int) ≤ fd) := by omega
  refine ⟨fun hv hsel hn => ?_, fun hv => del_fd_unregistered epoll_ctl fd l hr hv⟩
  rw [del_fd_registered epoll_ctl fd l hr hv]
  rcases selector_del_fd_cases epoll_ctl fd l.selector_ with h1 | h1 | h1 | ⟨hpos, h1⟩
  · rw [h1] at hsel; simp [outcome.exn] at hsel
  · rw [h1] at hsel; simp [outcome.exn] at hsel
  · rw [h1] at hsel; simp [outcome.exn] at hsel
  · rw [h1]
    refine ⟨_, rfl, by simp, ?_, by simp, by simp, by simp, by simp, ?_, rfl, rfl⟩
    · show (l.selector_.num_events_ + 2 ^ 64 - 1) % 2 ^ 64 + 1 = l.selector_.num_events_
      have : l.selector_.num_events_ + 2 ^ 64 - 1 = (l.selector_.num_events_ - 1) + 2 ^ 64 := by
        omega
      rw [this, Nat.add_mod_right, Nat.mod_eq_of_lt (by omega)]
      omega
    · intro fd1 h1
      simp [Function.update, h1]

/-- Claim C9, instance: descriptor 5 is removed while coroutine 7 waits on it and the waiter
stays queued; removing 5 from a loop with nothing registered fails and changes nothing. -/
theorem C9_del_fd_frame_witness :
    (∃ l1 : event_loop_t,
      ex_loop_waiting.del_fd ex_ctl_ok 5 = outcome.returned l1 ∧
      (l1.files_ 5).valid_ = false ∧
      l1.selector_.num_events_ + 1 = ex_loop_waiting.selector_.num_events_ ∧
      (l1.files_ 5).reading_ = (ex_loop_waiting.files_ 5).reading_) ∧
    ex_loop.del_fd ex_ctl_ok 5 = outcome.thrown exception.bad_file_descriptor ex_loop := by
  refine ⟨?_, (C9_del_fd_frame ex_ctl_ok 5 ex_loop (by decide) (by decide)).2 (by decide)⟩
  obtain ⟨l1, h1, h2, h3, h4, _⟩ :=
    (C9_del_fd_frame ex_ctl_ok 5 ex_loop_waiting (by decide) (by decide)).1
      (by decide) (by decide) (by decide)
  exact ⟨l1, h1, h2, h3, h4⟩

/-! ### C10: one loop per process -/

/-- Claim C10, counterexample.  A loop is installed (the slot holds address 1) and a second
`event_loop_t` is constructed with the bound 8 while `epoll_create1` fails: the member
`selector_` is constructed before the body of the constructor runs, so the construction
fails with `system_error`, not with `multiple_event_loops_exception`.  The slot is
unchanged. -/
theorem C10_counterexample :
    event_loop_t.exists (some 1) = true ∧
    event_loop_t.ctor 2 8 (-1) true true (some 1) =
      (some 1, Except.error exception.system_error) ∧
    exception.system_error ≠ exception.multiple_event_loops_exception :=
  ⟨rfl, rfl, by decide⟩

/-- Claim C10, amended.  While a loop is installed, constructing another `event_loop_t` with
a non-zero bound, when its selector can be created, fails with
`multiple_event_loops_exception` and leaves the installed loop in the slot (`get` returns
it); after the destructor of the installed loop has returned, the slot is empty (`exists`
is false, `get` fails with `bad_event_loop_access`), and constructing a loop with a non-zero
bound then succeeds and installs it, when its selector can be created and both page
allocations succeed.  When the selector cannot be created, the construction fails with
`system_error` and leaves the slot as it was. -/
theorem C10_single_loop (this installed max_fileno : Nat) (epoll_create1 : Int)
    (mmap_files mmap_constructed : Bool) (hmax : max_fileno ≠ 0) (hsel : epoll_create1 ≠ -1) :
    (event_loop_t.ctor this max_fileno epoll_create1 mmap_files mmap_constructed
        (some installed) =
      (some installed, Except.error exception.multiple_event_loops_exception) ∧
      event_loop_t.get (some installed) = Except.ok installed) ∧
    (∀ (self : event_loop_t) (munmap_constructed munmap_files : Bool)
        (slot : Option Nat) (destroyed : List Nat),
      event_loop_t.dtor installed munmap_constructed munmap_files self (some installed) =
          outcome.returned (slot, destroyed) →
        slot = none ∧
        event_loop_t.exists slot = false ∧
        event_loop_t.get slot = Except.error exception.bad_event_loop_access ∧
        ∃ l : event_loop_t,
          event_loop_t.ctor this max_fileno epoll_create1 true true slot =
            (some this, Except.ok l) ∧
          event_loop_t.get (some this) = Except.ok this ∧
          l.max_fileno_ = max_fileno) ∧
    (∀ slot : Option Nat,
      event_loop_t.ctor this max_fileno (-1) mmap_files mmap_constructed slot =
        (slot, Except.error exception.system_error)) := by
  refine ⟨?_, ?_, ?_⟩
  · simp [event_loop_t.ctor, selector.ctor, hsel, hmax, event_loop_t.get]
  · intro self mu1 mu2 slot destroyed h
    unfold event_loop_t.dtor at h
    simp only [ne_eq, not_true_eq_false, if_false] at h
    split_ifs at h with h1 h2
    simp only [outcome.returned.injEq, Prod.mk.injEq] at h
    obtain ⟨hs, _⟩ := h
    subst hs
    refine ⟨rfl, rfl, rfl, ?_⟩
    simp [event_loop_t.ctor, selector.ctor, hsel, hmax, event_loop_t.get]
  · intro slot
    simp [event_loop_t.ctor, selector.ctor]

/-- Claim C10, instance: while the loop at address 1 is installed, constructing a loop at
address 2 with bound 8 fails and `get` still returns 1; after the destructor of the
installed loop has returned, the slot is empty and the construction succeeds and installs
the loop at address 2. -/
theorem C10_single_loop_witness :
    (event_loop_t.ctor 2 8 3 true true (some 1) =
        (some 1, Except.error exception.multiple_event_loops_exception) ∧
      event_loop_t.get (some 1) = Except.ok 1) ∧
    (event_loop_t.exists none = false ∧
      event_loop_t.get none = Except.error exception.bad_event_loop_access ∧
      ∃ l : event_loop_t,
        event_loop_t.ctor 2 8 3 true true none = (some 2, Except.ok l) ∧
        event_loop_t.get (some 2) = Except.ok 2 ∧ l.max_fileno_ = 8) :=
  ⟨(C10_single_loop 2 1 8 3 true true (by decide) (by decide)).1,
   ((C10_single_loop 2 1 8 3 true true (by decide) (by decide)).2.1 ex_loop true true none
      [] rfl).2⟩
/-! ### C11 to C20 -/

/-- Claim C11, on the code. A construction that fails because the bound is zero, because a
loop is installed or because the selector cannot be created leaves the slot as it was.  A
construction that reaches the page allocations has already written its own address to the
slot: with the slot empty, bound 8 and the first (or the second) allocation failing, the
constructor of the loop at address 1 throws `system_error` and the slot holds 1, `get`
returns the address of the object that was never constructed, and a later construction at
address 2 whose allocations succeed is rejected with `multiple_event_loops_exception`. -/
theorem C11_failed_ctor_slot :
    (∀ (this : Nat) (epoll_create1 : Int) (m1 m2 : Bool) (slot : Option Nat),
      (event_loop_t.ctor this 0 epoll_create1 m1 m2 slot).1 = slot) ∧
    (∀ (this max_fileno installed : Nat) (epoll_create1 : Int) (m1 m2 : Bool),
      (event_loop_t.ctor this max_fileno epoll_create1 m1 m2 (some installed)).1 =
        some installed) ∧
    (∀ (this max_fileno : Nat) (m1 m2 : Bool) (slot : Option Nat),
      (event_loop_t.ctor this max_fileno (-1) m1 m2 slot).1 = slot) ∧
    event_loop_t.ctor 1 8 3 false true none = (some 1, Except.error exception.system_error) ∧
    event_loop_t.ctor 1 8 3 true false none = (some 1, Except.error exception.system_error) ∧
    event_loop_t.get (some 1) = Except.ok 1 ∧
    event_loop_t.ctor 2 8 3 true true (some 1) =
      (some 1, Except.error exception.multiple_event_loops_exception) := by
  refine ⟨?_, ?_, ?_, rfl, rfl, rfl, rfl⟩
  · intro this ec m1 m2 slot
    unfold event_loop_t.ctor
    cases selector.ctor ec <;> simp
  · intro this max_fileno installed ec m1 m2
    unfold event_loop_t.ctor
    cases selector.ctor ec with
    | error e => rfl
    | ok sel => by_cases h : max_fileno = 0 <;> simp [h]
  · intro this max_fileno m1 m2 slot
    simp [event_loop_t.ctor, selector.ctor]

/-- Claim C12, on the code. No call of the public interface writes `constructed_files_`, so
the list the destructor walks is as the constructor left it, all zero: after any sequence of
calls on a loop constructed with any bound, the destructor of the installed loop destroys no
record and clears the slot.  After `add_fd(5, readable)` the record of descriptor 5 has been
constructed and is valid, and the destructor still destroys nothing. -/
theorem C12_dtor_destroys_nothing :
    (∀ (this max_fileno : Nat) (sel : selector) (cs : List call),
      event_loop_t.dtor this true true
          (call.exec_all cs
            { files_ := fun _ => file_internal.zeroed, constructed_files_ := fun _ => 0,
              selector_ := sel, scheduled_ := [], max_fileno_ := max_fileno })
          (some this) =
        outcome.returned (none, [])) ∧
    event_loop_t.ctor 1 16 3 true true none = (some 1, Except.ok ex_loop) ∧
    ((ex_loop.add_fd ex_ctl_ok 5 file_ops.readable).state.files_ 5).is_constructed = true ∧
    ((ex_loop.add_fd ex_ctl_ok 5 file_ops.readable).state.files_ 5).is_valid = true ∧
    event_loop_t.dtor 1 true true (ex_loop.add_fd ex_ctl_ok 5 file_ops.readable).state
        (some 1) =
      outcome.returned (none, []) := by
  refine ⟨?_, rfl, rfl, rfl, rfl⟩
  intro this max_fileno sel cs
  unfold event_loop_t.dtor
  rw [exec_all_constructed_files, exec_all_max_fileno]
  simp [dtor_records_zero]

/-- Claim C13. For a frame of a `task<T>` coroutine (primary template) at a non-null handle:
after it completed through `return_value(v)` the tag of the promise is `value`, the task is
ready and `await_resume` of its awaiter (for the lvalue and for the rvalue task) returns
`v`; after it completed through `unhandled_exception` with `e` the tag is `exception` and
`await_resume` rethrows `e`, and so does a second `await_resume` in the state the first one
left.  After either completion, also one after the other, the tag is not `empty`. -/
theorem C13_await_completed_task {T : Type} (frames : frame_store T) (f : task_frame T)
    (h : coroutine_handle) (v : T) (e : exception_ptr) (hh : h ≠ 0) :
    ((f.co_return v).promise.resultType_ = result_type.value ∧
      (task.ctor h : task T).is_ready (Function.update frames h (some (f.co_return v))) = true ∧
      (task.ctor h : task T).co_await.await_ready
        (Function.update frames h (some (f.co_return v))) = true ∧
      (task.ctor h : task T).co_await.await_resume
          (Function.update frames h (some (f.co_return v))) =
        (Function.update frames h (some (f.co_return v)), task_result.returned v) ∧
      (task.ctor h : task T).co_await.await_resume_rvalue
          (Function.update frames h (some (f.co_return v))) =
        (Function.update frames h (some (f.co_return v)), task_result.returned v)) ∧
    ((f.throws e).promise.resultType_ = result_type.exception ∧
      (task.ctor h : task T).is_ready (Function.update frames h (some (f.throws e))) = true ∧
      (task.ctor h : task T).co_await.await_ready
        (Function.update frames h (some (f.throws e))) = true ∧
      (task.ctor h : task T).co_await.await_resume
          (Function.update frames h (some (f.throws e))) =
        (Function.update frames h (some (f.throws e)), task_result.rethrown e) ∧
      (task.ctor h : task T).co_await.await_resume
          ((task.ctor h : task T).co_await.await_resume
            (Function.update frames h (some (f.throws e)))).1 =
        (Function.update frames h (some (f.throws e)), task_result.rethrown e) ∧
      (task.ctor h : task T).co_await.await_resume_rvalue
          (Function.update frames h (some (f.throws e))) =
        (Function.update frames h (some (f.throws e)), task_result.rethrown e)) ∧
    ((f.co_return v).promise.resultType_ ≠ result_type.empty ∧
      (f.throws e).promise.resultType_ ≠ result_type.empty ∧
      ((f.co_return v).throws e).promise.resultType_ = result_type.exception ∧
      (task_promise.ctor : task_promise T).resultType_ = result_type.empty) := by
  have r1 : (task.ctor h : task T).co_await.await_resume
      (Function.update frames h (some (f.co_return v))) =
      (Function.update frames h (some (f.co_return v)), task_result.returned v) := by
    simp [task.ctor, task.co_await, awaitable_base.await_resume, hh, task_frame.co_return,
      task_promise.return_value, task_promise.result]
  have r2 : (task.ctor h : task T).co_await.await_resume
      (Function.update frames h (some (f.throws e))) =
      (Function.update frames h (some (f.throws e)), task_result.rethrown e) := by
    simp [task.ctor, task.co_await, awaitable_base.await_resume, hh, task_frame.throws,
      task_promise.unhandled_exception, task_promise.result]
  refine ⟨⟨rfl, ?_, ?_, r1, ?_⟩, ⟨rfl, ?_, ?_, r2, ?_, ?_⟩, ?_, ?_, rfl, rfl⟩
  · simp [task.ctor, task.is_ready, frame_store.done, task_frame.co_return]
  · simp [task.ctor, task.co_await, awaitable_base.await_ready, frame_store.done,
      task_frame.co_return]
  · simpa [awaitable_base.await_resume_rvalue, task_promise.result_rvalue,
      awaitable_base.await_resume] using r1
  · simp [task.ctor, task.is_ready, frame_store.done, task_frame.throws]
  · simp [task.ctor, task.co_await, awaitable_base.await_ready, frame_store.done,
      task_frame.throws]
  · rw [r2]; exact r2
  · simpa [awaitable_base.await_resume_rvalue, task_promise.result_rvalue,
      awaitable_base.await_resume] using r2
  · simp [task_frame.co_return, task_promise.return_value]
  · simp [task_frame.throws, task_promise.unhandled_exception]

/-- Claim C13, instance: the coroutine at handle 7 of a `task<int>`, created and then
completed with `co_return 42`, respectively with the exception 9 leaving its body. -/
theorem C13_await_completed_task_witness :
    (7 : coroutine_handle) ≠ 0 ∧
    ((task.ctor 7 : task Int).co_await.await_resume
        (Function.update (fun _ => none) 7
          (some ((task_frame.created : task_frame Int).co_return 42)))).2 =
      task_result.returned 42 ∧
    ((task.ctor 7 : task Int).co_await.await_resume
        (Function.update (fun _ => none) 7
          (some ((task_frame.created : task_frame Int).throws 9)))).2 =
      task_result.rethrown 9 :=
  ⟨by decide,
    congrArg Prod.snd
      (C13_await_completed_task (fun _ => none) (task_frame.created : task_frame Int) 7 42 9
        (by decide)).1.2.2.2.1,
    congrArg Prod.snd
      (C13_await_completed_task (fun _ => none) (task_frame.created : task_frame Int) 7 42 9
        (by decide)).2.1.2.2.2.1⟩

/-- Claim C14. Move construction, and move assignment from a different task, give the
destination the coroutine of the source and leave the source with the null handle.  A task
with the null handle, such as a default-constructed one or the source after either move, is
ready; the awaiter of its `co_await` is ready, so the awaiting coroutine is not suspended,
and its `await_resume` throws `broken_promise` (for the lvalue and for the rvalue task); the
awaiter of its `when_ready()` is ready and its `await_resume` returns. -/
theorem C14_moved_and_empty_tasks {T : Type} (frames : frame_store T) (src dst : task T)
    (this other_addr : Nat) (hne : other_addr ≠ this) :
    ((task.ctor_move src).1.coroutine_ = src.coroutine_ ∧
      (task.ctor_move src).2.coroutine_ = 0) ∧
    ((task.assign_move this other_addr frames dst src).2.1.coroutine_ = src.coroutine_ ∧
      (task.assign_move this other_addr frames dst src).2.2.coroutine_ = 0) ∧
    (task.ctor_default : task T).coroutine_ = 0 ∧
    (∀ t : task T, t.coroutine_ = 0 →
      t.is_ready frames = true ∧
      t.co_await.await_ready frames = true ∧
      t.co_await.await_resume frames = (frames, task_result.thrown exception.broken_promise) ∧
      t.co_await.await_resume_rvalue frames =
        (frames, task_result.thrown exception.broken_promise) ∧
      t.when_ready.await_ready frames = true ∧
      t.when_ready.await_resume_when_ready frames = (frames, task_result.returned ())) := by
  refine ⟨⟨rfl, rfl⟩, ⟨?_, ?_⟩, rfl, ?_⟩
  · simp [task.assign_move, hne]
  · simp [task.assign_move, hne]
  · intro t ht
    simp [task.is_ready, task.co_await, task.when_ready, awaitable_base.await_ready,
      awaitable_base.await_resume, awaitable_base.await_resume_rvalue,
      awaitable_base.await_resume_when_ready, ht]

/-- Claim C14, instance: the task at address 100 owning the coroutine at handle 7 is
move-assigned to the task at address 200 owning the coroutine at handle 8; afterwards the
destination owns 7 and the source is empty, ready, and awaiting it throws
`broken_promise`. -/
theorem C14_moved_and_empty_tasks_witness :
    (100 : Nat) ≠ 200 ∧
    (task.assign_move 200 100 (fun _ => (none : Option (task_frame Int))) (task.ctor 8)
        (task.ctor 7)).2.1.coroutine_ = 7 ∧
    (task.assign_move 200 100 (fun _ => (none : Option (task_frame Int))) (task.ctor 8)
        (task.ctor 7)).2.2.coroutine_ = 0 ∧
    ((task.assign_move 200 100 (fun _ => (none : Option (task_frame Int))) (task.ctor 8)
        (task.ctor 7)).2.2.co_await.await_resume
          (fun _ => (none : Option (task_frame Int)))).2 =
      task_result.thrown exception.broken_promise :=
  ⟨by decide,
    (C14_moved_and_empty_tasks (fun _ => (none : Option (task_frame Int))) (task.ctor 7)
      (task.ctor 8) 200 100 (by decide)).2.1.1,
    (C14_moved_and_empty_tasks (fun _ => (none : Option (task_frame Int))) (task.ctor 7)
      (task.ctor 8) 200 100 (by decide)).2.1.2,
    congrArg Prod.snd
      ((C14_moved_and_empty_tasks (fun _ => (none : Option (task_frame Int))) (task.ctor 7)
        (task.ctor 8) 200 100 (by decide)).2.2.2 _
          (C14_moved_and_empty_tasks (fun _ => (none : Option (task_frame Int))) (task.ctor 7)
            (task.ctor 8) 200 100 (by decide)).2.1.2).2.2.1⟩

/-- Claim C15, counterexample. For t = INT64_MIN the subtraction in `fdiv` leaves the 64-bit
range: `as_sec` gives 9223372035 where the floor of t / 10^9 is -9223372037, and `as_ms`
gives 9223372036853 where the floor of t / 10^6 is -9223372036855.  The same happens one
below the bound of the amended claim, at t = INT64_MIN + 10^9 - 2. -/
theorem C15_counterexample :
    ((-2 ^ 63 : Int) < 0 ∧
      (time_type.from_ns (-2 ^ 63)).as_sec = 9223372035 ∧
      Int.fdiv (-2 ^ 63) 1000000000 = -9223372037 ∧
      (time_type.from_ns (-2 ^ 63)).as_ms = 9223372036853 ∧
      Int.fdiv (-2 ^ 63) 1000000 = -9223372036855) ∧
    ((time_type.from_ns (-2 ^ 63 + 1000000000 - 2)).as_sec = 9223372036 ∧
      Int.fdiv (-2 ^ 63 + 1000000000 - 2) 1000000000 = -9223372036) :=
  ⟨⟨by decide, by decide, by decide, by decide, by decide⟩, by decide, by decide⟩

/-- Claim C15, amended. For every negative nanosecond count t that is at least
INT64_MIN + 10^9 - 1, `from_ns(t).as_sec()` is the floor of t / 10^9, which is negative; for
every negative t that is at least INT64_MIN + 10^6 - 1, `from_ns(t).as_ms()` is the floor of
t / 10^6, which is negative. -/
theorem C15_floor_conversions (t : Int) (h : t < 0) :
    (-2 ^ 63 + 1000000000 - 1 ≤ t →
      (time_type.from_ns t).as_sec = Int.fdiv t 1000000000 ∧
      (time_type.from_ns t).as_sec < 0) ∧
    (-2 ^ 63 + 1000000 - 1 ≤ t →
      (time_type.from_ns t).as_ms = Int.fdiv t 1000000 ∧
      (time_type.from_ns t).as_ms < 0) := by
  constructor
  · intro hlo
    have e : (time_type.from_ns t).as_sec = t / 1000000000 :=
      fdiv_sec t hlo (by omega)
    rw [e, Int.fdiv_eq_ediv t (by omega)]
    exact ⟨rfl, by omega⟩
  · intro hlo
    have e : (time_type.from_ns t).as_ms = t / 1000000 :=
      fdiv_ms t hlo (by omega)
    rw [e, Int.fdiv_eq_ediv t (by omega)]
    exact ⟨rfl, by omega⟩

/-- Claim C15, instance: -1 ns is -1 s and -1 ms, and -1500000000 ns is -2 s. -/
theorem C15_floor_conversions_witness :
    ((-1 : Int) < 0 ∧ (-2 ^ 63 + 1000000000 - 1 : Int) ≤ -1 ∧
      (-2 ^ 63 + 1000000 - 1 : Int) ≤ -1) ∧
    (time_type.from_ns (-1)).as_sec = -1 ∧
    (time_type.from_ns (-1)).as_ms = -1 ∧
    (time_type.from_ns (-1500000000)).as_sec = -2 :=
  ⟨by decide,
    ((C15_floor_conversions (-1) (by decide)).1 (by decide)).1.trans (by decide),
    ((C15_floor_conversions (-1) (by decide)).2 (by decide)).1.trans (by decide),
    ((C15_floor_conversions (-1500000000) (by decide)).1 (by decide)).1.trans (by decide)⟩

/-- Claim C16, counterexample. The pair (0 s, 10^9 ns) comes back as (1 s, 0 ns) and the pair
(0 s, -1 ns) as (-1 s, 999999999 ns): `as_timespec` always produces a nanosecond field
between 0 and 10^9 - 1. -/
theorem C16_counterexample :
    (time_type.from_timespec { tv_sec := 0, tv_nsec := 1000000000 }).as_timespec =
      { tv_sec := 1, tv_nsec := 0 } ∧
    (time_type.from_timespec { tv_sec := 0, tv_nsec := 1000000000 }).as_timespec ≠
      { tv_sec := 0, tv_nsec := 1000000000 } ∧
    (time_type.from_timespec { tv_sec := 0, tv_nsec := -1 }).as_timespec =
      { tv_sec := -1, tv_nsec := 999999999 } ∧
    (time_type.from_timespec { tv_sec := 0, tv_nsec := -1 }).as_timespec ≠
      { tv_sec := 0, tv_nsec := -1 } :=
  ⟨by decide, by decide, by decide, by decide⟩

/-- Claim C16, amended. For every timespec `ts` with `0 <= tv_nsec < 10^9` whose nanosecond
count `tv_sec * 10^9 + tv_nsec` lies between INT64_MIN + 10^9 - 1 and INT64_MAX,
`from_timespec(ts).as_timespec()` is `ts`, field by field. -/
theorem C16_timespec_roundtrip (ts : timespec) (h1 : 0 ≤ ts.tv_nsec)
    (h2 : ts.tv_nsec < 1000000000)
    (h3 : -2 ^ 63 + 1000000000 - 1 ≤ ts.tv_sec * 1000000000 + ts.tv_nsec)
    (h4 : ts.tv_sec * 1000000000 + ts.tv_nsec < 2 ^ 63) :
    ((time_type.from_timespec ts).as_timespec).tv_sec = ts.tv_sec ∧
    ((time_type.from_timespec ts).as_timespec).tv_nsec = ts.tv_nsec := by
  rw [timespec_roundtrip ts h1 h2 h3 h4]
  exact ⟨rfl, rfl⟩

/-- Claim C16, instance: the pairs (5 s, 999999999 ns) and (-3 s, 250000000 ns). -/
theorem C16_timespec_roundtrip_witness :
    ((time_type.from_timespec { tv_sec := 5, tv_nsec := 999999999 }).as_timespec).tv_sec = 5 ∧
    ((time_type.from_timespec { tv_sec := 5, tv_nsec := 999999999 }).as_timespec).tv_nsec =
      999999999 ∧
    ((time_type.from_timespec { tv_sec := -3, tv_nsec := 250000000 }).as_timespec).tv_sec =
      -3 ∧
    ((time_type.from_timespec { tv_sec := -3, tv_nsec := 250000000 }).as_timespec).tv_nsec =
      250000000 :=
  ⟨(C16_timespec_roundtrip { tv_sec := 5, tv_nsec := 999999999 } (by decide) (by decide)
      (by decide) (by decide)).1,
    (C16_timespec_roundtrip { tv_sec := 5, tv_nsec := 999999999 } (by decide) (by decide)
      (by decide) (by decide)).2,
    (C16_timespec_roundtrip { tv_sec := -3, tv_nsec := 250000000 } (by decide) (by decide)
      (by decide) (by decide)).1,
    (C16_timespec_roundtrip { tv_sec := -3, tv_nsec := 250000000 } (by decide) (by decide)
      (by decide) (by decide)).2⟩

/-- Claim C17. For every raw mask the translation of `selector::_wait` is the two-case
definition of the specification: the fd is the raw event's, with the error bit set the flags
are `input | output`, otherwise `input` is set iff one of `EPOLLIN`, `EPOLLPRI`, `EPOLLRDHUP`
is in the mask and `output` iff one of `EPOLLOUT`, `EPOLLHUP` is; no bit other than `input`
and `output` is set.  A wait that returns raw events appends their translations to `data`,
one per raw event, in order. -/
theorem C17_event_translation (raw : epoll_event) (epoll_pwait2 : epoll_pwait2_t)
    (data : List selector.event_data) (timeout : Option timespec) (sel : selector)
    (evs : List epoll_event) (hsel : sel.epfd_ ≠ -1)
    (hready : epoll_pwait2 sel.epfd_ MAX_EVENTS timeout = epoll_pwait2_result.ready evs) :
    selector.translate raw = selector.translate_spec raw ∧
    (selector.translate raw).fd = raw.data_fd ∧
    (raw.events.testBit 3 = true →
      (selector.translate raw).flags = selector.events.input.or selector.events.output) ∧
    (raw.events.testBit 3 = false →
      ((selector.translate raw).flags.and selector.events.input).to_bool =
        (raw.events.testBit 0 || raw.events.testBit 1 || raw.events.testBit 13) ∧
      ((selector.translate raw).flags.and selector.events.output).to_bool =
        (raw.events.testBit 2 || raw.events.testBit 4)) ∧
    (selector.translate raw).flags.and (selector.events.input.or selector.events.output) =
      (selector.translate raw).flags ∧
    sel._wait epoll_pwait2 data timeout =
      outcome.returned (data ++ evs.map selector.translate) ∧
    ((sel._wait epoll_pwait2 data timeout).state.drop data.length).map
        (fun ev => ev.fd) = evs.map (fun r => r.data_fd) := by
  have hw : sel._wait epoll_pwait2 data timeout =
      outcome.returned (data ++ evs.map selector.translate) := by
    simp [selector._wait, hsel, hready]
  refine ⟨translate_eq_spec raw, ?_, ?_, ?_, ?_, hw, ?_⟩
  · rw [translate_eq_spec]; rfl
  · intro h
    rw [translate_eq_spec]
    simp [selector.translate_spec, h]
  · intro h
    rw [translate_eq_spec]
    simp only [selector.translate_spec, h, Bool.false_eq_true, if_false]
    cases raw.events.testBit 0 || raw.events.testBit 1 || raw.events.testBit 13 <;>
      cases raw.events.testBit 2 || raw.events.testBit 4 <;> exact ⟨rfl, rfl⟩
  · rw [translate_eq_spec]
    simp only [selector.translate_spec]
    cases raw.events.testBit 3 <;>
      cases raw.events.testBit 0 || raw.events.testBit 1 || raw.events.testBit 13 <;>
      cases raw.events.testBit 2 || raw.events.testBit 4 <;> rfl
  · rw [hw]
    simp only [outcome.state, List.drop_left, List.map_map]
    apply List.map_congr_left
    intro r _
    show (selector.translate r).fd = r.data_fd
    rw [translate_eq_spec]; rfl

/-- Claim C17, instance: a wait that returns three raw events, for fd 5 with
`EPOLLIN | EPOLLRDHUP`, for fd 6 with `EPOLLERR | EPOLLIN` and for fd 7 with
`EPOLLOUT | EPOLLHUP`, appends (5, input), (6, input | output), (7, output). -/
theorem C17_event_translation_witness :
    selector._wait
        (fun _ _ _ => epoll_pwait2_result.ready
          [{ events := 0x2001, data_fd := 5 }, { events := 0x9, data_fd := 6 },
           { events := 0x14, data_fd := 7 }])
        [] none { epfd_ := 3, num_events_ := 3 } =
      outcome.returned
        ([] ++ [{ events := 0x2001, data_fd := 5 }, { events := 0x9, data_fd := 6 },
          { events := 0x14, data_fd := 7 }].map selector.translate) ∧
    [{ events := 0x2001, data_fd := 5 }, { events := 0x9, data_fd := 6 },
        { events := 0x14, data_fd := 7 }].map selector.translate =
      [{ fd := 5, flags := selector.events.input },
       { fd := 6, flags := selector.events.input.or selector.events.output },
       { fd := 7, flags := selector.events.output }] :=
  ⟨(C17_event_translation { events := 0x2001, data_fd := 5 }
      (fun _ _ _ => epoll_pwait2_result.ready
        [{ events := 0x2001, data_fd := 5 }, { events := 0x9, data_fd := 6 },
         { events := 0x14, data_fd := 7 }])
      [] none { epfd_ := 3, num_events_ := 3 } _ (by decide) rfl).2.2.2.2.2.1,
    by decide⟩

/-- Claim C19, counterexample.  After `schedule_i(f1, INT64_MIN ns)` at clock 1 ms the heap
holds one handle, with the deadline INT64_MIN + 10^6 ns.  In the iteration that reads the
clock at 2 ms that deadline has passed, yet the 64-bit difference wraps and the timeout
handed to `selector::wait` is 9223372036853775808 ns, about 292 years, not zero. -/
theorem C19_counterexample :
    pq_top ex_loop_past_timer.scheduled_ =
      some (scheduled_handle.of_func 1 (time_type.from_ns (-2 ^ 63 + 1000000))) ∧
    (time_type.from_ns (-2 ^ 63 + 1000000)).as_ns ≤ ex_env_two_ms.clock_wait.as_ns ∧
    max 0 ((time_type.from_ns (-2 ^ 63 + 1000000)).as_ns - ex_env_two_ms.clock_wait.as_ns) =
      0 ∧
    (ex_loop_past_timer.run_wait ex_env_two_ms).1 =
      some (time_type.from_ns 9223372036853775808) ∧
    (ex_loop_past_timer.run_wait ex_env_two_ms).1 ≠ some time_type.zero :=
  ⟨by decide, by decide, by decide, by decide, by decide⟩

/-- Claim C19, amended.  With a non-empty heap, whose earliest handle is `top`, the iteration
calls `selector::wait(events, timeout)` with `timeout = max(0, top.time() - clock)`, the
difference being the 64-bit difference of `time_type`; the timeout is not negative, so the
call passes a `timespec` to `epoll_pwait2` and never the null pointer of the indefinite
wait.  When the difference of the integers fits in 64 bits the timeout is
`max(0, deadline - clock)`, at most the time left to the deadline and zero when the deadline
has passed.  With an empty heap, and only then, the iteration calls `selector::wait(events)`,
which waits with the null pointer. -/
theorem C19_wait_timeout (env : iteration_env) (l : event_loop_t) :
    (∀ top : scheduled_handle, pq_top l.scheduled_ = some top →
      (top ∈ l.scheduled_ ∧ ∀ sc ∈ l.scheduled_, top.time.as_ns ≤ sc.time.as_ns) ∧
      ∃ timeout : time_type,
        (l.run_wait env).1 = some timeout ∧
        timeout.as_ns = max 0 (top.time.sub env.clock_wait).as_ns ∧
        0 ≤ timeout.as_ns ∧
        (l.run_wait env).2 = l.selector_.wait_for env.epoll_pwait2 [] timeout ∧
        l.selector_.wait_for env.epoll_pwait2 [] timeout =
          l.selector_._wait env.epoll_pwait2 [] (some timeout.as_timespec) ∧
        (-2 ^ 63 ≤ top.time.as_ns - env.clock_wait.as_ns →
          top.time.as_ns - env.clock_wait.as_ns < 2 ^ 63 →
          timeout.as_ns = max 0 (top.time.as_ns - env.clock_wait.as_ns) ∧
          (env.clock_wait.as_ns ≤ top.time.as_ns →
            env.clock_wait.as_ns + timeout.as_ns = top.time.as_ns) ∧
          (top.time.as_ns ≤ env.clock_wait.as_ns → timeout.as_ns = 0))) ∧
    (l.scheduled_ ≠ [] → ∃ top : scheduled_handle, pq_top l.scheduled_ = some top) ∧
    (l.scheduled_ = [] →
      (l.run_wait env).1 = none ∧
      (l.run_wait env).2 = l.selector_.wait env.epoll_pwait2 [] ∧
      l.selector_.wait env.epoll_pwait2 [] = l.selector_._wait env.epoll_pwait2 [] none) ∧
    ((l.run_wait env).1 = none ↔ l.scheduled_ = []) := by
  refine ⟨?_, ?_, ?_, ?_⟩
  · intro top htop
    refine ⟨⟨pq_top_mem _ _ htop, pq_top_min _ _ htop⟩, ?_⟩
    unfold event_loop_t.run_wait
    rw [htop]
    simp only
    by_cases hneg : (top.time.sub env.clock_wait).as_ns < 0
    · refine ⟨time_type.zero, ?_, ?_, ?_, ?_, ?_, ?_⟩
      · simp [hneg]
      · simp only [time_type.zero, time_type.as_ns] at hneg ⊢
        omega
      · simp [time_type.zero, time_type.as_ns]
      · simp [hneg]
      · simp [selector.wait_for, time_type.zero, time_type.as_ns]
      · intro hlo hhi
        simp only [time_type.as_ns, time_type.sub, scheduled_handle.time, time_type.zero]
          at hneg hlo hhi ⊢
        rw [wrap64_of_range _ hlo hhi] at hneg
        exact ⟨by omega, fun _ => by omega, fun _ => trivial⟩
    · refine ⟨top.time.sub env.clock_wait, ?_, ?_, ?_, ?_, ?_, ?_⟩
      · simp [hneg]
      · simp only [time_type.as_ns] at hneg ⊢
        omega
      · omega
      · simp [hneg]
      · simp [selector.wait_for, hneg]
      · intro hlo hhi
        simp only [time_type.as_ns, time_type.sub, scheduled_handle.time] at hneg hlo hhi ⊢
        rw [wrap64_of_range _ hlo hhi] at hneg ⊢
        exact ⟨by omega, fun _ => by omega, fun _ => by omega⟩
  · intro hne
    cases hq : pq_top l.scheduled_ with
    | none => exact absurd ((pq_top_eq_none _).1 hq) hne
    | some top => exact ⟨top, rfl⟩
  · intro he
    unfold event_loop_t.run_wait
    rw [(pq_top_eq_none _).2 he]
    exact ⟨rfl, rfl, rfl⟩
  · unfold event_loop_t.run_wait
    cases hq : pq_top l.scheduled_ with
    | none => simpa using (pq_top_eq_none _).1 hq
    | some top =>
      simp only [reduceCtorEq, false_iff]
      intro he
      rw [(pq_top_eq_none _).2 he] at hq
      exact Option.noConfusion hq

/-- Claim C19, instance: with the functions 1, 2 and 3 scheduled for 30 ms, 10 ms and 20 ms,
the earliest handle is function 2; at clock 25 ms the timeout is zero, and at clock 4 ms it
is 6 ms. -/
theorem C19_wait_timeout_witness :
    pq_top (event_loop_t.schedule_i_all ex_three_delays ex_loop).scheduled_ =
      some (scheduled_handle.of_func 2 (ex_ms 10)) ∧
    (scheduled_handle.of_func 2 (ex_ms 10) ∈
        (event_loop_t.schedule_i_all ex_three_delays ex_loop).scheduled_ ∧
      ∀ sc ∈ (event_loop_t.schedule_i_all ex_three_delays ex_loop).scheduled_,
        (scheduled_handle.of_func 2 (ex_ms 10)).time.as_ns ≤ sc.time.as_ns) ∧
    ((event_loop_t.schedule_i_all ex_three_delays ex_loop).run_wait ex_env_late).1 =
      some time_type.zero ∧
    ((event_loop_t.schedule_i_all ex_three_delays ex_loop).run_wait
      { clock_wait := ex_ms 4, epoll_pwait2 := fun _ _ _ => epoll_pwait2_result.ready [],
        clock_timers := ex_ms 10 }).1 = some (ex_ms 6) ∧
    (ex_loop.run_wait ex_env_late).1 = none :=
  ⟨rfl,
    ((C19_wait_timeout ex_env_late (event_loop_t.schedule_i_all ex_three_delays ex_loop)).1
      (scheduled_handle.of_func 2 (ex_ms 10)) rfl).1,
    by decide, by decide, by decide⟩

/-- Claim C20. In every loop state reached from a successful construction (with a bound that
fits a `size_t`) through any sequence of calls of the public interface, the selector failing
or not in each of them, `get_num_events()` is the number of records marked valid, every
valid record belongs to a descriptor in range, and `get_num_events() > 0` holds exactly when
some descriptor is registered. -/
theorem C20_counter_counts_valid (this max_fileno : Nat) (epoll_create1 : Int)
    (mmap_files mmap_constructed : Bool) (slot slot1 : Option Nat) (l : event_loop_t)
    (cs : List call) (hmax : max_fileno < 2 ^ 64)
    (h : event_loop_t.ctor this max_fileno epoll_create1 mmap_files mmap_constructed slot =
      (slot1, Except.ok l)) :
    (call.exec_all cs l).selector_.get_num_events = (call.exec_all cs l).num_valid ∧
    (∀ fd : Int, ((call.exec_all cs l).files_ fd).is_valid = true →
      0 ≤ fd ∧ fd < ((call.exec_all cs l).max_fileno_ : Int)) ∧
    (0 < (call.exec_all cs l).selector_.get_num_events ↔
      ∃ fd : Int, ((call.exec_all cs l).files_ fd).is_valid = true) := by
  obtain ⟨hinv, _, _⟩ := ctor_counts this max_fileno epoll_create1 mmap_files mmap_constructed
    slot slot1 l hmax h
  obtain ⟨hin, hcount, _⟩ := exec_all_counts cs l hinv
  refine ⟨hcount.symm, hin, ?_⟩
  simp only [selector.get_num_events, ← hcount, event_loop_t.num_valid]
  rw [count_valid_pos_iff]
  constructor
  · rintro ⟨i, _, hi⟩
    exact ⟨(i : Int), hi⟩
  · rintro ⟨fd, hfd⟩
    obtain ⟨h0, h1⟩ := hin fd hfd
    obtain ⟨k, rfl⟩ := Int.eq_ofNat_of_zero_le h0
    exact ⟨k, by exact_mod_cast h1, hfd⟩

/-- Claim C20, instance: the loop constructed with bound 16, after two registrations the
selector accepts, one it refuses, one removal it refuses and one it accepts, has one valid
record (descriptor 6) and `get_num_events()` is 1. -/
theorem C20_counter_counts_valid_witness :
    event_loop_t.ctor 1 16 3 true true none = (some 1, Except.ok ex_loop) ∧
    (call.exec_all ex_calls ex_loop).selector_.get_num_events = 1 ∧
    (call.exec_all ex_calls ex_loop).num_valid = 1 ∧
    ((call.exec_all ex_calls ex_loop).files_ 6).is_valid = true ∧
    ((call.exec_all ex_calls ex_loop).selector_.get_num_events =
        (call.exec_all ex_calls ex_loop).num_valid ∧
      (∀ fd : Int, ((call.exec_all ex_calls ex_loop).files_ fd).is_valid = true →
        0 ≤ fd ∧ fd < ((call.exec_all ex_calls ex_loop).max_fileno_ : Int)) ∧
      (0 < (call.exec_all ex_calls ex_loop).selector_.get_num_events ↔
        ∃ fd : Int, ((call.exec_all ex_calls ex_loop).files_ fd).is_valid = true)) :=
  ⟨rfl, rfl, rfl, rfl,
    C20_counter_counts_valid 1 16 3 true true none (some 1) ex_loop ex_calls (by norm_num) rfl⟩

/-! ### C21 -/

/-- Claim C21. For every `time_type` value `t` (a 64-bit nanosecond count) that is at least
INT64_MIN + 10^9 - 1, `t.as_timespec()` is normalised: `0 <= tv_nsec < 10^9`, `tv_sec` is the
floor of `t / 10^9`, also for negative `t`, the pair stands for `t` nanoseconds, and
`from_timespec(t.as_timespec())` is `t`.  For every timeout, `selector::wait(data, timeout)`
calls `_wait` either with the null pointer (negative timeout) or with a `timespec` that has
`tv_sec >= 0` and `0 <= tv_nsec < 10^9`; so its result does not depend on what
`epoll_pwait2` would answer to any other `timespec`. -/
theorem C21_as_timespec_normalised (t : time_type)
    (hlo : -2 ^ 63 + 1000000000 - 1 ≤ t.as_ns) (hhi : t.as_ns < 2 ^ 63) :
    (0 ≤ t.as_timespec.tv_nsec ∧ t.as_timespec.tv_nsec < 1000000000) ∧
    t.as_timespec.tv_sec = Int.fdiv t.as_ns 1000000000 ∧
    t.as_timespec.tv_sec * 1000000000 + t.as_timespec.tv_nsec = t.as_ns ∧
    time_type.from_timespec t.as_timespec = t ∧
    (∀ (timeout : time_type) (epoll_pwait2 : epoll_pwait2_t) (data : List selector.event_data)
        (sel : selector), timeout.as_ns < 2 ^ 63 →
      (timeout.as_ns < 0 →
        sel.wait_for epoll_pwait2 data timeout = sel._wait epoll_pwait2 data none) ∧
      (0 ≤ timeout.as_ns →
        sel.wait_for epoll_pwait2 data timeout =
          sel._wait epoll_pwait2 data (some timeout.as_timespec) ∧
        0 ≤ timeout.as_timespec.tv_sec ∧
        0 ≤ timeout.as_timespec.tv_nsec ∧ timeout.as_timespec.tv_nsec < 1000000000) ∧
      (∀ other : epoll_pwait2_t,
        (∀ (epfd : Int) (n : Nat), other epfd n none = epoll_pwait2 epfd n none) →
        (∀ (epfd : Int) (n : Nat) (ts : timespec), 0 ≤ ts.tv_sec → 0 ≤ ts.tv_nsec →
          ts.tv_nsec < 1000000000 → other epfd n (some ts) = epoll_pwait2 epfd n (some ts)) →
        sel.wait_for other data timeout = sel.wait_for epoll_pwait2 data timeout)) := by
  simp only [time_type.as_ns] at hlo hhi ⊢
  refine ⟨?_, ?_, ?_, from_as_timespec t hlo hhi, ?_⟩
  · rw [as_timespec_eq t hlo hhi]
    simp only
    omega
  · rw [as_timespec_eq t hlo hhi, Int.fdiv_eq_ediv _ (by omega)]
  · rw [as_timespec_eq t hlo hhi]
    simp only
    omega
  · intro timeout epoll_pwait2 data sel hty
    have hvalid : 0 ≤ timeout.time_ →
        0 ≤ timeout.as_timespec.tv_sec ∧
        0 ≤ timeout.as_timespec.tv_nsec ∧ timeout.as_timespec.tv_nsec < 1000000000 := by
      intro h0
      rw [as_timespec_eq timeout (by omega) hty]
      simp only
      omega
    refine ⟨?_, ?_, ?_⟩
    · intro hneg
      rw [wait_for_eq]
      simp [time_type.as_ns, hneg]
    · intro h0
      refine ⟨?_, hvalid h0⟩
      rw [wait_for_eq]
      simp [time_type.as_ns, not_lt.2 h0]
    · intro other hnone hsome
      rw [wait_for_eq, wait_for_eq]
      by_cases hneg : timeout.time_ < 0
      · simp only [time_type.as_ns, hneg, if_true, selector._wait, hnone]
      · obtain ⟨h1, h2, h3⟩ := hvalid (not_lt.1 hneg)
        simp only [time_type.as_ns, hneg, if_false, selector._wait, hsome _ _ _ h1 h2 h3]

/-- Claim C21, instance: -1 ns is the pair (-1 s, 999999999 ns), which `from_timespec` turns
back into -1 ns, and 1500000000 ns is the pair (1 s, 500000000 ns). -/
theorem C21_as_timespec_normalised_witness :
    ((-2 ^ 63 + 1000000000 - 1 : Int) ≤ (time_type.from_ns (-1)).as_ns ∧
      (time_type.from_ns (-1)).as_ns < 2 ^ 63) ∧
    (time_type.from_ns (-1)).as_timespec = { tv_sec := -1, tv_nsec := 999999999 } ∧
    (time_type.from_ns 1500000000).as_timespec = { tv_sec := 1, tv_nsec := 500000000 } ∧
    time_type.from_timespec (time_type.from_ns (-1)).as_timespec = time_type.from_ns (-1) ∧
    (time_type.from_ns (-1)).as_timespec.tv_sec = Int.fdiv (time_type.from_ns (-1)).as_ns
      1000000000 :=
  ⟨⟨by decide, by decide⟩, by decide, by decide,
    (C21_as_timespec_normalised (time_type.from_ns (-1)) (by decide) (by decide)).2.2.2.1,
    (C21_as_timespec_normalised (time_type.from_ns (-1)) (by decide) (by decide)).2.1⟩

end rio
